import Mathlib

/-!
# vue-l-lazyload: the visibility and load-scheduling engine of `src/lazy.js`

A shallow embedding of `src/lazy.js` (class `Req`, `defaultLoadHandler`,
`destroyLoaderDeep` and the class `LazyLoader` returned by `LazyClass`).

Modelling conventions
* JavaScript objects live in a heap: a `LazyLoader` is addressed by a natural
  number, a `Req` by another one; a reference is the address.
* Numbers of the geometry are exact rationals (floating point rounding is not
  modelled).
* User supplied callbacks (`onLoad`, `onErr`, `onReq`, `onEnter`, `onLeave`, the
  retry function, a custom load handler) are recorded in a trace in call order and
  are assumed not to call back into the library while they run; the continuation
  `next` handed to a retry function is an entry point of its own.
* The helpers imported from `./util` are not part of the sources at hand; they are
  modelled from the specification and marked so.
* Throttling and debouncing only decide when a dispatch runs; a dispatch is an
  entry point of the model.
-/

namespace Lazyload

/-! ## Constants of `lazy.js` -/

def EV_SCROLL : String := "scroll"
def CLASS_LOADING : String := "lazy-loading"
def CLASS_ERR : String := "lazy-err"
def CLASS_LOADED : String := "lazy-loaded"
def CLASS_TARGET_SELF : String := "self"
def CLASS_TARGET_PARENT : String := "parent"
def THROTTLE_METHOD_DEBOUNCE : String := "debounce"
def MODE_BG : String := "bg"

def STAT_NOT_LOAD : Nat := 0
def STAT_LOADING : Nat := 1
def STAT_LOADED : Nat := 2

/-! ## Elements -/

/-- An element handle: the global `window` or a DOM element. -/
inductive El where
  | win : El
  | dom (k : Nat) : El
  deriving DecidableEq, Repr

/-- The element a request loads into: the element itself, or a detached
`new Image()` (background mode). -/
inductive LoadEl where
  | el (e : El) : LoadEl
  | image (k : Nat) : LoadEl
  deriving DecidableEq, Repr

/-- The rectangle returned by `offset(el)`. -/
structure Offset where
  left : ℚ
  top : ℚ
  width : ℚ
  height : ℚ

/-- The four geometry properties read from `window`. -/
structure Win where
  pageXOffset : ℚ
  pageYOffset : ℚ
  innerWidth : ℚ
  innerHeight : ℚ

/-! ## Helpers of `./util` -/

/-- Modelled from the spec: `FMap` of `./util`, the insertion-ordered key to value
container used for the child registry and the per-event queues. -/
structure FMap (V : Type) where
  entries : List (Nat × V)

namespace FMap

variable {V : Type}

/-- Modelled from the spec: `new FMap()`. -/
def empty : FMap V := ⟨[]⟩

/-- Modelled from the spec: `FMap.has`. -/
def has (m : FMap V) (k : Nat) : Bool := m.entries.any (fun e => e.1 == k)

/-- Modelled from the spec: `FMap.get`; `none` stands for `undefined`. -/
def get (m : FMap V) (k : Nat) : Option V := (m.entries.find? (fun e => e.1 == k)).map Prod.snd

/-- Modelled from the spec: `FMap.set`; a key already present keeps its place. -/
def set (m : FMap V) (k : Nat) (v : V) : FMap V :=
  if m.has k then ⟨m.entries.map (fun e => if e.1 == k then (k, v) else e)⟩
  else ⟨m.entries ++ [(k, v)]⟩

/-- Modelled from the spec: `FMap.rm`. -/
def rm (m : FMap V) (k : Nat) : FMap V := ⟨m.entries.filter (fun e => !(e.1 == k))⟩

/-- Modelled from the spec: `FMap.size`. -/
def size (m : FMap V) : Nat := m.entries.length

/-- Modelled from the spec: `FMap.keys`, the keys in insertion order. -/
def keys (m : FMap V) : List Nat := m.entries.map Prod.fst

end FMap

/-- Modelled from the spec: `trim` of `./util`; an absent source trims to the empty
string, white space is removed at both ends. -/
def trim (s : Option String) : String :=
  match s with
  | none => ""
  | some t =>
    String.mk ((t.data.dropWhile Char.isWhitespace).reverse.dropWhile Char.isWhitespace).reverse

/-- JavaScript truthiness of a string. -/
def truthyStr (s : String) : Bool := !(s == "")

/-- JavaScript truthiness of a string that may be `undefined`. -/
def truthy (s : Option String) : Bool :=
  match s with
  | none => false
  | some t => truthyStr t

/-! ## `class Req` -/

/-- A member of the `filters` pipeline: `cur(lastResult, { el })`. -/
abbrev Filter := String → El → String

/-- The `retry` option: a number or a function. -/
inductive Retry where
  | num (n : Int) : Retry
  | fn : Retry
  deriving DecidableEq, Repr

/-- The object handed to the callbacks: `_baseInfo()` spread with the options of
`_onErr`. -/
structure Info where
  el : El
  src : String
  oSrc : String
  isEnd : Bool
  deriving DecidableEq, Repr

/-- What a request does to the outside, in order. -/
inductive Out where
  /-- `removeAttr(loadEl, 'src'); attr(loadEl, 'src', me.src)` -/
  | issue (loadEl : LoadEl) (src : String) : Out
  /-- `onReq(_baseInfo())` -/
  | onReq (info : Info) : Out
  /-- `onLoad(_baseInfo())` -/
  | onLoad (info : Info) : Out
  /-- `onErr({ ..._baseInfo(), ...opts })` -/
  | onErr (info : Info) : Out
  /-- the call of the retry function with `times: me.c` -/
  | retry (info : Info) (times : Nat) : Out
  deriving DecidableEq, Repr

/-- A `Req`: the constructor arguments its closures capture and its fields. -/
structure Req where
  el : El
  loadEl : LoadEl
  /-- the `src` argument of the constructor (`oSrc` of the info) -/
  oSrc : String
  filters : Option (List Filter)
  /-- whether `onLoad`, `onErr`, `onReq` were passed -/
  hasOnLoad : Bool
  hasOnErr : Bool
  hasOnReq : Bool
  canceled : Bool
  retry : Retry
  c : Nat
  src : String

namespace Req

/-- `_baseInfo()` -/
def baseInfo (r : Req) : Info := ⟨r.el, r.src, r.oSrc, false⟩

/-- `load()` -/
def load (r : Req) : List Out :=
  [Out.issue r.loadEl r.src] ++ (if r.hasOnReq then [Out.onReq r.baseInfo] else [])

/-- `_onErr(opts)`; `isEnd` is the only option ever passed. -/
def notifyErr (r : Req) (isEnd : Bool) : List Out :=
  if r.hasOnErr then [Out.onErr { r.baseInfo with isEnd := isEnd }] else []

/-- `applyFilters(src)` -/
def applyFilters (el : El) (filters : Option (List Filter)) (src : String) : String :=
  match filters with
  | none => src
  | some fs => fs.foldl (fun lastResult cur => cur lastResult el) src

/-- `next(result)`: `failed` defaults to `false`, `nSrc` is `result.src`. -/
def next (r : Req) (failed : Bool) (nSrc : Option String) : Req × List Out :=
  if !failed then
    let r1 := if truthy nSrc then { r with src := nSrc.getD "" } else r
    ({ r1 with c := r1.c + 1 }, r1.load)
  else
    (r, r.notifyErr true)

/-- The constructor, `new Req(...)`: the fresh request and what the first `load()`
does. -/
def create (el : El) (loadEl : LoadEl) (src : String) (retry : Retry)
    (hasOnLoad hasOnErr hasOnReq : Bool) (filters : Option (List Filter)) : Req × List Out :=
  let r : Req :=
    { el := el, loadEl := loadEl, oSrc := src, filters := filters,
      hasOnLoad := hasOnLoad, hasOnErr := hasOnErr, hasOnReq := hasOnReq,
      canceled := false, retry := retry, c := 0, src := applyFilters el filters src }
  (r, r.load)

/-- `loadEl.onload` -/
def onload (r : Req) : Req × List Out :=
  if !r.canceled && r.hasOnLoad then (r, [Out.onLoad r.baseInfo]) else (r, [])

/-- `loadEl.onerror` -/
def onerror (r : Req) : Req × List Out :=
  if !r.canceled then
    match r.retry with
    | Retry.fn => (r, r.notifyErr false ++ [Out.retry r.baseInfo r.c])
    | Retry.num n =>
      if n = -1 ∨ n > 0 then
        ({ r with retry := if n > 0 then Retry.num (n - 1) else Retry.num n },
          r.notifyErr false ++ r.load)
      else
        (r, r.notifyErr true)
  else (r, [])

/-- `cancel()` -/
def cancel (r : Req) : Req := { r with canceled := true }

end Req

/-- A signal of the transport on the element of a request. -/
inductive Signal where
  | load : Signal
  | error : Signal
  deriving DecidableEq, Repr

/-- One transport signal delivered to a request. -/
def Req.signal (r : Req) (s : Signal) : Req × List Out :=
  match s with
  | Signal.load => r.onload
  | Signal.error => r.onerror

/-- A sequence of transport signals delivered to a request, with everything the
request does in answer, in order. -/
def Req.run (r : Req) : List Signal → Req × List Out
  | [] => (r, [])
  | s :: rest =>
    let step := r.signal s
    let tail := Req.run step.1 rest
    (tail.1, step.2 ++ tail.2)

/-! ## Options and loaders -/

/-- The `loadHandler` option: `defaultLoadHandler` or a function of the user. -/
inductive Handler where
  | default : Handler
  | custom (k : Nat) : Handler
  deriving DecidableEq, Repr

/-- The `events` option: an array of event names or a single name. -/
inductive EventsOpt where
  | arr (names : List String) : EventsOpt
  | one (name : String) : EventsOpt
  deriving DecidableEq, Repr

/-- `isArr(events) ? events : [events]` -/
def EventsOpt.toList : EventsOpt → List String
  | EventsOpt.arr names => names
  | EventsOpt.one name => [name]

/-- The merged options of a loader (`me.opts`). A callback is recorded by whether
it is set. -/
structure Opts where
  el : El
  events : EventsOpt
  classLoading : String
  classLoaded : String
  classErr : String
  classTarget : String
  retry : Retry
  once : Bool
  preloadRatio : ℚ
  throttleMethod : String
  throttleTime : Nat
  loadHandler : Handler
  mode : Option String
  src : Option String
  filters : Option (List Filter)
  onLoad : Bool
  onErr : Bool
  onReq : Bool
  onEnter : Bool
  onLeave : Bool
  parent : Option Nat
  isRoot : Bool

/-- The throttled dispatcher created by `bindEvent`: a function object with an
identity, the loader and the queue it closes over, and the value its variable
`event` holds once `addChild` has returned. -/
structure Cb where
  uid : Nat
  owner : Nat
  queueEvent : String
  event : String
  deriving DecidableEq, Repr

/-- A plain JavaScript object with string keys, in insertion order. -/
abbrev Obj (V : Type) := List (String × V)

/-- `obj[key]` -/
def objGet {V : Type} (o : Obj V) (key : String) : Option V :=
  (o.find? (fun e => e.1 == key)).map Prod.snd

/-- `obj[key] = v` -/
def objSet {V : Type} (o : Obj V) (key : String) (v : V) : Obj V :=
  if o.any (fun e => e.1 == key) then o.map (fun e => if e.1 == key then (key, v) else e)
  else o ++ [(key, v)]

/-- `Object.keys(obj)` -/
def objKeys {V : Type} (o : Obj V) : List String := o.map Prod.fst

/-- A `LazyLoader` object. `_throttle` and `_tTime` only decide when a dispatcher
runs and are left out. -/
structure Node where
  id : Nat
  children : FMap Nat
  queues : Obj (FMap Nat)
  /-- `_cbs`; `none` is `null` -/
  cbs : Obj (Option Cb)
  parent : Option Nat
  el : El
  stat : Nat
  events : List String
  opts : Opts
  lastInView : Bool
  loadHandler : Handler
  /-- `lazyLoader.req`, set by `defaultLoadHandler` -/
  req : Option Nat
  destroyed : Bool

/-- What the closures `onLoad` and `onErr` that `defaultLoadHandler` passes to a
`Req` capture. -/
structure ReqEnv where
  loader : Nat
  el : El
  elClassTarget : El
  classes : List String
  classLoaded : String
  classErr : String
  once : Bool
  /-- whether `_onLoad` and `_onErr` are set (background mode) -/
  bg : Bool
  onLoad : Bool
  onErr : Bool

/-- A call of user code, or the entry into `check` (kept to tell which loaders a
check visits). -/
inductive Call where
  | check (loader : Nat) (evName : Option String) : Call
  | onEnter (loader : Nat) : Call
  | onLeave (loader : Nat) : Call
  | handler (k : Nat) (loader : Nat) : Call
  | onReq (info : Info) : Call
  | onLoad (info : Info) : Call
  | onErr (info : Info) : Call
  | retry (req : Nat) (info : Info) (times : Nat) : Call
  deriving DecidableEq, Repr

/-- The heap, the part of the DOM the library touches, `scope.$lazy` and the trace
of calls. -/
structure World where
  loaders : Nat → Node
  reqs : Nat → Req
  envs : Nat → ReqEnv
  /-- number of `Req` objects constructed so far; the next one gets this address -/
  reqCount : Nat
  /-- number of `new Image()` so far -/
  imageCount : Nat
  /-- number of dispatchers created so far -/
  cbCount : Nat
  /-- the request whose closures are `loadEl.onload` and `loadEl.onerror` -/
  handlerOf : LoadEl → Option Nat
  /-- the listeners bound with `on` and not yet removed with `off` -/
  listeners : List (El × String × Cb)
  classes : El → List String
  bgImage : El → String
  srcAttr : LoadEl → Option String
  parentNode : El → Option El
  /-- `offset(el)` -/
  offset : El → Offset
  win : Win
  /-- `scope.$lazy` -/
  rootLazy : Option Nat
  /-- the counter `loaderID` -/
  loaderID : Nat
  trace : List Call

namespace World

/-- Overwrite the loader at an address. -/
def setLoader (w : World) (k : Nat) (n : Node) : World :=
  { w with loaders := Function.update w.loaders k n }

/-- Overwrite the request at an address. -/
def setReq (w : World) (k : Nat) (r : Req) : World :=
  { w with reqs := Function.update w.reqs k r }

/-- Append a call to the trace. -/
def log (w : World) (c : Call) : World := { w with trace := w.trace ++ [c] }

end World

/-! ## DOM helpers of `./util` -/

/-- Modelled from the spec: `on(el, event, cb, opts)` of `./util`. -/
def bindOn (w : World) (el : El) (event : String) (cb : Cb) : World :=
  { w with listeners := w.listeners ++ [(el, event, cb)] }

/-- Modelled from the spec: `off(el, event, cb)` of `./util`; `cb` may be `null`. -/
def bindOff (w : World) (el : El) (event : String) (cb : Option Cb) : World :=
  match cb with
  | none => w
  | some c => { w with listeners := w.listeners.filter (fun l => !(l == (el, event, c))) }

/-- Modelled from the spec: `removeClass(el, names)` of `./util`. -/
def removeClass (w : World) (el : El) (names : List String) : World :=
  let kept := (w.classes el).filter (fun c => !(names.contains c))
  { w with classes := Function.update w.classes el kept }

/-- Modelled from the spec: `addClass(el, name)` of `./util`. -/
def addClass (w : World) (el : El) (name : String) : World :=
  let added := if (w.classes el).contains name then w.classes el else w.classes el ++ [name]
  { w with classes := Function.update w.classes el added }

/-- Modelled from the spec: `css(el, 'background-image', value)` of `./util`. -/
def cssBg (w : World) (el : El) (value : String) : World :=
  { w with bgImage := Function.update w.bgImage el value }

/-! ## `LazyLoader.inView` -/

/-- The four supplements `parentElTopSupplement`, `parentElHeightSupplement`,
`parentElLeftSupplement`, `parentElWidthSupplement`. -/
structure Supplement where
  top : ℚ
  height : ℚ
  left : ℚ
  width : ℚ

/-- `parentElOffset`: the window rectangle when the parent element is the window,
`offset(parentEl)` otherwise. -/
def parentElOffset (w : World) (parentEl : El) : Offset :=
  if parentEl = El.win then
    { left := w.win.pageXOffset, top := w.win.pageYOffset,
      width := w.win.innerWidth, height := w.win.innerHeight }
  else w.offset parentEl

/-- The supplements: zero, and for a parent that is not the window the guard for a
parent element outside the window. -/
def supplement (isParentWin : Bool) (p : Offset) (win : Win) : Supplement :=
  if !isParentWin then
    let diffTop := p.top - win.pageYOffset
    let diffBottom := win.pageYOffset + win.innerHeight - p.top - p.height
    let diffLeft := p.left - win.pageXOffset
    let diffRight := win.pageXOffset + win.innerWidth - p.left - p.width
    let parentElTopSupplement := if diffTop < 0 then diffTop else 0
    let parentElHeightSupplement :=
      parentElTopSupplement + (if diffBottom < 0 then diffBottom else 0)
    let parentElLeftSupplement := if diffLeft < 0 then diffLeft else 0
    let parentElWidthSupplement :=
      parentElLeftSupplement + (if diffRight < 0 then diffRight else 0)
    { top := parentElTopSupplement, height := parentElHeightSupplement,
      left := parentElLeftSupplement, width := parentElWidthSupplement }
  else { top := 0, height := 0, left := 0, width := 0 }

/-- The rectangle `parentElFixedLeft`, `parentElFixedTop`, `parentElFixedWidth`,
`parentElFixedHeight` the element is compared against. -/
def fixedRect (p : Offset) (s : Supplement) (preloadRatio : ℚ) : Offset :=
  let extraPreloadRatio := preloadRatio - 1
  let parentElExtraWidth := (p.width + s.width) * extraPreloadRatio
  let parentElExtraHeight := (p.height + s.height) * extraPreloadRatio
  { top := p.top - s.top - parentElExtraHeight / 2,
    left := p.left - s.left - parentElExtraWidth / 2,
    width := p.width + s.width + parentElExtraWidth,
    height := p.height + s.height + parentElExtraHeight }

/-- The collision detection of `inView`. -/
def collide (e : Offset) (f : Offset) : Bool :=
  decide (e.left < f.left + f.width ∧ e.left + e.width > f.left ∧
    e.top < f.top + f.height ∧ e.top + e.height > f.top)

/-- The rectangle a loader with parent `parent` is compared against. -/
def comparedRect (w : World) (me parent : Nat) : Offset :=
  let parentEl := (w.loaders parent).el
  let p := parentElOffset w parentEl
  fixedRect p (supplement (parentEl == El.win) p w.win) (w.loaders me).opts.preloadRatio

/-- The value `result` of `inView()`. -/
def inViewResult (w : World) (me : Nat) : Bool :=
  let n := w.loaders me
  match n.parent with
  | some parent =>
    let isParentWin := (w.loaders parent).el == El.win
    if isParentWin || (w.loaders parent).lastInView then
      collide (w.offset n.el) (comparedRect w me parent)
    else false
  | none => n.el == El.win

/-- `inView()`: the result, and the world after the `onEnter` and `onLeave` calls and
the update of `_lastInView`. -/
def inView (w : World) (me : Nat) : Bool × World :=
  let n := w.loaders me
  let result := inViewResult w me
  let w1 := if n.opts.onEnter && (n.lastInView != result) && result
    then w.log (Call.onEnter me) else w
  let w2 := if n.opts.onLeave && (n.lastInView != result) && !result
    then w1.log (Call.onLeave me) else w1
  (result, w2.setLoader me { (w2.loaders me) with lastInView := result })

/-! ## `LazyLoader.addChild` and `LazyLoader.rmChild` -/

/-- `bindEvent(queue)` inside `addChild`, called for the queue of `event`. The
dispatcher reads the variable `event` of `addChild` when it runs, that is after the
loop over the events of the child, when the variable holds `lastEvent`. -/
def bindEvent (w : World) (me : Nat) (event : String) (lastEvent : String) : World :=
  let n := w.loaders me
  match (objGet n.cbs event).join with
  | some _ => w
  | none =>
    let cb : Cb := { uid := w.cbCount, owner := me, queueEvent := event, event := lastEvent }
    let w1 := { w with cbCount := w.cbCount + 1 }
    let w2 := w1.setLoader me { n with cbs := objSet n.cbs event (some cb) }
    bindOn w2 n.el event cb

/-- One turn of the loop of `addChild`. -/
def addChildStep (me lazyLoader : Nat) (lastEvent : String) (w : World) (event : String) :
    World :=
  let n := w.loaders me
  let w1 := match objGet n.queues event with
    | some _ => w
    | none =>
      bindEvent (w.setLoader me { n with queues := objSet n.queues event FMap.empty })
        me event lastEvent
  let n1 := w1.loaders me
  let queue := (objGet n1.queues event).getD FMap.empty
  w1.setLoader me
    { n1 with queues := objSet n1.queues event (queue.set (w1.loaders lazyLoader).id lazyLoader) }

/-- `addChild(lazyLoader)` -/
def addChild (w : World) (me lazyLoader : Nat) : World :=
  let events := (w.loaders lazyLoader).events
  let n := w.loaders me
  let w0 := w.setLoader me
    { n with children := n.children.set (w.loaders lazyLoader).id lazyLoader }
  events.foldl (addChildStep me lazyLoader (events.getLast?.getD "")) w0

/-- One turn of the loop of `rmChild`. -/
def rmChildStep (me id : Nat) (w : World) (event : String) : World :=
  let n := w.loaders me
  let queue := ((objGet n.queues event).getD FMap.empty).rm id
  let w1 := w.setLoader me { n with queues := objSet n.queues event queue }
  if queue.size = 0 then
    let n1 := w1.loaders me
    let cb := (objGet n1.cbs event).join
    bindOff (w1.setLoader me { n1 with cbs := objSet n1.cbs event none }) n1.el event cb
  else w1

/-- `rmChild(lazyLoader)` -/
def rmChild (w : World) (me lazyLoader : Nat) : World :=
  let n := w.loaders me
  let id := (w.loaders lazyLoader).id
  let events := objKeys n.queues
  let w0 := if n.children.has id then w.setLoader me { n with children := n.children.rm id }
    else w
  events.foldl (rmChildStep me id) w0

/-! ## `LazyLoader.destroy` without `deep` -/

/-- `destroy()` with `deep` false. -/
def destroyShallow (w : World) (me : Nat) : World :=
  let n := w.loaders me
  if !n.destroyed then
    let w1 := match n.parent with
      | some parent => rmChild w parent me
      | none => if n.opts.isRoot then { w with rootLazy := none } else w
    w1.setLoader me { (w1.loaders me) with destroyed := true }
  else w

/-! ## `defaultLoadHandler` -/

/-- `switchClass(el, className)` -/
def switchClass (w : World) (el : El) (classes : List String) (className : String) : World :=
  addClass (removeClass w el classes) el className

/-- `onComplete()` -/
def onComplete (w : World) (lazyLoader : Nat) (once : Bool) : World :=
  let w1 := w.setLoader lazyLoader { (w.loaders lazyLoader) with stat := STAT_LOADED }
  if once then destroyShallow w1 lazyLoader else w1

/-- The closure `onLoad(info)` passed to `new Req`. -/
def handlerOnLoad (w : World) (env : ReqEnv) (info : Info) : World :=
  let w1 := if env.bg then
      let src := ((w.loaders env.loader).req.map (fun r => (w.reqs r).src)).getD ""
      cssBg w env.el ("url(" ++ src ++ ")")
    else w
  let w2 := onComplete w1 env.loader env.once
  let w3 := switchClass w2 env.elClassTarget env.classes env.classLoaded
  if env.onLoad then w3.log (Call.onLoad info) else w3

/-- The closure `onErr(info)` passed to `new Req`. -/
def handlerOnErr (w : World) (env : ReqEnv) (info : Info) : World :=
  let w1 := if env.bg then cssBg w env.el "" else w
  let w2 := if info.isEnd then
      switchClass (onComplete w1 env.loader env.once) env.elClassTarget env.classes env.classErr
    else w1
  if env.onErr then w2.log (Call.onErr info) else w2

/-- The effect on the world of one thing a request of `defaultLoadHandler` does. -/
def applyOut (req : Nat) (w : World) (o : Out) : World :=
  match o with
  | Out.issue loadEl src => { w with srcAttr := Function.update w.srcAttr loadEl (some src) }
  | Out.onReq info => w.log (Call.onReq info)
  | Out.onLoad info => handlerOnLoad w (w.envs req) info
  | Out.onErr info => handlerOnErr w (w.envs req) info
  | Out.retry info times => w.log (Call.retry req info times)

/-- `oReq && oReq.cancel()` -/
def cancelOld (w : World) (oReq : Option Nat) : World :=
  match oReq with
  | some r => w.setReq r (w.reqs r).cancel
  | none => w

/-- The `switch` over `opts.mode`: in background mode the background image is cleared
and the load goes to a `new Image()`; otherwise it goes to the element. -/
def modeSwitch (w : World) (opts : Opts) : World × LoadEl :=
  if opts.mode = some MODE_BG then
    ({ (cssBg w opts.el "") with imageCount := w.imageCount + 1 }, LoadEl.image w.imageCount)
  else (w, LoadEl.el opts.el)

/-- The branch `if (src)` of `defaultLoadHandler`: the state becomes `STAT_LOADING`, a
`Req` is constructed (its closures go to `loadEl`, its first `load()` runs), stored in
`lazyLoader.req`, and the class target gets the loading class. -/
def startLoad (w : World) (lazyLoader : Nat) (opts : Opts) (elClassTarget : El)
    (loadEl : LoadEl) (src : String) : World :=
  let classes := [opts.classLoading, opts.classErr, opts.classLoaded]
  let w3 := w.setLoader lazyLoader { (w.loaders lazyLoader) with stat := STAT_LOADING }
  let req := w3.reqCount
  let created := Req.create opts.el loadEl src opts.retry true true opts.onReq opts.filters
  let env : ReqEnv :=
    { loader := lazyLoader, el := opts.el, elClassTarget := elClassTarget, classes := classes,
      classLoaded := opts.classLoaded, classErr := opts.classErr, once := opts.once,
      bg := opts.mode = some MODE_BG, onLoad := opts.onLoad, onErr := opts.onErr }
  let w4 : World :=
    { w3 with
      reqs := Function.update w3.reqs req created.1
      envs := Function.update w3.envs req env
      reqCount := req + 1
      handlerOf := Function.update w3.handlerOf loadEl (some req) }
  let w5 := created.2.foldl (applyOut req) w4
  let w6 := w5.setLoader lazyLoader { (w5.loaders lazyLoader) with req := some req }
  switchClass w6 elClassTarget classes opts.classLoading

/-- `defaultLoadHandler(lazyLoader)` -/
def defaultLoadHandler (w : World) (lazyLoader : Nat) : World :=
  let n := w.loaders lazyLoader
  let opts := n.opts
  let el := opts.el
  let elClassTarget :=
    if opts.classTarget = CLASS_TARGET_PARENT then (w.parentNode el).getD el else el
  let w1 := cancelOld w n.req
  let src := trim opts.src
  let prepared := modeSwitch w1 opts
  if truthyStr src then startLoad prepared.1 lazyLoader opts elClassTarget prepared.2 src
  else onComplete prepared.1 lazyLoader opts.once

/-- `me._loadHandler(me)`: the default handler, or a function of the user, which is
only recorded. -/
def runLoadHandler (w : World) (me : Nat) : World :=
  match (w.loaders me).loadHandler with
  | Handler.default => defaultLoadHandler w me
  | Handler.custom k => w.log (Call.handler k me)

/-! ## Transport signals and the continuation `next` -/

/-- The closures `onload` or `onerror` of request `req` run. -/
def deliver (w : World) (req : Nat) (s : Signal) : World :=
  let step := (w.reqs req).signal s
  step.2.foldl (applyOut req) (w.setReq req step.1)

/-- The transport signals `load` or `error` on `loadEl`: the closures installed there
run. -/
def transport (w : World) (loadEl : LoadEl) (s : Signal) : World :=
  match w.handlerOf loadEl with
  | some req => deliver w req s
  | none => w

/-- A retry function calls the `next` it was handed by request `req`. -/
def callNext (w : World) (req : Nat) (failed : Bool) (nSrc : Option String) : World :=
  let step := (w.reqs req).next failed nSrc
  step.2.foldl (applyOut req) (w.setReq req step.1)

/-! ## `LazyLoader.check`, dispatch, `update`, `destroy` -/

/-- Why a run stops early: the model ran out of fuel, or JavaScript threw a
`TypeError` on `undefined`, leaving the world as it was at the throw. -/
inductive Err where
  | fuel : Err
  | typeError (w : World) : Err

/-- `check(evName)` -/
def check : Nat → World → Nat → Option String → Except Err World
  | 0, _, _, _ => Except.error Err.fuel
  | fuel + 1, w, me, evName =>
    let w0 := w.log (Call.check me evName)
    let r := if (w0.loaders me).stat < STAT_LOADING then inView w0 me else (false, w0)
    if r.1 then
      let w1 := runLoadHandler r.2 me
      if ((w1.loaders me).children.size != 0) then
        let queue : Bool :=
          if truthy evName then (objGet (w1.loaders me).queues (evName.getD "")).isSome
          else true
        if queue then
          (w1.loaders me).children.keys.foldlM
            (fun w2 k =>
              match (w2.loaders me).children.get k with
              | some child => check fuel w2 child evName
              | none => Except.error (Err.typeError w2))
            w1
        else Except.ok w1
      else Except.ok w1
    else Except.ok r.2

/-- A dispatcher created by `bindEvent` runs. -/
def runCb (fuel : Nat) (w : World) (cb : Cb) : Except Err World :=
  let queue := (objGet (w.loaders cb.owner).queues cb.queueEvent).getD FMap.empty
  queue.keys.foldlM
    (fun w1 k =>
      match ((objGet (w1.loaders cb.owner).queues cb.queueEvent).getD FMap.empty).get k with
      | some child => check fuel w1 child (some cb.event)
      | none => Except.error (Err.typeError w1))
    w

/-- The event `event` reaches `el`: the dispatchers bound for it run, in the order
they were bound; one unbound in the meantime is skipped. -/
def fire (fuel : Nat) (w : World) (el : El) (event : String) : Except Err World :=
  (w.listeners.filter (fun l => l.1 == el && l.2.1 == event)).foldlM
    (fun w1 l => if w1.listeners.contains l then runCb fuel w1 l.2.2 else Except.ok w1) w

/-- `update(opts)`, where `nSrc` is `opts.src`. -/
def update (fuel : Nat) (w : World) (me : Nat) (nSrc : Option String) : Except Err World :=
  let n := w.loaders me
  if !n.opts.once then
    if nSrc ≠ n.opts.src then
      check fuel
        (w.setLoader me { n with opts := { n.opts with src := nSrc }, stat := STAT_NOT_LOAD })
        me none
    else Except.ok w
  else Except.ok w

/-- `destroyLoaderDeep(loader)` -/
def destroyLoaderDeep : Nat → World → Nat → Except Err World
  | 0, _, _ => Except.error Err.fuel
  | fuel + 1, w, loader =>
    let children := (w.loaders loader).children
    let afterChildren :=
      if children.size > 0 then
        children.keys.foldlM
          (fun w1 k =>
            match (w1.loaders loader).children.get k with
            | some child => destroyLoaderDeep fuel w1 child
            | none => Except.error (Err.typeError w1))
          w
      else Except.ok w
    afterChildren.map (fun w1 => destroyShallow w1 loader)

/-- `destroy(params)`, where `deep` is `params.deep`, false by default. -/
def destroy (fuel : Nat) (w : World) (me : Nat) (deep : Bool) : Except Err World :=
  if !(w.loaders me).destroyed then
    if !deep then Except.ok (destroyShallow w me)
    else
      (destroyLoaderDeep fuel w me).map
        (fun w1 => w1.setLoader me { (w1.loaders me) with destroyed := true })
  else Except.ok w

/-! ## The constructor of `LazyLoader` -/

/-- The options handed to the constructor; each may be absent. -/
structure RawOpts where
  isRoot : Bool := false
  parent : Option Nat := none
  el : Option El := none
  events : Option EventsOpt := none
  classLoading : Option String := none
  classLoaded : Option String := none
  classErr : Option String := none
  classTarget : Option String := none
  retry : Option Retry := none
  once : Option Bool := none
  preloadRatio : Option ℚ := none
  throttleMethod : Option String := none
  throttleTime : Option Nat := none
  loadHandler : Option Handler := none
  mode : Option String := none
  src : Option String := none
  filters : Option (List Filter) := none
  onLoad : Bool := false
  onErr : Bool := false
  onReq : Bool := false
  onEnter : Bool := false
  onLeave : Bool := false

/-- The defaults a root loader is seeded with. -/
def rootDefaults : Opts :=
  { el := El.win, events := EventsOpt.arr [EV_SCROLL], classLoading := CLASS_LOADING,
    classLoaded := CLASS_LOADED, classErr := CLASS_ERR, classTarget := CLASS_TARGET_SELF,
    retry := Retry.num 0, once := true, preloadRatio := 1,
    throttleMethod := THROTTLE_METHOD_DEBOUNCE, throttleTime := 250,
    loadHandler := Handler.default, mode := none, src := none, filters := none,
    onLoad := false, onErr := false, onReq := false, onEnter := false, onLeave := false,
    parent := none, isRoot := false }

/-- The object spread of the options of the caller over `base`; `parent` and `isRoot`
are settled by the constructor. -/
def mergeOpts (base : Opts) (o : RawOpts) : Opts :=
  { el := o.el.getD base.el, events := o.events.getD base.events,
    classLoading := o.classLoading.getD base.classLoading,
    classLoaded := o.classLoaded.getD base.classLoaded,
    classErr := o.classErr.getD base.classErr,
    classTarget := o.classTarget.getD base.classTarget,
    retry := o.retry.getD base.retry, once := o.once.getD base.once,
    preloadRatio := o.preloadRatio.getD base.preloadRatio,
    throttleMethod := o.throttleMethod.getD base.throttleMethod,
    throttleTime := o.throttleTime.getD base.throttleTime,
    loadHandler := o.loadHandler.getD base.loadHandler,
    mode := o.mode.orElse (fun _ => base.mode), src := o.src.orElse (fun _ => base.src),
    filters := o.filters.orElse (fun _ => base.filters),
    onLoad := o.onLoad || base.onLoad, onErr := o.onErr || base.onErr,
    onReq := o.onReq || base.onReq, onEnter := o.onEnter || base.onEnter,
    onLeave := o.onLeave || base.onLeave,
    parent := base.parent, isRoot := base.isRoot }

/-- The options of a new loader after the merge at the head of the constructor. -/
def constructOpts (w : World) (o : RawOpts) : Except Err Opts :=
  if o.isRoot then
    Except.ok { (mergeOpts rootDefaults o) with parent := o.parent, isRoot := true }
  else
    let base : Except Err Opts :=
      match o.parent with
      | some parent => Except.ok (w.loaders parent).opts
      | none =>
        match w.rootLazy with
        | some root => Except.ok (w.loaders root).opts
        | none => Except.error (Err.typeError w)
    base.map (fun b =>
      { (mergeOpts b o) with parent := o.parent.orElse (fun _ => w.rootLazy), isRoot := false })

/-- `new LazyLoader(opts)`; the new loader lives at the address of its id. -/
def construct (w : World) (o : RawOpts) : Except Err World :=
  (constructOpts w o).map (fun opts =>
    let id := w.loaderID + 1
    let me : Node :=
      { id := id, children := FMap.empty, queues := [], cbs := [], parent := opts.parent,
        el := opts.el, stat := STAT_NOT_LOAD, events := opts.events.toList, opts := opts,
        lastInView := false, loadHandler := opts.loadHandler, req := none, destroyed := false }
    let w1 := { w with loaderID := id }.setLoader id me
    let w2 := match opts.parent with
      | some parent => addChild w1 parent id
      | none => w1
    if o.isRoot && w2.rootLazy.isNone then { w2 with rootLazy := some id } else w2)

/-! ## Runs of the library -/

/-- An entry into the library from outside: a method call, a transport signal on a
load element, an event reaching an element, or a retry function calling `next`. -/
inductive Step where
  | check (loader : Nat) (evName : Option String) : Step
  | update (loader : Nat) (src : Option String) : Step
  | transport (loadEl : LoadEl) (s : Signal) : Step
  | next (req : Nat) (failed : Bool) (nSrc : Option String) : Step
  | fire (el : El) (event : String) : Step
  | destroy (loader : Nat) (deep : Bool) : Step
  | addChild (loader child : Nat) : Step
  | rmChild (loader child : Nat) : Step

/-- One step. -/
def Step.run (fuel : Nat) (w : World) : Step → Except Err World
  | Step.check loader evName => Lazyload.check fuel w loader evName
  | Step.update loader src => Lazyload.update fuel w loader src
  | Step.transport loadEl s => Except.ok (Lazyload.transport w loadEl s)
  | Step.next req failed nSrc => Except.ok (callNext w req failed nSrc)
  | Step.fire el event => Lazyload.fire fuel w el event
  | Step.destroy loader deep => Lazyload.destroy fuel w loader deep
  | Step.addChild loader child => Except.ok (Lazyload.addChild w loader child)
  | Step.rmChild loader child => Except.ok (Lazyload.rmChild w loader child)

/-- The world a run leaves behind: its result, or the world at the throw of a
`TypeError`; none when the model ran out of fuel. -/
def leftBy (e : Except Err World) : Option World :=
  match e with
  | Except.ok w => some w
  | Except.error (Err.typeError w) => some w
  | Except.error Err.fuel => none

/-- A sequence of steps, each from the world the one before left behind. -/
def runSteps (fuel : Nat) (w : World) : List Step → Option World
  | [] => some w
  | s :: rest => (leftBy (s.run fuel w)).bind (fun w1 => runSteps fuel w1 rest)

/-- The number of requests constructed so far for loader `n`. -/
def made (w : World) (n : Nat) : Nat :=
  ((List.range w.reqCount).filter (fun r => (w.envs r).loader == n)).length

/-- A loader without what `addChild`, `rmChild` and `destroy` write. -/
def Node.core (n : Node) : Node :=
  { n with children := FMap.empty, queues := [], cbs := [], destroyed := false }

/-- A world without what `addChild`, `rmChild` and `destroy` write: the registries,
queues, dispatchers and destroyed flags of the loaders, the listeners and
`scope.$lazy`. -/
def World.core (w : World) : World :=
  { w with loaders := fun k => (w.loaders k).core, listeners := [], cbCount := 0,
           rootLazy := none }

/-- Between `w` and `w'` loader `n` kept its options and load handler and did not go
back to `STAT_NOT_LOAD`, and no request was constructed. -/
def Quiet (n : Nat) (w w' : World) : Prop :=
  (w'.loaders n).opts = (w.loaders n).opts ∧
  (w'.loaders n).loadHandler = (w.loaders n).loadHandler ∧
  ((w.loaders n).stat ≠ STAT_NOT_LOAD → (w'.loaders n).stat ≠ STAT_NOT_LOAD) ∧
  w'.reqCount = w.reqCount ∧ w'.envs = w.envs

/-- Loader `n` is configured `once`, uses `defaultLoadHandler`, has had at most one
request constructed for it, and none as long as it is in `STAT_NOT_LOAD`; and it is not
in `STAT_NOT_LOAD` if it was not in world `w0`. -/
def OneShot (n : Nat) (w0 w : World) : Prop :=
  (w.loaders n).opts.once = true ∧ (w.loaders n).loadHandler = Handler.default ∧
  made w n ≤ 1 ∧ ((w.loaders n).stat = STAT_NOT_LOAD → made w n = 0) ∧
  ((w0.loaders n).stat ≠ STAT_NOT_LOAD → (w.loaders n).stat ≠ STAT_NOT_LOAD)

/-- A property of the world a run leaves behind, if it leaves one. -/
def Leaves (P : World → Prop) (e : Except Err World) : Prop :=
  match leftBy e with
  | some w => P w
  | none => True

/-! ## Concrete pages used to run the model -/

/-- The world a run ends with, or `d` when it ends without one. -/
def World.orElse (e : Except Err World) (d : World) : World :=
  match e with
  | Except.ok w => w
  | Except.error _ => d

/-- An arbitrary request, the content of an address not yet in use. -/
def blankReq : Req :=
  { el := El.win, loadEl := LoadEl.el El.win, oSrc := "", filters := none, hasOnLoad := false,
    hasOnErr := false, hasOnReq := false, canceled := false, retry := Retry.num 0, c := 0,
    src := "" }

/-- An arbitrary loader, the content of an address not yet in use. -/
def blankNode : Node :=
  { id := 0, children := FMap.empty, queues := [], cbs := [], parent := none, el := El.dom 0,
    stat := STAT_NOT_LOAD, events := [], opts := rootDefaults, lastInView := false,
    loadHandler := Handler.default, req := none, destroyed := false }

/-- An arbitrary closure environment, the content of an address not yet in use. -/
def blankEnv : ReqEnv :=
  { loader := 0, el := El.dom 0, elClassTarget := El.dom 0, classes := [], classLoaded := "",
    classErr := "", once := false, bg := false, onLoad := false, onErr := false }

/-- The world before the library has run: no loader, no request, no listener. -/
def blankWorld (offset : El → Offset) (win : Win) : World :=
  { loaders := fun _ => blankNode, reqs := fun _ => blankReq, envs := fun _ => blankEnv,
    reqCount := 0, imageCount := 0, cbCount := 0, handlerOf := fun _ => none, listeners := [],
    classes := fun _ => [], bgImage := fun _ => "", srcAttr := fun _ => none,
    parentNode := fun _ => none, offset := offset, win := win, rootLazy := none, loaderID := 0,
    trace := [] }

/-- `new LazyLoader(o)` on a page where the constructor does not throw. -/
def World.construct (w : World) (o : RawOpts) : World := World.orElse (Lazyload.construct w o) w

/-- A window of 100 by 100 scrolled down by 50. -/
def pageWin : Win := { pageXOffset := 0, pageYOffset := 50, innerWidth := 100, innerHeight := 100 }

/-- The rectangles of the elements of the sample page: a container that begins above
the window, two images inside it (one in the window, one above it), an image that
touches the lower edge of the window from outside and two images in the window. -/
def pageOffset (e : El) : Offset :=
  match e with
  | El.dom 1 => { left := 10, top := 20, width := 80, height := 60 }
  | El.dom 2 => { left := 20, top := 60, width := 20, height := 10 }
  | El.dom 3 => { left := 20, top := 30, width := 20, height := 10 }
  | El.dom 4 => { left := 0, top := 150, width := 10, height := 10 }
  | El.dom 5 => { left := 50, top := 100, width := 10, height := 10 }
  | El.dom 6 => { left := 70, top := 60, width := 10, height := 10 }
  | _ => { left := 0, top := 0, width := 0, height := 0 }

/-- The sample page: root loader 1 on the window; loader 2 on the container; loaders 3
and 4 on the images inside the container, 3 listening to `resize` only; loaders 5 and 6
on two images outside the container, 6 with `onLoad` and `onErr` callbacks; loader 7,
not `once`, on the last image. -/
def samplePage : World :=
  (((((((blankWorld pageOffset pageWin).construct { isRoot := true }).construct
    { el := some (El.dom 1) }).construct
    { el := some (El.dom 2), parent := some 2, src := some "a.png",
      events := some (EventsOpt.arr ["resize"]) }).construct
    { el := some (El.dom 3), parent := some 2, src := some "b.png" }).construct
    { el := some (El.dom 4), src := some "c.png" }).construct
    { el := some (El.dom 5), src := some "d.png", onLoad := true, onErr := true }).construct
    { el := some (El.dom 6), src := some "e.png", once := some false }

/-- The sample page after `check()` on the root loader. -/
def samplePageChecked : World := World.orElse (check 3 samplePage 1 none) samplePage

/-- A run on the sample page: the root is checked, the load of loader 6 fails for good,
an update of loader 6 is tried, loader 6 is checked again directly and by a scroll
event, and its element signals a success at last. -/
def sampleRun : List Step :=
  [Step.check 1 none, Step.transport (LoadEl.el (El.dom 5)) Signal.error,
   Step.update 6 (some "other.png"), Step.check 6 none, Step.fire El.win "scroll",
   Step.check 6 (some "scroll"), Step.transport (LoadEl.el (El.dom 5)) Signal.load]

/-- The world the sample run leaves behind. -/
def sampleRunEnd : World := (runSteps 3 samplePage sampleRun).getD samplePage

/-- The sample page after `rmChild` took loader 3, the only subscriber of `resize`, from
the container. -/
def sampleRemoved : World := rmChild samplePage 2 3

/-- Then a new loader, number 8, subscribing to `resize`, is constructed under the
container. -/
def sampleReadded : World :=
  sampleRemoved.construct
    { el := some (El.dom 2), parent := some 2, src := some "a2.png",
      events := some (EventsOpt.arr ["resize"]) }

/-- The sample page after `check()` on loader 6: its request is in flight. -/
def sampleLoading : World := World.orElse (check 1 samplePage 6 none) samplePage

/-- Then loader 6 is destroyed. -/
def sampleDestroyed : World := World.orElse (destroy 1 sampleLoading 6 false) sampleLoading

/-- A request for `a.png` on element 1 with all three callbacks and `retry` budget. -/
def sampleReq (retry : Retry) : Req :=
  (Req.create (El.dom 1) (LoadEl.el (El.dom 1)) "a.png" retry true true true none).1

/-- A request with a retry function, after a failure handed `next` to that function. -/
def sampleRetryReq : Req := ((sampleReq Retry.fn).onerror).1

/-- A page with the root loader and loader 2 on element 5, not `once`, with a retry
function and the callbacks `onErr` and `onReq`. -/
def sampleRetryPage : World :=
  ((blankWorld pageOffset pageWin).construct { isRoot := true }).construct
    { el := some (El.dom 5), src := some "d.png", retry := some Retry.fn, once := some false,
      onErr := true, onReq := true }

/-- On that page loader 2 is checked, its load fails (the retry function is handed
`next` by request 0), and an update to `x.png` supersedes request 0 by request 1. -/
def sampleSuperseded : World :=
  (runSteps 2 sampleRetryPage
    [Step.check 2 none, Step.transport (LoadEl.el (El.dom 5)) Signal.error,
     Step.update 2 (some "x.png")]).getD sampleRetryPage

/-- A page with the root loader and loader 2 on element 6, not `once`, with the
callbacks `onLoad` and `onErr`. -/
def sampleUpdatePage : World :=
  ((blankWorld pageOffset pageWin).construct { isRoot := true }).construct
    { el := some (El.dom 6), src := some "e.png", once := some false, onLoad := true,
      onErr := true }

/-- Loader 2 of that page is checked, so that request 0 for `e.png` is in flight, and
the window is scrolled to 1000, which takes element 6 out of view. -/
def sampleScrolledAway : World :=
  { (World.orElse (check 1 sampleUpdatePage 2 none) sampleUpdatePage) with
    win := { pageWin with pageYOffset := 1000 } }

/-- Then loader 2 is updated to `f.png`. -/
def sampleUpdatedAway : World :=
  World.orElse (update 1 sampleScrolledAway 2 (some "f.png")) sampleScrolledAway


/-- Loader 2 of the update page is checked and stays in view: request 0 for `e.png` is
in flight. -/
def sampleUpdateLoading : World :=
  World.orElse (check 1 sampleUpdatePage 2 none) sampleUpdatePage

/-- A page with the root loader and loader 2 on element 5 whose source has blanks around
it and passes two filters: the first appends a query, the second prepends a host. -/
def sampleFilterPage : World :=
  ((blankWorld pageOffset pageWin).construct { isRoot := true }).construct
    { el := some (El.dom 5), src := some "  d.png ",
      filters := some [fun s _ => s ++ "?w=2", fun s _ => "cdn/" ++ s] }

/-! ## Predicates and sample data for `once` completion and deep destruction -/

/-- Loader `n`, with parent `p` and id `id`, is loaded and destroyed in `v`: its state is
`STAT_LOADED`, its flag `destroyed` is set, and `id` is neither in the child registry of
`p` nor in any of the queues of `p`. -/
def LoadedAndGone (v : World) (n p id : Nat) : Prop :=
  (v.loaders n).stat = STAT_LOADED ∧ (v.loaders n).destroyed = true ∧
  (v.loaders p).children.has id = false ∧
  ∀ e q, (e, q) ∈ (v.loaders p).queues → q.has id = false

/-- A finite forest of loaders, by their addresses: `cons id kids rest` is the tree of
`id` over the forest `kids` of its children, followed by the trees `rest` of its later
siblings. -/
inductive Forest where
  | nil : Forest
  | cons (id : Nat) (kids : Forest) (rest : Forest) : Forest

namespace Forest

/-- The roots of the trees of a forest, in order. -/
def roots : Forest → List Nat
  | nil => []
  | cons id _ rest => id :: rest.roots

/-- All loaders of a forest. -/
def ids : Forest → List Nat
  | nil => []
  | cons id kids rest => id :: (kids.ids ++ rest.ids)

/-- The loaders of a forest, every loader after all the loaders below it and after the
trees of its earlier siblings. -/
def postOrder : Forest → List Nat
  | nil => []
  | cons id kids rest => kids.postOrder ++ [id] ++ rest.postOrder

/-- The number of levels of a forest. -/
def depth : Forest → Nat
  | nil => 0
  | cons _ kids rest => max (kids.depth + 1) rest.depth

end Forest

/-- The forest `f` is the forest of the children, and their descendants, of loader
`parent` in `w`: every loader of it has its address as id, names the loader above it as
its parent, is not destroyed, and has exactly its children, in order, in its child
registry, each under its id. -/
def Registered (w : World) (parent : Nat) : Forest → Prop
  | Forest.nil => True
  | Forest.cons id kids rest =>
    (w.loaders id).id = id ∧ (w.loaders id).parent = some parent ∧
    (w.loaders id).destroyed = false ∧
    (w.loaders id).children.entries = kids.roots.map (fun k => (k, k)) ∧
    Registered w id kids ∧ Registered w parent rest

/-- Whether a forest is registered below a loader can be computed. -/
instance Registered.instDecidable (w : World) :
    ∀ (f : Forest) (p : Nat), Decidable (Registered w p f)
  | Forest.nil, _ => isTrue trivial
  | Forest.cons id kids rest, p =>
    have := Registered.instDecidable w kids id
    have := Registered.instDecidable w rest p
    inferInstanceAs (Decidable
      ((w.loaders id).id = id ∧ (w.loaders id).parent = some p ∧
        (w.loaders id).destroyed = false ∧
        (w.loaders id).children.entries = kids.roots.map (fun k => (k, k)) ∧
        Registered w id kids ∧ Registered w p rest))

/-- Loader 6, destroyed while its request is in flight, is registered again with the
root loader by `addChild`. -/
def sampleReregistered : World := addChild sampleDestroyed 1 6

/-- The loaders below the root of the sample page: the container 2 with the loaders 3
and 4, and the loaders 5, 6 and 7. -/
def sampleForest : Forest :=
  Forest.cons 2 (Forest.cons 3 Forest.nil (Forest.cons 4 Forest.nil Forest.nil))
    (Forest.cons 5 Forest.nil (Forest.cons 6 Forest.nil (Forest.cons 7 Forest.nil Forest.nil)))

/-! # Theorems -/

/-! ## What the tree operations leave alone -/

theorem core_setLoader (w : World) (k : Nat) (n : Node)
    (h : n.core = (w.loaders k).core) : (w.setLoader k n).core = w.core := by
  unfold World.core World.setLoader
  have : (fun j => (Function.update w.loaders k n j).core) = fun j => (w.loaders j).core := by
    funext j
    by_cases hj : j = k
    · subst hj; simp [h]
    · simp [Function.update_noteq hj]
  simp [this]

theorem core_bindOn (w : World) (el : El) (event : String) (cb : Cb) :
    (bindOn w el event cb).core = w.core := rfl

theorem core_bindOff (w : World) (el : El) (event : String) (cb : Option Cb) :
    (bindOff w el event cb).core = w.core := by
  cases cb <;> rfl

theorem core_bindEvent (w : World) (me : Nat) (event lastEvent : String) :
    (bindEvent w me event lastEvent).core = w.core := by
  unfold bindEvent
  dsimp only
  split
  · rfl
  · refine (core_bindOn _ _ _ _).trans (core_setLoader _ _ _ ?_)
    rfl

theorem core_addChildStep (me lazyLoader : Nat) (lastEvent : String) (w : World)
    (event : String) : (addChildStep me lazyLoader lastEvent w event).core = w.core := by
  unfold addChildStep
  dsimp only
  refine (core_setLoader _ _ _ ?_).trans ?_
  · rfl
  split
  · rfl
  · refine (core_bindEvent _ _ _ _).trans (core_setLoader _ _ _ ?_)
    rfl

theorem core_foldl {α : Type} (f : World → α → World) (h : ∀ w a, (f w a).core = w.core)
    (l : List α) : ∀ w, (l.foldl f w).core = w.core := by
  induction l with
  | nil => intro w; rfl
  | cons a rest ih => intro w; rw [List.foldl_cons, ih, h]

theorem core_addChild (w : World) (me lazyLoader : Nat) :
    (addChild w me lazyLoader).core = w.core := by
  unfold addChild
  dsimp only
  refine (core_foldl _ (core_addChildStep me lazyLoader _) _ _).trans (core_setLoader _ _ _ ?_)
  rfl

theorem core_rmChildStep (me id : Nat) (w : World) (event : String) :
    (rmChildStep me id w event).core = w.core := by
  unfold rmChildStep
  dsimp only
  split
  · refine (core_bindOff _ _ _ _).trans ((core_setLoader _ _ _ ?_).trans (core_setLoader _ _ _ ?_))
    · rfl
    · rfl
  · refine core_setLoader _ _ _ ?_
    rfl

theorem core_rmChild (w : World) (me lazyLoader : Nat) :
    (rmChild w me lazyLoader).core = w.core := by
  unfold rmChild
  dsimp only
  refine (core_foldl _ (core_rmChildStep me _) _ _).trans ?_
  split
  · refine core_setLoader _ _ _ ?_
    rfl
  · rfl

theorem core_destroyShallow (w : World) (me : Nat) :
    (destroyShallow w me).core = w.core := by
  unfold destroyShallow
  dsimp only
  split
  · refine (core_setLoader _ _ _ ?_).trans ?_
    · rfl
    split
    · exact core_rmChild _ _ _
    · split <;> rfl
  · rfl

/-! ## What a run leaves of a loader configured `once` -/

theorem Quiet.refl (n : Nat) (w : World) : Quiet n w w := ⟨rfl, rfl, id, rfl, rfl⟩

theorem Quiet.trans {n : Nat} {w1 w2 w3 : World} (h : Quiet n w1 w2) (h' : Quiet n w2 w3) :
    Quiet n w1 w3 :=
  ⟨h'.1.trans h.1, h'.2.1.trans h.2.1, fun hs => h'.2.2.1 (h.2.2.1 hs),
    h'.2.2.2.1.trans h.2.2.2.1, h'.2.2.2.2.trans h.2.2.2.2⟩

theorem Quiet.of_core {n : Nat} {w w' : World} (h : w'.core = w.core) : Quiet n w w' := by
  have hl : (w'.loaders n).core = (w.loaders n).core := congrFun (congrArg World.loaders h) n
  have ho : (w'.loaders n).core.opts = (w.loaders n).core.opts := congrArg Node.opts hl
  have hh : (w'.loaders n).core.loadHandler = (w.loaders n).core.loadHandler :=
    congrArg Node.loadHandler hl
  have hs : (w'.loaders n).core.stat = (w.loaders n).core.stat := congrArg Node.stat hl
  have hc : w'.core.reqCount = w.core.reqCount := congrArg World.reqCount h
  have he : w'.core.envs = w.core.envs := congrArg World.envs h
  refine ⟨ho, hh, ?_, hc, he⟩
  intro hne
  have hs' : (w'.loaders n).stat = (w.loaders n).stat := hs
  rw [hs']; exact hne

theorem made_of_quiet {n : Nat} {w w' : World} (h : Quiet n w w') : made w' n = made w n := by
  unfold made; rw [h.2.2.2.1, h.2.2.2.2]

theorem OneShot.quiet {n : Nat} {w0 w w' : World} (hq : Quiet n w w') (h : OneShot n w0 w) :
    OneShot n w0 w' := by
  obtain ⟨h1, h2, h3, h4, h5⟩ := h
  refine ⟨?_, ?_, ?_, ?_, ?_⟩
  · rw [hq.1]; exact h1
  · rw [hq.2.1]; exact h2
  · rw [made_of_quiet hq]; exact h3
  · intro hs
    rw [made_of_quiet hq]
    apply h4
    by_contra hne
    exact hq.2.2.1 hne hs
  · intro hs
    exact hq.2.2.1 (h5 hs)

/-- Writing a loader other than `n`, or writing `n` with the same options and handler
and a state that is not a return to `STAT_NOT_LOAD`. -/
theorem quiet_setLoader (n : Nat) (w : World) (k : Nat) (x : Node)
    (ho : x.opts = (w.loaders k).opts) (hh : x.loadHandler = (w.loaders k).loadHandler)
    (hs : (w.loaders k).stat ≠ STAT_NOT_LOAD → x.stat ≠ STAT_NOT_LOAD) :
    Quiet n w (w.setLoader k x) := by
  unfold World.setLoader Quiet
  by_cases hk : n = k
  · subst hk; simp [ho, hh]; exact hs
  · simp [Function.update_noteq hk]

theorem quiet_log (n : Nat) (w : World) (c : Call) : Quiet n w (w.log c) := Quiet.refl n w
theorem quiet_setReq (n : Nat) (w : World) (k : Nat) (r : Req) : Quiet n w (w.setReq k r) :=
  Quiet.refl n w
theorem quiet_cssBg (n : Nat) (w : World) (el : El) (v : String) : Quiet n w (cssBg w el v) :=
  Quiet.refl n w
theorem quiet_switchClass (n : Nat) (w : World) (el : El) (cs : List String) (c : String) :
    Quiet n w (switchClass w el cs c) := Quiet.refl n w

theorem quiet_inView (n : Nat) (w : World) (me : Nat) : Quiet n w (inView w me).2 := by
  unfold inView
  dsimp only
  refine Quiet.trans ?_ (quiet_setLoader n _ _ _ rfl rfl (fun h => h))
  split <;> split <;> exact Quiet.refl n w

theorem inView_stat (w : World) (me k : Nat) :
    ((inView w me).2.loaders k).stat = (w.loaders k).stat := by
  unfold inView World.setLoader
  dsimp only
  by_cases hk : k = me
  · subst hk
    simp only [Function.update_same]
    split <;> split <;> rfl
  · simp only [Function.update_noteq hk]
    split <;> split <;> rfl

theorem quiet_onComplete (n : Nat) (w : World) (m : Nat) (once : Bool) :
    Quiet n w (onComplete w m once) := by
  unfold onComplete
  dsimp only
  have h1 : Quiet n w (w.setLoader m { (w.loaders m) with stat := STAT_LOADED }) :=
    quiet_setLoader n _ _ _ rfl rfl (fun _ => (by decide : STAT_LOADED ≠ STAT_NOT_LOAD))
  split
  · exact h1.trans (Quiet.of_core (core_destroyShallow _ _))
  · exact h1

theorem quiet_handlerOnLoad (n : Nat) (w : World) (env : ReqEnv) (info : Info) :
    Quiet n w (handlerOnLoad w env info) := by
  unfold handlerOnLoad
  dsimp only
  have h1 : Quiet n w (if env.bg = true then
      cssBg w env.el
        ("url(" ++ (Option.map (fun r => (w.reqs r).src) (w.loaders env.loader).req).getD ""
          ++ ")")
    else w) := by
    split
    · exact quiet_cssBg _ _ _ _
    · exact Quiet.refl _ _
  have h2 := h1.trans ((quiet_onComplete n _ env.loader env.once).trans
    (quiet_switchClass n _ env.elClassTarget env.classes env.classLoaded))
  split
  · exact h2.trans (quiet_log _ _ _)
  · exact h2

theorem quiet_handlerOnErr (n : Nat) (w : World) (env : ReqEnv) (info : Info) :
    Quiet n w (handlerOnErr w env info) := by
  unfold handlerOnErr
  dsimp only
  have h1 : Quiet n w (if env.bg = true then cssBg w env.el "" else w) := by
    split
    · exact quiet_cssBg _ _ _ _
    · exact Quiet.refl _ _
  have h2 : Quiet n w (if info.isEnd = true then
      switchClass (onComplete (if env.bg = true then cssBg w env.el "" else w) env.loader env.once)
        env.elClassTarget env.classes env.classErr
    else (if env.bg = true then cssBg w env.el "" else w)) := by
    split
    · exact h1.trans ((quiet_onComplete n _ _ _).trans (quiet_switchClass n _ _ _ _))
    · exact h1
  split
  · exact h2.trans (quiet_log _ _ _)
  · exact h2

theorem quiet_applyOut (n : Nat) (req : Nat) (w : World) (o : Out) :
    Quiet n w (applyOut req w o) := by
  cases o with
  | issue loadEl src => exact Quiet.refl n w
  | onReq info => exact Quiet.refl n w
  | onLoad info => exact quiet_handlerOnLoad n w _ info
  | onErr info => exact quiet_handlerOnErr n w _ info
  | retry info times => exact Quiet.refl n w

theorem quiet_foldl {α : Type} (n : Nat) (f : World → α → World)
    (h : ∀ w a, Quiet n w (f w a)) (l : List α) : ∀ w, Quiet n w (l.foldl f w) := by
  induction l with
  | nil => intro w; exact Quiet.refl n w
  | cons a rest ih => intro w; exact (h w a).trans (ih _)

theorem quiet_deliver (n : Nat) (w : World) (req : Nat) (s : Signal) :
    Quiet n w (deliver w req s) := by
  unfold deliver
  exact (quiet_setReq n w req _).trans (quiet_foldl n _ (quiet_applyOut n req) _ _)

theorem quiet_transport (n : Nat) (w : World) (loadEl : LoadEl) (s : Signal) :
    Quiet n w (transport w loadEl s) := by
  unfold transport
  split
  · exact quiet_deliver n w _ s
  · exact Quiet.refl n w

theorem quiet_callNext (n : Nat) (w : World) (req : Nat) (failed : Bool)
    (nSrc : Option String) : Quiet n w (callNext w req failed nSrc) := by
  unfold callNext
  exact (quiet_setReq n w req _).trans (quiet_foldl n _ (quiet_applyOut n req) _ _)


theorem made_grow (w w' : World) (env : ReqEnv) (n : Nat)
    (hc : w'.reqCount = w.reqCount + 1)
    (he : w'.envs = Function.update w.envs w.reqCount env) :
    made w' n = made w n + (if env.loader = n then 1 else 0) := by
  unfold made
  rw [hc, he, List.range_succ, List.filter_append, List.length_append]
  congr 1
  · congr 1
    apply List.filter_congr
    intro r hr
    have hne : r ≠ w.reqCount := Nat.ne_of_lt (List.mem_range.1 hr)
    simp [Function.update_noteq hne]
  · by_cases h : env.loader = n <;> simp [h]

/-- The state after `new Req` in `defaultLoadHandler`. -/
theorem oneShot_start (n m : Nat) (w0 v v4 : World) (env : ReqEnv)
    (h : OneShot n w0 v) (hm : m = n → (v.loaders n).stat = STAT_NOT_LOAD)
    (henv : env.loader = m)
    (hl : v4.loaders = Function.update v.loaders m { (v.loaders m) with stat := STAT_LOADING })
    (hc : v4.reqCount = v.reqCount + 1)
    (he : v4.envs = Function.update v.envs v.reqCount env) :
    OneShot n w0 v4 := by
  obtain ⟨h1, h2, h3, h4, h5⟩ := h
  have hmade := made_grow v v4 env n hc he
  by_cases hmn : m = n
  · subst hmn
    have h0 : made v m = 0 := h4 (hm rfl)
    refine ⟨?_, ?_, ?_, ?_, ?_⟩
    · rw [hl]; simpa using h1
    · rw [hl]; simpa using h2
    · rw [hmade, h0]; simp [henv]
    · intro hs
      rw [hl] at hs
      simp [STAT_LOADING, STAT_NOT_LOAD] at hs
    · intro _
      rw [hl]
      simp [STAT_LOADING, STAT_NOT_LOAD]
  · have hne : n ≠ m := fun h => hmn h.symm
    have hne' : ¬ env.loader = n := by rw [henv]; exact hmn
    refine ⟨?_, ?_, ?_, ?_, ?_⟩
    · rw [hl, Function.update_noteq hne]; exact h1
    · rw [hl, Function.update_noteq hne]; exact h2
    · rw [hmade]; simpa [hne'] using h3
    · rw [hl, Function.update_noteq hne, hmade]
      intro hs; simpa [hne'] using h4 hs
    · rw [hl, Function.update_noteq hne]; exact h5

theorem quiet_cancelOld (n : Nat) (w : World) (oReq : Option Nat) :
    Quiet n w (cancelOld w oReq) := by
  cases oReq <;> exact Quiet.refl n w

theorem cancelOld_loaders (w : World) (oReq : Option Nat) :
    (cancelOld w oReq).loaders = w.loaders := by
  cases oReq <;> rfl

theorem quiet_modeSwitch (n : Nat) (w : World) (opts : Opts) :
    Quiet n w (modeSwitch w opts).1 := by
  unfold modeSwitch
  split <;> exact Quiet.refl n w

theorem modeSwitch_loaders (w : World) (opts : Opts) :
    (modeSwitch w opts).1.loaders = w.loaders := by
  unfold modeSwitch
  split <;> rfl

theorem oneShot_startLoad (n m : Nat) (w0 w : World) (opts : Opts) (tgt : El) (loadEl : LoadEl)
    (src : String) (h : OneShot n w0 w) (hm : m = n → (w.loaders n).stat = STAT_NOT_LOAD) :
    OneShot n w0 (startLoad w m opts tgt loadEl src) := by
  unfold startLoad
  dsimp only
  refine OneShot.quiet
    (Quiet.trans (quiet_foldl n _ (quiet_applyOut n _) _ _)
      (Quiet.trans (quiet_setLoader n _ _ _ ?_ ?_ ?_) (quiet_switchClass n _ _ _ _))) ?_
  · rfl
  · rfl
  · exact fun h => h
  · exact oneShot_start n m w0 w _ _ h hm rfl rfl rfl rfl

theorem oneShot_defaultLoadHandler (n m : Nat) (w0 w : World) (h : OneShot n w0 w)
    (hm : m = n → (w.loaders n).stat = STAT_NOT_LOAD) :
    OneShot n w0 (defaultLoadHandler w m) := by
  unfold defaultLoadHandler
  dsimp only
  have q : Quiet n w (modeSwitch (cancelOld w (w.loaders m).req) (w.loaders m).opts).1 :=
    (quiet_cancelOld n w _).trans (quiet_modeSwitch n _ _)
  have e : (modeSwitch (cancelOld w (w.loaders m).req) (w.loaders m).opts).1.loaders
      = w.loaders := (modeSwitch_loaders _ _).trans (cancelOld_loaders _ _)
  split
  · apply oneShot_startLoad n m w0 _ _ _ _ _ (OneShot.quiet q h)
    intro hmn; rw [e]; exact hm hmn
  · exact OneShot.quiet (q.trans (quiet_onComplete n _ m _)) h

theorem oneShot_runLoadHandler (n m : Nat) (w0 w : World) (h : OneShot n w0 w)
    (hm : m = n → (w.loaders n).stat = STAT_NOT_LOAD) :
    OneShot n w0 (runLoadHandler w m) := by
  unfold runLoadHandler
  split
  · exact oneShot_defaultLoadHandler n m w0 w h hm
  · exact OneShot.quiet (quiet_log n w _) h


theorem leaves_ok (P : World → Prop) (w : World) : Leaves P (Except.ok w) ↔ P w := Iff.rfl

theorem leaves_typeError (P : World → Prop) (w : World) :
    Leaves P (Except.error (Err.typeError w)) ↔ P w := Iff.rfl

theorem leaves_fuel (P : World → Prop) : Leaves P (Except.error Err.fuel) := trivial

theorem leaves_bind (P : World → Prop) (e : Except Err World) (f : World → Except Err World)
    (he : Leaves P e) (hf : ∀ w, P w → Leaves P (f w)) : Leaves P (e >>= f) := by
  cases e with
  | ok w => exact hf w he
  | error err => exact he

theorem leaves_map (P : World → Prop) (e : Except Err World) (f : World → World)
    (he : Leaves P e) (hf : ∀ w, P w → P (f w)) : Leaves P (e.map f) := by
  cases e with
  | ok w => exact hf w he
  | error err => exact he

theorem leaves_foldlM {α : Type} (P : World → Prop) (f : World → α → Except Err World)
    (h : ∀ w a, P w → Leaves P (f w a)) (l : List α) :
    ∀ w, P w → Leaves P (l.foldlM f w) := by
  induction l with
  | nil => intro w hw; exact hw
  | cons a rest ih =>
    intro w hw
    rw [List.foldlM_cons]
    exact leaves_bind P _ _ (h w a hw) ih

theorem oneShot_check (n : Nat) (w0 : World) :
    ∀ (fuel : Nat) (w : World) (m : Nat) (ev : Option String),
      OneShot n w0 w → Leaves (OneShot n w0) (check fuel w m ev) := by
  intro fuel
  induction fuel with
  | zero => intro w m ev _; exact leaves_fuel _
  | succ fuel ih =>
    intro w m ev hw
    unfold check
    dsimp only
    have h0 : OneShot n w0 (w.log (Call.check m ev)) := OneShot.quiet (quiet_log n w _) hw
    by_cases hs : ((w.log (Call.check m ev)).loaders m).stat < STAT_LOADING
    · simp only [hs, if_true]
      have h1 : OneShot n w0 (inView (w.log (Call.check m ev)) m).2 :=
        OneShot.quiet (quiet_inView n _ m) h0
      split
      · have hm : m = n → ((inView (w.log (Call.check m ev)) m).2.loaders n).stat
            = STAT_NOT_LOAD := by
          intro hmn
          subst hmn
          rw [inView_stat]
          unfold STAT_LOADING at hs
          unfold STAT_NOT_LOAD
          omega
        have h2 := oneShot_runLoadHandler n m w0 _ h1 hm
        have hfold : Leaves (OneShot n w0)
            (List.foldlM
              (fun w2 k =>
                match (w2.loaders m).children.get k with
                | some child => check fuel w2 child ev
                | none => Except.error (Err.typeError w2))
              (runLoadHandler (inView (w.log (Call.check m ev)) m).2 m)
              ((runLoadHandler (inView (w.log (Call.check m ev)) m).2 m).loaders
                m).children.keys) := by
          apply leaves_foldlM _ _ _ _ _ h2
          intro w2 k hw2
          split
          · exact ih _ _ _ hw2
          · exact hw2
        split_ifs <;> first | exact hfold | exact h2
      · exact h1
    · simp only [hs, if_false]
      exact h0


theorem quiet_setLoader_ne (n : Nat) (w : World) (k : Nat) (x : Node) (hk : n ≠ k) :
    Quiet n w (w.setLoader k x) := by
  unfold World.setLoader Quiet
  simp [Function.update_noteq hk]

theorem oneShot_update (n : Nat) (w0 : World) (fuel : Nat) (w : World) (m : Nat)
    (nSrc : Option String) (h : OneShot n w0 w) :
    Leaves (OneShot n w0) (update fuel w m nSrc) := by
  unfold update
  dsimp only
  split_ifs with h1 h2
  · apply oneShot_check
    by_cases hmn : n = m
    · subst hmn
      rw [h.1] at h1
      simp at h1
    · exact OneShot.quiet (quiet_setLoader_ne n w m _ hmn) h
  · exact h
  · exact h

theorem oneShot_runCb (n : Nat) (w0 : World) (fuel : Nat) (w : World) (cb : Cb)
    (h : OneShot n w0 w) : Leaves (OneShot n w0) (runCb fuel w cb) := by
  unfold runCb
  dsimp only
  apply leaves_foldlM _ _ _ _ _ h
  intro w1 k hw1
  split
  · exact oneShot_check n w0 _ _ _ _ hw1
  · exact hw1

theorem oneShot_fire (n : Nat) (w0 : World) (fuel : Nat) (w : World) (el : El)
    (event : String) (h : OneShot n w0 w) : Leaves (OneShot n w0) (fire fuel w el event) := by
  unfold fire
  apply leaves_foldlM _ _ _ _ _ h
  intro w1 l hw1
  split
  · exact oneShot_runCb n w0 _ _ _ hw1
  · exact hw1

theorem oneShot_destroyLoaderDeep (n : Nat) (w0 : World) :
    ∀ (fuel : Nat) (w : World) (m : Nat),
      OneShot n w0 w → Leaves (OneShot n w0) (destroyLoaderDeep fuel w m) := by
  intro fuel
  induction fuel with
  | zero => intro w m _; exact leaves_fuel _
  | succ fuel ih =>
    intro w m hw
    unfold destroyLoaderDeep
    dsimp only
    apply leaves_map
    · split
      · apply leaves_foldlM _ _ _ _ _ hw
        intro w1 k hw1
        split
        · exact ih _ _ hw1
        · exact hw1
      · exact hw
    · intro w1 hw1
      exact OneShot.quiet (Quiet.of_core (core_destroyShallow _ _)) hw1

theorem oneShot_destroy (n : Nat) (w0 : World) (fuel : Nat) (w : World) (m : Nat)
    (deep : Bool) (h : OneShot n w0 w) : Leaves (OneShot n w0) (destroy fuel w m deep) := by
  unfold destroy
  split_ifs
  · exact OneShot.quiet (Quiet.of_core (core_destroyShallow _ _)) h
  · apply leaves_map _ _ _ (oneShot_destroyLoaderDeep n w0 _ _ _ h)
    intro w1 hw1
    exact OneShot.quiet (quiet_setLoader n _ _ _ rfl rfl (fun h => h)) hw1
  · exact h

theorem oneShot_step (n : Nat) (w0 : World) (fuel : Nat) (w : World) (s : Step)
    (h : OneShot n w0 w) : Leaves (OneShot n w0) (s.run fuel w) := by
  cases s with
  | check loader evName => exact oneShot_check n w0 _ _ _ _ h
  | update loader src => exact oneShot_update n w0 _ _ _ _ h
  | transport loadEl s => exact OneShot.quiet (quiet_transport n w loadEl s) h
  | next req failed nSrc => exact OneShot.quiet (quiet_callNext n w req failed nSrc) h
  | fire el event => exact oneShot_fire n w0 _ _ _ _ h
  | destroy loader deep => exact oneShot_destroy n w0 _ _ _ _ h
  | addChild loader child => exact OneShot.quiet (Quiet.of_core (core_addChild _ _ _)) h
  | rmChild loader child => exact OneShot.quiet (Quiet.of_core (core_rmChild _ _ _)) h

theorem oneShot_runSteps (n : Nat) (w0 : World) (fuel : Nat) (steps : List Step) :
    ∀ (w w' : World), OneShot n w0 w → runSteps fuel w steps = some w' → OneShot n w0 w' := by
  induction steps with
  | nil =>
    intro w w' h hrun
    simp only [runSteps, Option.some.injEq] at hrun
    subst hrun; exact h
  | cons s rest ih =>
    intro w w' h hrun
    have hs := oneShot_step n w0 fuel w s h
    unfold Leaves at hs
    simp only [runSteps] at hrun
    cases hl : leftBy (s.run fuel w) with
    | none => rw [hl] at hrun; simp at hrun
    | some w1 =>
      rw [hl] at hrun hs
      exact ih w1 w' hs hrun

/-! ## What `destroy` leaves alone, and a late success -/

theorem core_destroyLoaderDeep (w0 : World) :
    ∀ (fuel : Nat) (w : World) (m : Nat), w.core = w0.core →
      Leaves (fun v => v.core = w0.core) (destroyLoaderDeep fuel w m) := by
  intro fuel
  induction fuel with
  | zero => intro w m _; exact leaves_fuel _
  | succ fuel ih =>
    intro w m hw
    unfold destroyLoaderDeep
    dsimp only
    apply leaves_map
    · split
      · apply leaves_foldlM (fun v => v.core = w0.core) _ _ _ _ hw
        intro w1 k hw1
        split
        · exact ih _ _ hw1
        · exact hw1
      · exact hw
    · intro w1 hw1
      exact (core_destroyShallow _ _).trans hw1

theorem core_destroy (fuel : Nat) (w w' : World) (me : Nat) (deep : Bool)
    (h : destroy fuel w me deep = Except.ok w') : w'.core = w.core := by
  unfold destroy at h
  split_ifs at h with h1 h2
  · simp only [Except.ok.injEq] at h
    subst h
    exact core_destroyShallow _ _
  · have hd := core_destroyLoaderDeep w fuel w me rfl
    cases hr : destroyLoaderDeep fuel w me with
    | error e => rw [hr] at h; simp [Except.map] at h
    | ok w1 =>
      rw [hr] at h hd
      simp only [Except.map, Except.ok.injEq] at h
      subst h
      have hd' : w1.core = w.core := hd
      refine (core_setLoader _ _ _ ?_).trans hd'
      rfl
  · simp only [Except.ok.injEq] at h
    subst h; rfl

theorem onComplete_stat (w : World) (m : Nat) (once : Bool) :
    ((onComplete w m once).loaders m).stat = STAT_LOADED := by
  unfold onComplete
  dsimp only
  have h1 : ((w.setLoader m { (w.loaders m) with stat := STAT_LOADED }).loaders m).stat
      = STAT_LOADED := by simp [World.setLoader]
  split
  · have hc := core_destroyShallow (w.setLoader m { (w.loaders m) with stat := STAT_LOADED }) m
    have hl : ((destroyShallow (w.setLoader m { (w.loaders m) with stat := STAT_LOADED })
        m).loaders m).core.stat
        = ((w.setLoader m { (w.loaders m) with stat := STAT_LOADED }).loaders m).core.stat :=
      congrArg Node.stat (congrFun (congrArg World.loaders hc) m)
    exact hl.trans h1
  · exact h1

theorem onComplete_trace (w : World) (m : Nat) (once : Bool) :
    (onComplete w m once).trace = w.trace := by
  unfold onComplete
  dsimp only
  split
  · have hc := core_destroyShallow (w.setLoader m { (w.loaders m) with stat := STAT_LOADED }) m
    exact (congrArg World.trace hc : _)
  · rfl

theorem handlerOnLoad_stat (w : World) (env : ReqEnv) (info : Info) :
    ((handlerOnLoad w env info).loaders env.loader).stat = STAT_LOADED := by
  unfold handlerOnLoad
  dsimp only
  split <;> exact onComplete_stat _ _ _

theorem mem_switchClass (w : World) (el : El) (classes : List String) (className : String) :
    className ∈ (switchClass w el classes className).classes el := by
  unfold switchClass addClass
  simp only [Function.update_same]
  split
  · rename_i h
    simpa using h
  · simp

theorem handlerOnLoad_class (w : World) (env : ReqEnv) (info : Info) :
    env.classLoaded ∈ (handlerOnLoad w env info).classes env.elClassTarget := by
  unfold handlerOnLoad
  dsimp only
  split <;> exact mem_switchClass _ _ _ _

theorem handlerOnLoad_trace (w : World) (env : ReqEnv) (info : Info)
    (h : env.onLoad = true) :
    (handlerOnLoad w env info).trace = w.trace ++ [Call.onLoad info] := by
  unfold handlerOnLoad
  dsimp only
  rw [if_pos h]
  show (switchClass _ _ _ _).trace ++ [Call.onLoad info] = _
  have : ∀ v : World, (switchClass (onComplete v env.loader env.once) env.elClassTarget
      env.classes env.classLoaded).trace = v.trace := by
    intro v
    exact onComplete_trace v _ _
  rw [this]
  split <;> rfl

theorem transport_load_live (w : World) (loadEl : LoadEl) (req : Nat)
    (hreq : w.handlerOf loadEl = some req) (hlive : (w.reqs req).canceled = false)
    (hcb : (w.reqs req).hasOnLoad = true) :
    transport w loadEl Signal.load =
      handlerOnLoad (w.setReq req (w.reqs req)) (w.envs req) (w.reqs req).baseInfo := by
  unfold transport
  rw [hreq]
  simp [deliver, Req.signal, Req.onload, hlive, hcb, applyOut, World.setReq]

/-! ## Reading off the end of a run -/

theorem orElse_ok (e : Except Err World) (d : World) (h : e.toBool = true) :
    e = Except.ok (World.orElse e d) := by
  cases e with
  | ok w => rfl
  | error err => simp [Except.toBool] at h

theorem getD_some (o : Option World) (d : World) (h : o.isSome = true) :
    o = some (o.getD d) := by
  cases o with
  | some w => rfl
  | none => simp at h

/-! ## Requests -/

theorem Req.onerror_num (r : Req) (N : Int) (hr : r.retry = Retry.num N)
    (hc : r.canceled = false) :
    r.onerror = if N = -1 ∨ N > 0
      then ({ r with retry := if N > 0 then Retry.num (N - 1) else Retry.num N },
        r.notifyErr false ++ r.load)
      else (r, r.notifyErr true) := by
  unfold Req.onerror
  simp only [hc, hr, Bool.not_false, if_true]

theorem Req.onload_fst (r : Req) : r.onload.1 = r := by
  unfold Req.onload; split <;> rfl

/-- After any signals, the answer to one more failure is settled by the budget the
request was built with and the number of failures so far. -/
theorem Req.run_then_error (sigs : List Signal) :
    ∀ (r : Req) (N : Int), r.retry = Retry.num N → -1 ≤ N → r.canceled = false →
      ((r.run sigs).1.onerror).2 =
        if 0 ≤ N ∧ N < ((sigs.count Signal.error : Nat) : Int) + 1
        then r.notifyErr true else r.notifyErr false ++ r.load := by
  induction sigs with
  | nil =>
    intro r N hr hN hc
    simp only [Req.run, List.count_nil, Nat.cast_zero, zero_add]
    rw [Req.onerror_num r N hr hc]
    by_cases h : N = -1 ∨ N > 0
    · have h2 : ¬ (0 ≤ N ∧ N < 1) := by omega
      rw [if_pos h, if_neg h2]
    · have h2 : (0 ≤ N ∧ N < 1) := by omega
      rw [if_neg h, if_pos h2]
  | cons s rest ih =>
    intro r N hr hN hc
    cases s with
    | load =>
      have h1 : (r.run (Signal.load :: rest)).1 = (r.run rest).1 := by
        simp [Req.run, Req.signal, Req.onload_fst]
      rw [h1, ih r N hr hN hc]
      simp
    | error =>
      have h1 : (r.run (Signal.error :: rest)).1 = ((r.onerror).1.run rest).1 := by
        simp [Req.run, Req.signal]
      rw [h1, Req.onerror_num r N hr hc]
      simp only [List.count_cons_self, Nat.cast_add, Nat.cast_one]
      by_cases h : N = -1 ∨ N > 0
      · simp only [h, if_true]
        by_cases hpos : N > 0
        · simp only [hpos, if_true]
          rw [ih { r with retry := Retry.num (N - 1) } (N - 1) rfl (by omega) hc]
          by_cases h3 : 0 ≤ N - 1 ∧ N - 1 < ((List.count Signal.error rest : Nat) : Int) + 1
          · have h4 : 0 ≤ N ∧ N < ((List.count Signal.error rest : Nat) : Int) + 1 + 1 := by
              omega
            rw [if_pos h3, if_pos h4]; rfl
          · have h4 :
                ¬ (0 ≤ N ∧ N < ((List.count Signal.error rest : Nat) : Int) + 1 + 1) := by
              omega
            rw [if_neg h3, if_neg h4]; rfl
        · simp only [hpos, if_false]
          rw [ih { r with retry := Retry.num N } N rfl hN hc]
          have h3 : ¬ (0 ≤ N ∧ N < ((List.count Signal.error rest : Nat) : Int) + 1) := by
            omega
          have h4 : ¬ (0 ≤ N ∧ N < ((List.count Signal.error rest : Nat) : Int) + 1 + 1) := by
            omega
          rw [if_neg h3, if_neg h4]; rfl
      · simp only [h, if_false]
        rw [ih r N hr hN hc]
        have h3 : (0 ≤ N ∧ N < ((List.count Signal.error rest : Nat) : Int) + 1) := by omega
        have h4 : (0 ≤ N ∧ N < ((List.count Signal.error rest : Nat) : Int) + 1 + 1) := by omega
        rw [if_pos h3, if_pos h4]

/-- C3: a request with an integer retry budget `N ≥ -1` that is never canceled answers
its k-th transport failure (the one after signals `sigs` holding k - 1 failures) with a
terminal error notification and no new load exactly when `0 ≤ N` and `N < k`, and
otherwise with one error notification without `isEnd` followed by one new load. With
budget 2, two failures and a success give two non-terminal error notifications (each
followed by a new load) and then one success notification; with budget 0 one failure
gives one terminal error notification. -/
theorem req_failure_terminal_iff_budget_spent (r : Req) (N : Int) (sigs : List Signal)
    (hr : r.retry = Retry.num N) (hN : -1 ≤ N) (hc : r.canceled = false) :
    ((r.run sigs).1.onerror).2 =
      (if 0 ≤ N ∧ N < ((sigs.count Signal.error : Nat) : Int) + 1
       then (if r.hasOnErr then [Out.onErr ⟨r.el, r.src, r.oSrc, true⟩] else [])
       else (if r.hasOnErr then [Out.onErr ⟨r.el, r.src, r.oSrc, false⟩] else []) ++
         [Out.issue r.loadEl r.src] ++
         (if r.hasOnReq then [Out.onReq ⟨r.el, r.src, r.oSrc, false⟩] else [])) ∧
    (N = 2 → r.hasOnErr = true → r.hasOnLoad = true →
      (r.run [Signal.error, Signal.error, Signal.load]).2 =
        [Out.onErr ⟨r.el, r.src, r.oSrc, false⟩, Out.issue r.loadEl r.src] ++
        (if r.hasOnReq then [Out.onReq ⟨r.el, r.src, r.oSrc, false⟩] else []) ++
        [Out.onErr ⟨r.el, r.src, r.oSrc, false⟩, Out.issue r.loadEl r.src] ++
        (if r.hasOnReq then [Out.onReq ⟨r.el, r.src, r.oSrc, false⟩] else []) ++
        [Out.onLoad ⟨r.el, r.src, r.oSrc, false⟩]) ∧
    (N = 0 → r.hasOnErr = true →
      (r.run [Signal.error]).2 = [Out.onErr ⟨r.el, r.src, r.oSrc, true⟩]) := by
  refine ⟨?_, ?_, ?_⟩
  · rw [Req.run_then_error sigs r N hr hN hc]
    simp [Req.notifyErr, Req.load, Req.baseInfo]
  · intro h2 he hl
    subst h2
    simp [Req.run, Req.signal, Req.onerror, Req.onload, Req.notifyErr, Req.load, Req.baseInfo,
      hr, hc, he, hl]
  · intro h0 he
    subst h0
    simp [Req.run, Req.signal, Req.onerror, Req.notifyErr, Req.baseInfo, hr, hc, he]

/-- Witness of C3: budget 2, the third failure is terminal. -/
theorem req_failure_terminal_iff_budget_spent_witness :
    (((sampleReq (Retry.num 2)).run [Signal.error, Signal.error]).1.onerror).2 =
      [Out.onErr ⟨El.dom 1, "a.png", "a.png", true⟩] ∧
    ((sampleReq (Retry.num 2)).run [Signal.error, Signal.error, Signal.load]).2 =
      [Out.onErr ⟨El.dom 1, "a.png", "a.png", false⟩,
        Out.issue (LoadEl.el (El.dom 1)) "a.png",
        Out.onReq ⟨El.dom 1, "a.png", "a.png", false⟩,
        Out.onErr ⟨El.dom 1, "a.png", "a.png", false⟩,
        Out.issue (LoadEl.el (El.dom 1)) "a.png",
        Out.onReq ⟨El.dom 1, "a.png", "a.png", false⟩,
        Out.onLoad ⟨El.dom 1, "a.png", "a.png", false⟩] :=
  ⟨(req_failure_terminal_iff_budget_spent (sampleReq (Retry.num 2)) 2
      [Signal.error, Signal.error] rfl (by decide) rfl).1,
    (req_failure_terminal_iff_budget_spent (sampleReq (Retry.num 2)) 2
      [Signal.error, Signal.error] rfl (by decide) rfl).2.1 rfl rfl rfl⟩

/-- C4: once `cancel()` has been called, transport signals of success or failure, in
any number and order, make the request do nothing (no success, error or request-issued
callback, no call of the retry function, no new load) and leave the request as it
was, its retry budget, attempt counter and source included, for every retry policy; and
in a world where request `req` has been canceled, its closures `onload` and `onerror`
leave the whole world as it is. -/
theorem req_canceled_signals_do_nothing (r : Req) (sigs : List Signal) :
    r.cancel.run sigs = (r.cancel, []) ∧
    ∀ (w : World) (req : Nat) (s : Signal),
      deliver (w.setReq req (w.reqs req).cancel) req s = w.setReq req (w.reqs req).cancel := by
  have one : ∀ (x : Req) (s : Signal), x.cancel.signal s = (x.cancel, []) := by
    intro x s
    cases s <;> simp [Req.signal, Req.onload, Req.onerror, Req.cancel]
  constructor
  · induction sigs with
    | nil => rfl
    | cons s rest ih => simp [Req.run, one, ih]
  · intro w req s
    unfold deliver
    have h : (w.setReq req (w.reqs req).cancel).reqs req = (w.reqs req).cancel := by
      simp [World.setReq]
    rw [h, one]
    simp [World.setReq]

/-! ## Visibility -/

theorem inView_fst (w : World) (me : Nat) : (inView w me).1 = inViewResult w me := rfl

/-- C1: for a loader with a parent, `inView()` returns true only if, at the time of
the call, the element of the parent is the window or the cached `_lastInView` of the
parent is true; when neither holds it returns false whatever the geometry. -/
theorem inView_true_requires_parent_visible (w : World) (me parent : Nat)
    (hp : (w.loaders me).parent = some parent) :
    ((inView w me).1 = true →
      (w.loaders parent).el = El.win ∨ (w.loaders parent).lastInView = true) ∧
    ((w.loaders parent).el ≠ El.win → (w.loaders parent).lastInView = false →
      (inView w me).1 = false) := by
  rw [inView_fst]
  unfold inViewResult
  simp only [hp]
  constructor
  · intro h
    by_cases hw : (w.loaders parent).el = El.win
    · exact Or.inl hw
    · by_cases hl : (w.loaders parent).lastInView = true
      · exact Or.inr hl
      · simp [hw, hl] at h
  · intro hw hl
    simp [hw, hl]

/-- Witness of C1: on the sample page loader 6 under the root is in view, and loader 3
under the unchecked container is not, although its rectangle lies in the window. -/
theorem inView_true_requires_parent_visible_witness :
    ((inView samplePage 6).1 = true ∧ (samplePage.loaders 1).el = El.win) ∧
    ((samplePage.loaders 2).el ≠ El.win ∧ (samplePage.loaders 2).lastInView = false ∧
      (inView samplePage 3).1 = false) :=
  ⟨⟨by decide!, by decide!⟩, by decide!, by decide!,
    (inView_true_requires_parent_visible samplePage 3 2 (by decide!)).2 (by decide!)
      (by decide!)⟩

/-- C2: for a loader whose parent element is the window and whose `preloadRatio` is 1,
`inView()` returns true exactly when the rectangle of the loader strictly overlaps the
window rectangle on both axes; a rectangle that touches an edge of the window from
outside is not in view. -/
theorem inView_window_parent_iff_strict_overlap (w : World) (me parent : Nat)
    (hp : (w.loaders me).parent = some parent)
    (hwin : (w.loaders parent).el = El.win)
    (hr : (w.loaders me).opts.preloadRatio = 1) :
    ((inView w me).1 = true ↔
      ((w.offset (w.loaders me).el).left < w.win.pageXOffset + w.win.innerWidth ∧
       (w.offset (w.loaders me).el).left + (w.offset (w.loaders me).el).width >
         w.win.pageXOffset ∧
       (w.offset (w.loaders me).el).top < w.win.pageYOffset + w.win.innerHeight ∧
       (w.offset (w.loaders me).el).top + (w.offset (w.loaders me).el).height >
         w.win.pageYOffset)) ∧
    (((w.offset (w.loaders me).el).left = w.win.pageXOffset + w.win.innerWidth ∨
      (w.offset (w.loaders me).el).left + (w.offset (w.loaders me).el).width =
        w.win.pageXOffset ∨
      (w.offset (w.loaders me).el).top = w.win.pageYOffset + w.win.innerHeight ∨
      (w.offset (w.loaders me).el).top + (w.offset (w.loaders me).el).height =
        w.win.pageYOffset) → (inView w me).1 = false) := by
  have key : ((inView w me).1 = true ↔
      ((w.offset (w.loaders me).el).left < w.win.pageXOffset + w.win.innerWidth ∧
       (w.offset (w.loaders me).el).left + (w.offset (w.loaders me).el).width >
         w.win.pageXOffset ∧
       (w.offset (w.loaders me).el).top < w.win.pageYOffset + w.win.innerHeight ∧
       (w.offset (w.loaders me).el).top + (w.offset (w.loaders me).el).height >
         w.win.pageYOffset)) := by
    rw [inView_fst]
    unfold inViewResult
    simp [hp, hwin, comparedRect, parentElOffset, supplement, fixedRect, collide, hr]
  refine ⟨key, ?_⟩
  intro h
  cases hres : (inView w me).1 with
  | false => rfl
  | true =>
    obtain ⟨h1, h2, h3, h4⟩ := key.1 hres
    rcases h with h | h | h | h
    · exact absurd h (ne_of_lt h1)
    · exact absurd h (ne_of_gt h2)
    · exact absurd h (ne_of_lt h3)
    · exact absurd h (ne_of_gt h4)

/-- Witness of C2: loader 6 lies in the window and is in view; loader 5 touches the
lower edge of the window and is not. -/
theorem inView_window_parent_iff_strict_overlap_witness :
    (inView samplePage 6).1 = true ∧ (inView samplePage 5).1 = false :=
  ⟨(inView_window_parent_iff_strict_overlap samplePage 6 1 (by decide!) (by decide!)
      (by decide!)).1.2 (by decide!),
    (inView_window_parent_iff_strict_overlap samplePage 5 1 (by decide!) (by decide!)
      (by decide!)).2 (Or.inr (Or.inr (Or.inl (by decide!))))⟩

/-- C10: for a loader whose parent element is not the window, whose parent is cached
visible and whose `preloadRatio` is 1, `inView()` is the collision test of the rectangle
of the loader against the rectangle of the parent clipped to the window: left edge
`max(parentLeft, pageXOffset)`, right edge
`min(parentLeft + parentWidth, pageXOffset + innerWidth)`, top edge
`max(parentTop, pageYOffset)`, bottom edge
`min(parentTop + parentHeight, pageYOffset + innerHeight)`. -/
theorem comparedRect_is_parent_clipped_to_window (w : World) (me parent : Nat)
    (hp : (w.loaders me).parent = some parent)
    (hwin : (w.loaders parent).el ≠ El.win)
    (hlast : (w.loaders parent).lastInView = true)
    (hr : (w.loaders me).opts.preloadRatio = 1) :
    (inView w me).1 = collide (w.offset (w.loaders me).el) (comparedRect w me parent) ∧
    (comparedRect w me parent).left =
      max (w.offset (w.loaders parent).el).left w.win.pageXOffset ∧
    (comparedRect w me parent).left + (comparedRect w me parent).width =
      min ((w.offset (w.loaders parent).el).left + (w.offset (w.loaders parent).el).width)
        (w.win.pageXOffset + w.win.innerWidth) ∧
    (comparedRect w me parent).top =
      max (w.offset (w.loaders parent).el).top w.win.pageYOffset ∧
    (comparedRect w me parent).top + (comparedRect w me parent).height =
      min ((w.offset (w.loaders parent).el).top + (w.offset (w.loaders parent).el).height)
        (w.win.pageYOffset + w.win.innerHeight) := by
  have hb : ((w.loaders parent).el == El.win) = false := by simpa using hwin
  refine ⟨?_, ?_, ?_, ?_, ?_⟩
  · rw [inView_fst]
    unfold inViewResult
    simp [hp, hlast]
  all_goals
    simp only [comparedRect, parentElOffset, supplement, fixedRect, hr, hwin, hb, if_false,
      Bool.not_false, if_true, sub_self, mul_zero, zero_div, sub_zero, add_zero]
    simp only [max_def, min_def]
    split_ifs <;> linarith

/-- Witness of C10: on the checked sample page the container begins above the window;
loader 3 is compared against the rectangle from 10 to 90 across and from 50 to 80 down. -/
theorem comparedRect_is_parent_clipped_to_window_witness :
    (inView samplePageChecked 3).1 =
      collide (samplePageChecked.offset (samplePageChecked.loaders 3).el)
        (comparedRect samplePageChecked 3 2) ∧
    (comparedRect samplePageChecked 3 2).left = 10 ∧
    (comparedRect samplePageChecked 3 2).left + (comparedRect samplePageChecked 3 2).width = 90 ∧
    (comparedRect samplePageChecked 3 2).top = 50 ∧
    (comparedRect samplePageChecked 3 2).top + (comparedRect samplePageChecked 3 2).height = 80 :=
  ⟨(comparedRect_is_parent_clipped_to_window samplePageChecked 3 2 (by decide!) (by decide!)
      (by decide!) (by decide!)).1, by decide!, by decide!, by decide!, by decide!⟩

/-! ## The tree of loaders -/

/-- C5 (the code fails it): on the sample page the container, loader 2 on element 1,
has a `resize` listener for its only `resize` subscriber, loader 3. `rmChild` of loader 3
unbinds that listener, as the claim says. But when loader 8, subscribing to `resize`, is
then constructed under the container (which calls `addChild`), it enters the queue of
`resize` and no listener is bound again: element 1 has no `resize` listener, `_cbs` holds
`null` for `resize`, and a `resize` event on element 1 checks nobody. -/
theorem addChild_after_last_rmChild_binds_no_listener :
    (samplePage.listeners.filter (fun l => l.1 == El.dom 1 && l.2.1 == "resize")).length = 1 ∧
    (objGet (samplePage.loaders 2).queues "resize").map FMap.keys = some [3] ∧
    sampleRemoved.listeners.filter (fun l => l.1 == El.dom 1 && l.2.1 == "resize") = [] ∧
    (objGet (sampleReadded.loaders 2).queues "resize").map FMap.keys = some [8] ∧
    (sampleReadded.loaders 8).events = ["resize"] ∧
    sampleReadded.listeners.filter (fun l => l.1 == El.dom 1 && l.2.1 == "resize") = [] ∧
    (objGet (sampleReadded.loaders 2).cbs "resize").join = none ∧
    (leftBy (fire 3 sampleReadded (El.dom 1) "resize")).map World.trace =
      some sampleReadded.trace := by
  decide!

/-- C6 (the code fails it): on the sample page the container, loader 2, is eligible
(state below `STAT_LOADING`, in view); its queue for `scroll` holds loader 4 only, and
loader 3 subscribes to `resize` only. Yet `check('scroll')` on loader 2 checks loader 3
too, with `'scroll'`, and starts its load: state `STAT_LOADING`, `src` attribute set. -/
theorem check_with_event_visits_unsubscribed_child :
    (objGet (samplePage.loaders 2).queues "scroll").map FMap.keys = some [4] ∧
    (samplePage.loaders 3).events = ["resize"] ∧
    (samplePage.loaders 2).stat < STAT_LOADING ∧ (inView samplePage 2).1 = true ∧
    (leftBy (check 2 samplePage 2 (some "scroll"))).map
        (fun w => (w.trace, (w.loaders 3).stat, w.srcAttr (LoadEl.el (El.dom 2)))) =
      some ([Call.check 2 (some "scroll"), Call.check 3 (some "scroll"),
        Call.check 4 (some "scroll")], STAT_LOADING, some "a.png") := by
  decide!

/-! ## `update` -/

/-- C7: for a loader not configured `once`, `update` with the `src` already configured
returns the world unchanged (no check runs), and `update` with another `src` is exactly
one run of `check()` on the world in which that `src` is stored as the configured one
and the state is `STAT_NOT_LOAD`; for a loader configured `once`, `update` returns the
world unchanged whatever the argument. -/
theorem update_resets_only_on_new_src_unless_once (fuel : Nat) (w : World) (me : Nat)
    (s : Option String) :
    ((w.loaders me).opts.once = false → s = (w.loaders me).opts.src →
      update fuel w me s = Except.ok w) ∧
    ((w.loaders me).opts.once = false → s ≠ (w.loaders me).opts.src →
      update fuel w me s =
        check fuel
          (w.setLoader me
            { (w.loaders me) with
              opts := { (w.loaders me).opts with src := s }, stat := STAT_NOT_LOAD })
          me none) ∧
    ((w.loaders me).opts.once = true → update fuel w me s = Except.ok w) := by
  refine ⟨?_, ?_, ?_⟩
  · intro ho hs
    simp [update, ho, hs]
  · intro ho hs
    simp [update, ho, hs]
  · intro ho
    simp [update, ho]

/-- Witness of C7: loader 7 of the sample page is not `once` and has `src` `e.png`;
loader 6 is `once`. -/
theorem update_resets_only_on_new_src_unless_once_witness :
    update 2 samplePage 7 (some "e.png") = Except.ok samplePage ∧
    update 2 samplePage 7 (some "f.png") =
      check 2
        (samplePage.setLoader 7
          { (samplePage.loaders 7) with
            opts := { (samplePage.loaders 7).opts with src := some "f.png" },
            stat := STAT_NOT_LOAD })
        7 none ∧
    update 2 samplePage 6 (some "f.png") = Except.ok samplePage :=
  ⟨(update_resets_only_on_new_src_unless_once 2 samplePage 7 (some "e.png")).1
      (by decide!) (by decide!),
    (update_resets_only_on_new_src_unless_once 2 samplePage 7 (some "f.png")).2.1
      (by decide!) (by decide!),
    (update_resets_only_on_new_src_unless_once 2 samplePage 6 (some "f.png")).2.2
      (by decide!)⟩

/-! ## Loaders configured `once` -/

/-- C8: take a loader `n` configured `once` with the default load handler, for which at
most one request has been constructed so far and none while it is still in
`STAT_NOT_LOAD` (as for every new loader). After every sequence of steps (checks,
updates, transport signals on any load element, events, calls of `next`, destroys,
`addChild` and `rmChild`, on any loaders) that leaves a world behind, at most one request
has been constructed for `n`, and if `n` had left `STAT_NOT_LOAD` it has not returned
to it. -/
theorem once_loader_builds_at_most_one_request (fuel : Nat) (n : Nat) (w w' : World)
    (steps : List Step)
    (honce : (w.loaders n).opts.once = true)
    (hdef : (w.loaders n).loadHandler = Handler.default)
    (hmade : made w n ≤ 1)
    (hnot : (w.loaders n).stat = STAT_NOT_LOAD → made w n = 0)
    (hrun : runSteps fuel w steps = some w') :
    made w' n ≤ 1 ∧
    ((w.loaders n).stat ≠ STAT_NOT_LOAD → (w'.loaders n).stat ≠ STAT_NOT_LOAD) ∧
    ((w'.loaders n).stat = STAT_NOT_LOAD → made w' n = 0) := by
  have h := oneShot_runSteps n w fuel steps w w' ⟨honce, hdef, hmade, hnot, id⟩ hrun
  exact ⟨h.2.2.1, h.2.2.2.2, h.2.2.2.1⟩

/-- Witness of C8: in the sample run loader 6 starts with no request, gets one, fails for
good, is updated, checked and signalled again, and ends with exactly one request. -/
theorem once_loader_builds_at_most_one_request_witness :
    made samplePage 6 = 0 ∧ made sampleRunEnd 6 = 1 ∧
    (sampleRunEnd.loaders 6).stat = STAT_LOADED ∧
    (made sampleRunEnd 6 ≤ 1 ∧
      ((samplePage.loaders 6).stat ≠ STAT_NOT_LOAD →
        (sampleRunEnd.loaders 6).stat ≠ STAT_NOT_LOAD) ∧
      ((sampleRunEnd.loaders 6).stat = STAT_NOT_LOAD → made sampleRunEnd 6 = 0)) :=
  ⟨by decide!, by decide!, by decide!,
    once_loader_builds_at_most_one_request 3 6 samplePage sampleRunEnd sampleRun
      (by decide!) (by decide!) (by decide!) (by decide!)
      (getD_some _ _ (by decide!))⟩

/-! ## `destroy` and a request in flight -/

/-- C9 (as stated, refuted): on the sample page loader 6 is checked, so that its request
0 is in flight on element 5, and then destroyed. The request is still not canceled, and
a late success on element 5 calls `onLoad`, moves loader 6 from `STAT_LOADING` to
`STAT_LOADED` and replaces the class `lazy-loading` of element 5 by `lazy-loaded`; a late
failure calls `onErr`. -/
theorem destroy_then_late_success_still_completes :
    (sampleLoading.loaders 6).req = some 0 ∧ (sampleLoading.reqs 0).canceled = false ∧
    sampleLoading.handlerOf (LoadEl.el (El.dom 5)) = some 0 ∧
    (sampleDestroyed.loaders 6).destroyed = true ∧
    (sampleDestroyed.reqs 0).canceled = false ∧
    (sampleDestroyed.loaders 6).stat = STAT_LOADING ∧
    sampleDestroyed.classes (El.dom 5) = ["lazy-loading"] ∧
    ((transport sampleDestroyed (LoadEl.el (El.dom 5)) Signal.load).loaders 6).stat
      = STAT_LOADED ∧
    (transport sampleDestroyed (LoadEl.el (El.dom 5)) Signal.load).classes (El.dom 5)
      = ["lazy-loaded"] ∧
    (transport sampleDestroyed (LoadEl.el (El.dom 5)) Signal.load).trace
      = sampleDestroyed.trace ++ [Call.onLoad ⟨El.dom 5, "d.png", "d.png", false⟩] ∧
    (transport sampleDestroyed (LoadEl.el (El.dom 5)) Signal.error).trace
      = sampleDestroyed.trace ++ [Call.onErr ⟨El.dom 5, "d.png", "d.png", true⟩] := by
  decide!

/-- C9 (amended): `destroy()`, deep or not, does not cancel the request in flight of a
loader. It leaves every request, the closures installed on the load elements, the state
of the loader, the classes and the trace as they were; so a late success on the load
element of the request still runs the success closure of `defaultLoadHandler`: the
loader ends in `STAT_LOADED`, its class target carries the loaded class, and `onLoad`
of the user, when set, is called. -/
theorem destroy_leaves_request_in_flight (fuel : Nat) (w w' : World) (me : Nat) (deep : Bool)
    (loadEl : LoadEl) (req : Nat)
    (hreq : w.handlerOf loadEl = some req) (hown : (w.envs req).loader = me)
    (hlive : (w.reqs req).canceled = false) (hcb : (w.reqs req).hasOnLoad = true)
    (hd : destroy fuel w me deep = Except.ok w') :
    w'.reqs = w.reqs ∧ w'.handlerOf = w.handlerOf ∧ (w'.reqs req).canceled = false ∧
    (w'.loaders me).stat = (w.loaders me).stat ∧ w'.classes = w.classes ∧
    w'.trace = w.trace ∧
    ((transport w' loadEl Signal.load).loaders me).stat = STAT_LOADED ∧
    (w.envs req).classLoaded ∈
      (transport w' loadEl Signal.load).classes (w.envs req).elClassTarget ∧
    ((w.envs req).onLoad = true →
      (transport w' loadEl Signal.load).trace =
        w.trace ++ [Call.onLoad (w.reqs req).baseInfo]) := by
  have hc := core_destroy fuel w w' me deep hd
  have hreqs : w'.reqs = w.reqs := (congrArg World.reqs hc : w'.core.reqs = w.core.reqs)
  have hhand : w'.handlerOf = w.handlerOf :=
    (congrArg World.handlerOf hc : w'.core.handlerOf = w.core.handlerOf)
  have henvs : w'.envs = w.envs := (congrArg World.envs hc : w'.core.envs = w.core.envs)
  have hcls : w'.classes = w.classes :=
    (congrArg World.classes hc : w'.core.classes = w.core.classes)
  have htr : w'.trace = w.trace := (congrArg World.trace hc : w'.core.trace = w.core.trace)
  have hst : (w'.loaders me).stat = (w.loaders me).stat :=
    (congrArg Node.stat (congrFun (congrArg World.loaders hc) me) :
      (w'.loaders me).core.stat = (w.loaders me).core.stat)
  have ht := transport_load_live w' loadEl req (by rw [hhand]; exact hreq)
    (by rw [hreqs]; exact hlive) (by rw [hreqs]; exact hcb)
  rw [henvs, hreqs] at ht
  refine ⟨hreqs, hhand, by rw [hreqs]; exact hlive, hst, hcls, htr, ?_, ?_, ?_⟩
  · rw [ht, ← hown]; exact handlerOnLoad_stat _ _ _
  · rw [ht]; exact handlerOnLoad_class _ _ _
  · intro ho
    rw [ht, handlerOnLoad_trace _ _ _ ho]
    show w'.trace ++ _ = _
    rw [htr]

/-- Witness of C9 (amended): loader 6 of the sample page, destroyed while loading. -/
theorem destroy_leaves_request_in_flight_witness :
    (sampleDestroyed.loaders 6).destroyed = true ∧
    sampleDestroyed.reqs = sampleLoading.reqs ∧
    sampleDestroyed.handlerOf = sampleLoading.handlerOf ∧
    (sampleDestroyed.reqs 0).canceled = false ∧
    (sampleDestroyed.loaders 6).stat = (sampleLoading.loaders 6).stat ∧
    sampleDestroyed.classes = sampleLoading.classes ∧
    sampleDestroyed.trace = sampleLoading.trace ∧
    ((transport sampleDestroyed (LoadEl.el (El.dom 5)) Signal.load).loaders 6).stat
      = STAT_LOADED ∧
    (sampleLoading.envs 0).classLoaded ∈
      (transport sampleDestroyed (LoadEl.el (El.dom 5)) Signal.load).classes
        (sampleLoading.envs 0).elClassTarget ∧
    ((sampleLoading.envs 0).onLoad = true →
      (transport sampleDestroyed (LoadEl.el (El.dom 5)) Signal.load).trace =
        sampleLoading.trace ++ [Call.onLoad (sampleLoading.reqs 0).baseInfo]) :=
  ⟨by decide!,
    destroy_leaves_request_in_flight 1 sampleLoading sampleDestroyed 6 false
      (LoadEl.el (El.dom 5)) 0 (by decide!) (by decide!) (by decide!) (by decide!)
      (orElse_ok _ _ (by decide!))⟩

/-! ## `check` on a loader that is loading or loaded -/

/-- C11: for a loader in state `STAT_LOADING` or `STAT_LOADED` and every event name,
given or omitted, `check` returns at once and leaves the world as it was (the only
difference is the entry that records the call): no load handler runs, no request is
constructed or canceled, state and `_lastInView` stay, no `onEnter` or `onLeave` fires,
no child is checked; a further `check` is again without effect. -/
theorem check_is_noop_once_loading (fuel : Nat) (w : World) (me : Nat) (evName : Option String)
    (hs : (w.loaders me).stat = STAT_LOADING ∨ (w.loaders me).stat = STAT_LOADED) :
    check (fuel + 1) w me evName = Except.ok (w.log (Call.check me evName)) ∧
    (∀ (fuel2 : Nat) (evName2 : Option String),
      check (fuel2 + 1) (w.log (Call.check me evName)) me evName2 =
        Except.ok ((w.log (Call.check me evName)).log (Call.check me evName2))) := by
  have key : ∀ (f : Nat) (v : World) (e : Option String),
      ((v.loaders me).stat = STAT_LOADING ∨ (v.loaders me).stat = STAT_LOADED) →
      check (f + 1) v me e = Except.ok (v.log (Call.check me e)) := by
    intro f v e hv
    have h : ¬ ((v.log (Call.check me e)).loaders me).stat < STAT_LOADING := by
      show ¬ (v.loaders me).stat < STAT_LOADING
      rcases hv with h | h <;> rw [h] <;> decide
    unfold check
    simp [h]
  exact ⟨key fuel w evName hs, fun f2 e2 => key f2 _ e2 hs⟩

/-- Witness of C11: on the checked sample page loader 6 is loading; a scroll check
changes nothing. -/
theorem check_is_noop_once_loading_witness :
    (samplePageChecked.loaders 6).stat = STAT_LOADING ∧
    check 1 samplePageChecked 6 (some "scroll") =
      Except.ok (samplePageChecked.log (Call.check 6 (some "scroll"))) :=
  ⟨by decide!, (check_is_noop_once_loading 0 samplePageChecked 6 (some "scroll")
    (Or.inl (by decide!))).1⟩

/-! ## The compared rectangle for any `preloadRatio` -/

/-- C17: for every loader, parent and `preloadRatio` `r`, the rectangle `f` the loader
is compared against has `r` times the width and height of the rectangle `c` obtained
with ratio 1 and the same centre (so `r = 1` gives `c` itself); `c` is the window
rectangle for a window parent and the parent rectangle clipped to the window
otherwise. -/
theorem comparedRect_is_clipped_resized_about_centre (w : World) (me parent : Nat) :
    let p := parentElOffset w (w.loaders parent).el
    let s := supplement ((w.loaders parent).el == El.win) p w.win
    let r := (w.loaders me).opts.preloadRatio
    let c := fixedRect p s 1
    let f := comparedRect w me parent
    (f.width = r * c.width ∧ f.height = r * c.height ∧
      f.left + f.width / 2 = c.left + c.width / 2 ∧
      f.top + f.height / 2 = c.top + c.height / 2) ∧
    (r = 1 → f.left = c.left ∧ f.top = c.top ∧ f.width = c.width ∧ f.height = c.height) ∧
    ((w.loaders parent).el = El.win →
      c.left = w.win.pageXOffset ∧ c.top = w.win.pageYOffset ∧
      c.width = w.win.innerWidth ∧ c.height = w.win.innerHeight) ∧
    ((w.loaders parent).el ≠ El.win →
      c.left = max p.left w.win.pageXOffset ∧
      c.left + c.width = min (p.left + p.width) (w.win.pageXOffset + w.win.innerWidth) ∧
      c.top = max p.top w.win.pageYOffset ∧
      c.top + c.height = min (p.top + p.height) (w.win.pageYOffset + w.win.innerHeight)) := by
  intro p s r c f
  refine ⟨?_, ?_, ?_, ?_⟩
  · simp only [f, c, r, comparedRect, fixedRect, p, s]
    exact ⟨by ring, by ring, by ring, by ring⟩
  · intro h
    simp only [f, c, r, comparedRect, fixedRect, p, s] at h ⊢
    rw [h]
    exact ⟨by ring, by ring, by ring, by ring⟩
  · intro hw
    simp [c, s, p, fixedRect, supplement, parentElOffset, hw]
  · intro hw
    have hb : ((w.loaders parent).el == El.win) = false := by simpa using hw
    simp only [c, s, p, fixedRect, supplement, parentElOffset, hw, hb, if_false,
      Bool.not_false, if_true, sub_self, mul_zero, zero_div, sub_zero, add_zero]
    refine ⟨?_, ?_, ?_, ?_⟩
    all_goals
      simp only [max_def, min_def]
      split_ifs <;> linarith

/-! ## `onEnter`, `onLeave` and the cached flag -/

/-- C18: a call of `inView()` with result `r` on a loader whose cached flag is `p`
calls `onEnter` (if set; once, with the loader) exactly when `p` is false and `r` is
true, calls `onLeave` (if set) exactly when `p` is true and `r` is false, calls
neither when `p` equals `r`, and leaves the cached `_lastInView` equal to `r`. -/
theorem inView_enter_leave_and_cache (w : World) (me : Nat) :
    (inView w me).2.trace =
      w.trace ++
        (if (w.loaders me).opts.onEnter = true ∧ (w.loaders me).lastInView = false ∧
            (inView w me).1 = true then [Call.onEnter me] else []) ++
        (if (w.loaders me).opts.onLeave = true ∧ (w.loaders me).lastInView = true ∧
            (inView w me).1 = false then [Call.onLeave me] else []) ∧
    ((inView w me).2.loaders me).lastInView = (inView w me).1 := by
  constructor
  · rw [inView_fst]
    unfold inView
    dsimp only
    cases h1 : (w.loaders me).opts.onEnter <;> cases h2 : (w.loaders me).opts.onLeave <;>
      cases h3 : (w.loaders me).lastInView <;> cases h4 : inViewResult w me <;>
      simp [World.log, World.setLoader]
  · unfold inView World.setLoader
    simp

/-! ## `next` on a canceled request -/

/-- C19 (the code fails it): a request with a retry function fails, so the function is
handed `next`; the request is then canceled. Calling `next()` still issues a load and
calls `onReq` and counts an attempt; `next` with a replacement `src` still changes the
source; `next` with `failed` still calls the error callback with `isEnd`. On the page
where request 0 of loader 2 has been superseded by request 1, `next` with `failed` on
request 0 puts loader 2 into `STAT_LOADED` with the error class while request 1 is in
flight, and `next()` puts the old source back on the element. -/
theorem next_after_cancel_still_loads_and_reports :
    ((sampleReq Retry.fn).onerror.2 =
      [Out.onErr ⟨El.dom 1, "a.png", "a.png", false⟩,
        Out.retry ⟨El.dom 1, "a.png", "a.png", false⟩ 0] ∧
    sampleRetryReq.cancel.canceled = true ∧
    (sampleRetryReq.cancel.next false none).2 =
      [Out.issue (LoadEl.el (El.dom 1)) "a.png",
        Out.onReq ⟨El.dom 1, "a.png", "a.png", false⟩] ∧
    (sampleRetryReq.cancel.next false none).1.c = sampleRetryReq.cancel.c + 1 ∧
    (sampleRetryReq.cancel.next false (some "b.png")).2 =
      [Out.issue (LoadEl.el (El.dom 1)) "b.png",
        Out.onReq ⟨El.dom 1, "b.png", "a.png", false⟩] ∧
    (sampleRetryReq.cancel.next false (some "b.png")).1.src = "b.png" ∧
    (sampleRetryReq.cancel.next true none).2 =
      [Out.onErr ⟨El.dom 1, "a.png", "a.png", true⟩]) ∧
    ((sampleSuperseded.reqs 0).canceled = true ∧
    (sampleSuperseded.loaders 2).req = some 1 ∧
    (sampleSuperseded.loaders 2).stat = STAT_LOADING ∧
    sampleSuperseded.srcAttr (LoadEl.el (El.dom 5)) = some "x.png" ∧
    ((callNext sampleSuperseded 0 true none).loaders 2).stat = STAT_LOADED ∧
    (callNext sampleSuperseded 0 true none).classes (El.dom 5) = ["lazy-err"] ∧
    (callNext sampleSuperseded 0 true none).trace =
      sampleSuperseded.trace ++ [Call.onErr ⟨El.dom 5, "d.png", "d.png", true⟩] ∧
    (callNext sampleSuperseded 0 false none).srcAttr (LoadEl.el (El.dom 5)) = some "d.png" ∧
    (callNext sampleSuperseded 0 false none).trace =
      sampleSuperseded.trace ++ [Call.onReq ⟨El.dom 5, "d.png", "d.png", false⟩] ∧
    ((callNext sampleSuperseded 0 false none).reqs 0).c = 1) := by
  constructor
  · decide
  · decide!

/-! ## What `defaultLoadHandler` writes -/

theorem foldl_applyOut_load (rid : Nat) (w : World) (r : Req) :
    r.load.foldl (applyOut rid) w =
      { w with
        srcAttr := Function.update w.srcAttr r.loadEl (some r.src)
        trace := w.trace ++ (if r.hasOnReq then [Call.onReq r.baseInfo] else []) } := by
  unfold Req.load
  cases h : r.hasOnReq <;> simp [applyOut, World.log]

theorem create_snd (el : El) (loadEl : LoadEl) (src : String) (retry : Retry)
    (a b c : Bool) (filters : Option (List Filter)) :
    (Req.create el loadEl src retry a b c filters).2 =
      (Req.create el loadEl src retry a b c filters).1.load := rfl

/-- The world `startLoad` builds, field by field. -/
theorem startLoad_eq (w : World) (m : Nat) (opts : Opts) (tgt : El) (loadEl : LoadEl)
    (src : String) :
    startLoad w m opts tgt loadEl src =
      switchClass
        { w with
          loaders := Function.update w.loaders m
            { (w.loaders m) with stat := STAT_LOADING, req := some w.reqCount }
          reqs := Function.update w.reqs w.reqCount
            (Req.create opts.el loadEl src opts.retry true true opts.onReq opts.filters).1
          envs := Function.update w.envs w.reqCount
            { loader := m, el := opts.el, elClassTarget := tgt,
              classes := [opts.classLoading, opts.classErr, opts.classLoaded],
              classLoaded := opts.classLoaded, classErr := opts.classErr, once := opts.once,
              bg := opts.mode = some MODE_BG, onLoad := opts.onLoad, onErr := opts.onErr }
          reqCount := w.reqCount + 1
          handlerOf := Function.update w.handlerOf loadEl (some w.reqCount)
          srcAttr := Function.update w.srcAttr loadEl
            (some (Req.applyFilters opts.el opts.filters src))
          trace := w.trace ++
            (if opts.onReq then
              [Call.onReq ⟨opts.el, Req.applyFilters opts.el opts.filters src, src, false⟩]
             else []) }
        tgt [opts.classLoading, opts.classErr, opts.classLoaded] opts.classLoading := by
  unfold startLoad
  dsimp only
  rw [create_snd, foldl_applyOut_load]
  simp [World.setLoader, Req.create, Req.baseInfo]

theorem mem_switchClass_iff (w : World) (el : El) (classes : List String) (name c : String) :
    c ∈ (switchClass w el classes name).classes el ↔
      (c = name ∨ (c ∈ w.classes el ∧ c ∉ classes)) := by
  unfold switchClass addClass removeClass
  simp only [Function.update_same]
  split
  · rename_i h
    have hn : name ∈ List.filter (fun c => !classes.contains c) (w.classes el) := by
      simpa using h
    constructor
    · intro hc
      by_cases hcn : c = name
      · exact Or.inl hcn
      · right
        simpa using hc
    · rintro (hc | hc)
      · rw [hc]; exact hn
      · simpa using hc
  · simp only [List.mem_append, List.mem_singleton, List.mem_filter]
    constructor
    · rintro (hc | hc)
      · right; simpa using hc
      · exact Or.inl hc
    · rintro (hc | hc)
      · exact Or.inr hc
      · left; simpa using hc

theorem switchClass_only (w : World) (el : El) (classes : List String) (name c : String)
    (hc : c ∈ classes) :
    c ∈ (switchClass w el classes name).classes el ↔ c = name := by
  rw [mem_switchClass_iff]
  constructor
  · rintro (h | h)
    · exact h
    · exact absurd hc h.2
  · exact Or.inl

theorem onComplete_classes (w : World) (m : Nat) (once : Bool) :
    (onComplete w m once).classes = w.classes := by
  unfold onComplete
  dsimp only
  split
  · exact (congrArg World.classes
      (core_destroyShallow (w.setLoader m { (w.loaders m) with stat := STAT_LOADED }) m) : _)
  · rfl

theorem modeSwitch_reqCount (w : World) (opts : Opts) :
    (modeSwitch w opts).1.reqCount = w.reqCount := by
  unfold modeSwitch; split <;> rfl

theorem cancelOld_reqCount (w : World) (o : Option Nat) :
    (cancelOld w o).reqCount = w.reqCount := by
  cases o <;> rfl

/-- `defaultLoadHandler` on a loader with a source. -/
theorem defaultLoadHandler_of_src (w : World) (m : Nat)
    (hsrc : truthyStr (trim (w.loaders m).opts.src) = true) :
    defaultLoadHandler w m =
      startLoad (modeSwitch (cancelOld w (w.loaders m).req) (w.loaders m).opts).1 m
        (w.loaders m).opts
        (if (w.loaders m).opts.classTarget = CLASS_TARGET_PARENT then
          (w.parentNode (w.loaders m).opts.el).getD (w.loaders m).opts.el
         else (w.loaders m).opts.el)
        (modeSwitch (cancelOld w (w.loaders m).req) (w.loaders m).opts).2
        (trim (w.loaders m).opts.src) := by
  unfold defaultLoadHandler
  simp only [hsrc, if_true]

/-- `defaultLoadHandler` on a loader without a source. -/
theorem defaultLoadHandler_of_no_src (w : World) (m : Nat)
    (hsrc : truthyStr (trim (w.loaders m).opts.src) = false) :
    defaultLoadHandler w m =
      onComplete (modeSwitch (cancelOld w (w.loaders m).req) (w.loaders m).opts).1 m
        (w.loaders m).opts.once := by
  unfold defaultLoadHandler
  simp only [hsrc, Bool.false_eq_true, if_false]

theorem startLoad_loader (w : World) (m : Nat) (opts : Opts) (tgt : El) (loadEl : LoadEl)
    (src : String) :
    (startLoad w m opts tgt loadEl src).loaders =
      Function.update w.loaders m
        { (w.loaders m) with stat := STAT_LOADING, req := some w.reqCount } := by
  rw [startLoad_eq]; rfl

theorem startLoad_envs (w : World) (m : Nat) (opts : Opts) (tgt : El) (loadEl : LoadEl)
    (src : String) :
    (startLoad w m opts tgt loadEl src).envs =
      Function.update w.envs w.reqCount
        { loader := m, el := opts.el, elClassTarget := tgt,
          classes := [opts.classLoading, opts.classErr, opts.classLoaded],
          classLoaded := opts.classLoaded, classErr := opts.classErr, once := opts.once,
          bg := opts.mode = some MODE_BG, onLoad := opts.onLoad, onErr := opts.onErr } := by
  rw [startLoad_eq]; rfl

theorem startLoad_reqs (w : World) (m : Nat) (opts : Opts) (tgt : El) (loadEl : LoadEl)
    (src : String) :
    (startLoad w m opts tgt loadEl src).reqs =
      Function.update w.reqs w.reqCount
        (Req.create opts.el loadEl src opts.retry true true opts.onReq opts.filters).1 := by
  rw [startLoad_eq]; rfl

theorem startLoad_reqCount (w : World) (m : Nat) (opts : Opts) (tgt : El) (loadEl : LoadEl)
    (src : String) : (startLoad w m opts tgt loadEl src).reqCount = w.reqCount + 1 := by
  rw [startLoad_eq]; rfl

theorem startLoad_class (w : World) (m : Nat) (opts : Opts) (tgt : El) (loadEl : LoadEl)
    (src : String) (c : String)
    (hc : c ∈ [opts.classLoading, opts.classErr, opts.classLoaded]) :
    c ∈ (startLoad w m opts tgt loadEl src).classes tgt ↔ c = opts.classLoading := by
  rw [startLoad_eq]
  exact switchClass_only _ _ _ _ _ hc

theorem handlerOnErr_soft (v : World) (env : ReqEnv) (info : Info) (h : info.isEnd = false) :
    (handlerOnErr v env info).loaders = v.loaders ∧
    (handlerOnErr v env info).classes = v.classes := by
  cases hb : env.bg <;> cases ho : env.onErr <;>
    simp [handlerOnErr, h, hb, ho, cssBg, World.log]

theorem handlerOnErr_final_stat (v : World) (env : ReqEnv) (info : Info)
    (h : info.isEnd = true) :
    ((handlerOnErr v env info).loaders env.loader).stat = STAT_LOADED := by
  cases hb : env.bg <;> cases ho : env.onErr <;>
    simp only [handlerOnErr, h, hb, ho, if_true, if_false, Bool.false_eq_true] <;>
    exact onComplete_stat _ _ _

theorem handlerOnErr_final_class (v : World) (env : ReqEnv) (info : Info)
    (h : info.isEnd = true) (c : String) (hc : c ∈ env.classes) :
    c ∈ (handlerOnErr v env info).classes env.elClassTarget ↔ c = env.classErr := by
  cases hb : env.bg <;> cases ho : env.onErr <;>
    simp only [handlerOnErr, h, hb, ho, if_true, if_false, Bool.false_eq_true] <;>
    exact switchClass_only _ _ _ _ _ hc

theorem handlerOnLoad_class_only (v : World) (env : ReqEnv) (info : Info)
    (c : String) (hc : c ∈ env.classes) :
    c ∈ (handlerOnLoad v env info).classes env.elClassTarget ↔ c = env.classLoaded := by
  cases hb : env.bg <;> cases ho : env.onLoad <;>
    simp only [handlerOnLoad, hb, ho, if_true, if_false, Bool.false_eq_true] <;>
    exact switchClass_only _ _ _ _ _ hc


/-! ## What `check` keeps -/

theorem leaves_check (P : World → Prop)
    (hlog : ∀ w c, P w → P (w.log c))
    (hview : ∀ w m, P w → P (inView w m).2)
    (hrun : ∀ w m, P w → (w.loaders m).stat < STAT_LOADING → P (runLoadHandler w m)) :
    ∀ (fuel : Nat) (w : World) (m : Nat) (ev : Option String),
      P w → Leaves P (check fuel w m ev) := by
  intro fuel
  induction fuel with
  | zero => intro w m ev _; exact leaves_fuel _
  | succ fuel ih =>
    intro w m ev hw
    unfold check
    dsimp only
    have h0 : P (w.log (Call.check m ev)) := hlog w _ hw
    by_cases hs : ((w.log (Call.check m ev)).loaders m).stat < STAT_LOADING
    · simp only [hs, if_true]
      have h1 : P (inView (w.log (Call.check m ev)) m).2 := hview _ m h0
      split
      · have hs' : ((inView (w.log (Call.check m ev)) m).2.loaders m).stat < STAT_LOADING := by
          rw [inView_stat]; exact hs
        have h2 := hrun _ m h1 hs'
        have hfold : Leaves P
            (List.foldlM
              (fun w2 k =>
                match (w2.loaders m).children.get k with
                | some child => check fuel w2 child ev
                | none => Except.error (Err.typeError w2))
              (runLoadHandler (inView (w.log (Call.check m ev)) m).2 m)
              ((runLoadHandler (inView (w.log (Call.check m ev)) m).2 m).loaders
                m).children.keys) := by
          apply leaves_foldlM P _ _ _ _ h2
          intro w2 k hw2
          split
          · exact ih _ _ _ hw2
          · exact hw2
        split_ifs <;> first | exact hfold | exact h2
      · exact h1
    · simp only [hs, if_false]
      exact h0

/-! ### Fields that `inView` leaves alone -/

theorem inView_reqs (w : World) (m : Nat) : (inView w m).2.reqs = w.reqs := by
  unfold inView; dsimp only; split <;> split <;> rfl

theorem inView_envs (w : World) (m : Nat) : (inView w m).2.envs = w.envs := by
  unfold inView; dsimp only; split <;> split <;> rfl

theorem inView_reqCount (w : World) (m : Nat) : (inView w m).2.reqCount = w.reqCount := by
  unfold inView; dsimp only; split <;> split <;> rfl

theorem inView_rootLazy (w : World) (m : Nat) : (inView w m).2.rootLazy = w.rootLazy := by
  unfold inView; dsimp only; split <;> split <;> rfl

theorem inView_made (w : World) (m k : Nat) : made (inView w m).2 k = made w k := by
  unfold made; rw [inView_reqCount, inView_envs]

theorem inView_opts (w : World) (m k : Nat) :
    ((inView w m).2.loaders k).opts = (w.loaders k).opts :=
  (quiet_inView k w m).1

theorem inView_handler (w : World) (m k : Nat) :
    ((inView w m).2.loaders k).loadHandler = (w.loaders k).loadHandler :=
  (quiet_inView k w m).2.1

theorem inView_req (w : World) (m k : Nat) :
    ((inView w m).2.loaders k).req = (w.loaders k).req := by
  unfold inView World.setLoader
  dsimp only
  by_cases hk : k = m
  · subst hk
    simp only [Function.update_same]
    split <;> split <;> rfl
  · simp only [Function.update_noteq hk]
    split <;> split <;> rfl

/-! ### The tree operations and `scope.$lazy` -/

theorem rmChildStep_rootLazy (me id : Nat) (w : World) (event : String) :
    (rmChildStep me id w event).rootLazy = w.rootLazy := by
  unfold rmChildStep
  dsimp only
  split
  · cases (objGet ((w.setLoader me _).loaders me).cbs event).join <;> rfl
  · rfl

theorem rmChild_rootLazy (w : World) (me child : Nat) :
    (rmChild w me child).rootLazy = w.rootLazy := by
  unfold rmChild
  dsimp only
  have : ∀ (l : List String) (v : World),
      (l.foldl (rmChildStep me (w.loaders child).id) v).rootLazy = v.rootLazy := by
    intro l
    induction l with
    | nil => intro v; rfl
    | cons a rest ih => intro v; rw [List.foldl_cons, ih, rmChildStep_rootLazy]
  rw [this]
  split <;> rfl

theorem destroyShallow_rootLazy (w : World) (me : Nat) :
    (destroyShallow w me).rootLazy = w.rootLazy ∨ (destroyShallow w me).rootLazy = none := by
  unfold destroyShallow
  dsimp only
  split
  · show (_ : World).rootLazy = _ ∨ (_ : World).rootLazy = none
    simp only [World.setLoader]
    split
    · left; exact rmChild_rootLazy _ _ _
    · split
      · right; rfl
      · left; rfl
  · left; rfl

theorem onComplete_core (w : World) (m : Nat) (once : Bool) :
    (onComplete w m once).core =
      (w.setLoader m { (w.loaders m) with stat := STAT_LOADED }).core := by
  unfold onComplete
  dsimp only
  split
  · exact core_destroyShallow _ _
  · rfl

theorem onComplete_reqs (w : World) (m : Nat) (once : Bool) :
    (onComplete w m once).reqs = w.reqs :=
  (congrArg World.reqs (onComplete_core w m once) : _)

theorem onComplete_envs (w : World) (m : Nat) (once : Bool) :
    (onComplete w m once).envs = w.envs :=
  (congrArg World.envs (onComplete_core w m once) : _)

theorem onComplete_reqCount (w : World) (m : Nat) (once : Bool) :
    (onComplete w m once).reqCount = w.reqCount :=
  (congrArg World.reqCount (onComplete_core w m once) : _)

theorem onComplete_loader_core (w : World) (m k : Nat) (once : Bool) :
    ((onComplete w m once).loaders k).core =
      ((w.setLoader m { (w.loaders m) with stat := STAT_LOADED }).loaders k).core :=
  congrFun (congrArg World.loaders (onComplete_core w m once)) k

theorem onComplete_stat_ne (w : World) (m k : Nat) (once : Bool) (hk : k ≠ m) :
    ((onComplete w m once).loaders k).stat = (w.loaders k).stat := by
  have h := congrArg Node.stat (onComplete_loader_core w m k once)
  have h2 : ((w.setLoader m { (w.loaders m) with stat := STAT_LOADED }).loaders k)
      = w.loaders k := by simp [World.setLoader, Function.update_noteq hk]
  rw [h2] at h
  exact h

theorem onComplete_opts (w : World) (m k : Nat) (once : Bool) :
    ((onComplete w m once).loaders k).opts = (w.loaders k).opts ∧
    ((onComplete w m once).loaders k).loadHandler = (w.loaders k).loadHandler :=
  ⟨(quiet_onComplete k w m once).1, (quiet_onComplete k w m once).2.1⟩

theorem onComplete_rootLazy (w : World) (m : Nat) (once : Bool) :
    (onComplete w m once).rootLazy = w.rootLazy ∨ (onComplete w m once).rootLazy = none := by
  unfold onComplete
  dsimp only
  split
  · exact destroyShallow_rootLazy _ _
  · left; rfl

theorem startLoad_rootLazy (w : World) (m : Nat) (opts : Opts) (tgt : El) (loadEl : LoadEl)
    (src : String) : (startLoad w m opts tgt loadEl src).rootLazy = w.rootLazy := by
  rw [startLoad_eq]; rfl

/-- The world `defaultLoadHandler` prepares before it looks at the source. -/
theorem prepared_fields (v : World) (o : Option Nat) (opts : Opts) :
    (modeSwitch (cancelOld v o) opts).1.loaders = v.loaders ∧
    (modeSwitch (cancelOld v o) opts).1.envs = v.envs ∧
    (modeSwitch (cancelOld v o) opts).1.reqCount = v.reqCount ∧
    (modeSwitch (cancelOld v o) opts).1.rootLazy = v.rootLazy ∧
    (modeSwitch (cancelOld v o) opts).1.classes = v.classes ∧
    (∀ r, (modeSwitch (cancelOld v o) opts).1.reqs r = v.reqs r ∨
      (modeSwitch (cancelOld v o) opts).1.reqs r = (v.reqs r).cancel) ∧
    (∀ r, o = some r → ((modeSwitch (cancelOld v o) opts).1.reqs r).canceled = true) ∧
    (o = none → (modeSwitch (cancelOld v o) opts).1.reqs = v.reqs) := by
  have hm : ∀ x : World, (modeSwitch x opts).1.loaders = x.loaders ∧
      (modeSwitch x opts).1.envs = x.envs ∧ (modeSwitch x opts).1.reqCount = x.reqCount ∧
      (modeSwitch x opts).1.rootLazy = x.rootLazy ∧ (modeSwitch x opts).1.classes = x.classes ∧
      (modeSwitch x opts).1.reqs = x.reqs := by
    intro x; unfold modeSwitch; split <;> exact ⟨rfl, rfl, rfl, rfl, rfl, rfl⟩
  obtain ⟨h1, h2, h3, h4, h5, h6⟩ := hm (cancelOld v o)
  rw [h1, h2, h3, h4, h5, h6]
  cases o with
  | none =>
    refine ⟨rfl, rfl, rfl, rfl, rfl, fun r => Or.inl rfl, ?_, fun _ => rfl⟩
    intro r h; cases h
  | some r0 =>
    refine ⟨rfl, rfl, rfl, rfl, rfl, ?_, ?_, ?_⟩
    · intro r
      by_cases hr : r = r0
      · subst hr; right; simp [cancelOld, World.setReq]
      · left; simp [cancelOld, World.setReq, Function.update_noteq hr]
    · intro r h
      cases h
      simp [cancelOld, World.setReq, Req.cancel]
    · intro h; cases h

theorem runLoadHandler_effect (v : World) (m : Nat) :
    (∀ k, k ≠ m → ((runLoadHandler v m).loaders k).stat = (v.loaders k).stat) ∧
    (∀ k, k ≠ m → made (runLoadHandler v m) k = made v k) ∧
    v.reqCount ≤ (runLoadHandler v m).reqCount ∧
    (∀ r, r < v.reqCount → (runLoadHandler v m).envs r = v.envs r ∧
      ((runLoadHandler v m).reqs r = v.reqs r ∨
        (runLoadHandler v m).reqs r = (v.reqs r).cancel)) ∧
    ((runLoadHandler v m).rootLazy = v.rootLazy ∨ (runLoadHandler v m).rootLazy = none) ∧
    (∀ k, ((runLoadHandler v m).loaders k).opts = (v.loaders k).opts ∧
      ((runLoadHandler v m).loaders k).loadHandler = (v.loaders k).loadHandler) ∧
    (∀ r, (v.loaders m).loadHandler = Handler.default → (v.loaders m).req = some r →
      r < v.reqCount → ((runLoadHandler v m).reqs r).canceled = true) := by
  unfold runLoadHandler
  cases hh : (v.loaders m).loadHandler with
  | custom k =>
    simp only
    refine ⟨fun _ _ => rfl, fun _ _ => rfl, le_refl _, fun r _ => ⟨rfl, Or.inl rfl⟩,
      Or.inl rfl, fun _ => ⟨rfl, rfl⟩, ?_⟩
    intro r h; cases h
  | default =>
    simp only
    obtain ⟨p1, p2, p3, p4, _, p6, p7, _⟩ :=
      prepared_fields v (v.loaders m).req (v.loaders m).opts
    by_cases hsrc : truthyStr (trim (v.loaders m).opts.src) = true
    · rw [defaultLoadHandler_of_src v m hsrc, startLoad_loader, startLoad_envs, startLoad_reqs,
        startLoad_reqCount, startLoad_rootLazy, p1, p2, p3, p4]
      refine ⟨?_, ?_, ?_, ?_, Or.inl rfl, ?_, ?_⟩
      · intro k hk; rw [Function.update_noteq hk]
      · intro k hk
        rw [made_grow v _ _ k (by rw [startLoad_reqCount, p3])
          (by rw [startLoad_envs, p2, p3])]
        simp [hk.symm]
      · omega
      · intro r hr
        have hne : r ≠ v.reqCount := Nat.ne_of_lt hr
        rw [Function.update_noteq hne, Function.update_noteq hne]
        exact ⟨rfl, p6 r⟩
      · intro k
        by_cases hk : k = m
        · subst hk; simp
        · rw [Function.update_noteq hk]; exact ⟨rfl, rfl⟩
      · intro r _ hreq hr
        have hne : r ≠ v.reqCount := Nat.ne_of_lt hr
        rw [Function.update_noteq hne]
        exact p7 r hreq
    · have hsrc' : truthyStr (trim (v.loaders m).opts.src) = false := by
        simpa using hsrc
      rw [defaultLoadHandler_of_no_src v m hsrc']
      refine ⟨?_, ?_, ?_, ?_, ?_, ?_, ?_⟩
      · intro k hk; rw [onComplete_stat_ne _ _ _ _ hk, p1]
      · intro k _
        unfold made
        rw [onComplete_reqCount, onComplete_envs, p2, p3]
      · rw [onComplete_reqCount, p3]
      · intro r _
        rw [onComplete_envs, onComplete_reqs, p2]
        exact ⟨rfl, p6 r⟩
      · rcases onComplete_rootLazy (modeSwitch (cancelOld v (v.loaders m).req)
            (v.loaders m).opts).1 m (v.loaders m).opts.once with h | h
        · left; rw [h, p4]
        · right; exact h
      · intro k
        obtain ⟨h1, h2⟩ := onComplete_opts (modeSwitch (cancelOld v (v.loaders m).req)
          (v.loaders m).opts).1 m k (v.loaders m).opts.once
        rw [h1, h2, p1]; exact ⟨rfl, rfl⟩
      · intro r _ hreq _
        rw [onComplete_reqs]
        exact p7 r hreq

theorem inViewResult_log (w : World) (c : Call) (m : Nat) :
    inViewResult (w.log c) m = inViewResult w m := rfl

/-- `check` on a loader that is eligible: the load handler runs, then the children
are visited. -/
theorem check_eligible (fuel : Nat) (w : World) (me : Nat) (ev : Option String)
    (hs : (w.loaders me).stat < STAT_LOADING) (hv : inViewResult w me = true) :
    check (fuel + 1) w me ev =
      if ((runLoadHandler (inView (w.log (Call.check me ev)) me).2 me).loaders
          me).children.size != 0 then
        if (if truthy ev then
            (objGet ((runLoadHandler (inView (w.log (Call.check me ev)) me).2 me).loaders
              me).queues (ev.getD "")).isSome
            else true) = true then
          ((runLoadHandler (inView (w.log (Call.check me ev)) me).2 me).loaders
            me).children.keys.foldlM
            (fun w2 k =>
              match (w2.loaders me).children.get k with
              | some child => check fuel w2 child ev
              | none => Except.error (Err.typeError w2))
            (runLoadHandler (inView (w.log (Call.check me ev)) me).2 me)
        else Except.ok (runLoadHandler (inView (w.log (Call.check me ev)) me).2 me)
      else Except.ok (runLoadHandler (inView (w.log (Call.check me ev)) me).2 me) := by
  have hs' : ((w.log (Call.check me ev)).loaders me).stat < STAT_LOADING := hs
  have hv' : (inView (w.log (Call.check me ev)) me).1 = true := by
    rw [inView_fst, inViewResult_log]; exact hv
  conv_lhs => unfold check
  simp only [hs', if_true, hv']
  try rfl

/-- `check` on a loader that is not in view. -/
theorem check_not_in_view (fuel : Nat) (w : World) (me : Nat) (ev : Option String)
    (hs : (w.loaders me).stat < STAT_LOADING) (hv : inViewResult w me = false) :
    check (fuel + 1) w me ev = Except.ok (inView (w.log (Call.check me ev)) me).2 := by
  have hs' : ((w.log (Call.check me ev)).loaders me).stat < STAT_LOADING := hs
  have hv' : (inView (w.log (Call.check me ev)) me).1 = false := by
    rw [inView_fst, inViewResult_log]; exact hv
  conv_lhs => unfold check
  simp only [hs', if_true, hv']
  simp

theorem leaves_check_eligible (P : World → Prop)
    (hlog : ∀ w c, P w → P (w.log c))
    (hview : ∀ w m, P w → P (inView w m).2)
    (hrun : ∀ w m, P w → (w.loaders m).stat < STAT_LOADING → P (runLoadHandler w m))
    (fuel : Nat) (w : World) (me : Nat) (ev : Option String)
    (hs : (w.loaders me).stat < STAT_LOADING) (hv : inViewResult w me = true)
    (h1 : P (runLoadHandler (inView (w.log (Call.check me ev)) me).2 me)) :
    Leaves P (check (fuel + 1) w me ev) := by
  rw [check_eligible fuel w me ev hs hv]
  have hfold : Leaves P
      (((runLoadHandler (inView (w.log (Call.check me ev)) me).2 me).loaders
          me).children.keys.foldlM
        (fun w2 k =>
          match (w2.loaders me).children.get k with
          | some child => check fuel w2 child ev
          | none => Except.error (Err.typeError w2))
        (runLoadHandler (inView (w.log (Call.check me ev)) me).2 me)) := by
    apply leaves_foldlM P _ _ _ _ h1
    intro w2 k hw2
    split
    · exact leaves_check P hlog hview hrun _ _ _ _ hw2
    · exact hw2
  split_ifs <;> first | exact hfold | exact h1

theorem applyFilters_eq_foldl (el : El) (filters : Option (List Filter)) (src : String) :
    Req.applyFilters el filters src =
      (filters.getD []).foldl (fun lastResult cur => cur lastResult el) src := by
  cases filters <;> rfl

theorem runLoadHandler_children_of_src (v : World) (m : Nat)
    (hdef : (v.loaders m).loadHandler = Handler.default)
    (hsrc : truthyStr (trim (v.loaders m).opts.src) = true) :
    ((runLoadHandler v m).loaders m).children = (v.loaders m).children := by
  unfold runLoadHandler
  rw [hdef]
  simp only
  rw [defaultLoadHandler_of_src v m hsrc, startLoad_loader,
    (prepared_fields v (v.loaders m).req (v.loaders m).opts).1]
  simp

theorem inView_children (w : World) (m k : Nat) :
    ((inView w m).2.loaders k).children = (w.loaders k).children := by
  unfold inView World.setLoader
  dsimp only
  by_cases hk : k = m
  · subst hk
    simp only [Function.update_same]
    split <;> split <;> rfl
  · simp only [Function.update_noteq hk]
    split <;> split <;> rfl


theorem leaves_mono {P Q : World → Prop} (h : ∀ v, P v → Q v) (e : Except Err World)
    (he : Leaves P e) : Leaves Q e := by
  unfold Leaves at *
  cases hl : leftBy e with
  | none => trivial
  | some v => rw [hl] at he; exact h v he

/-- Steps keep what quiet changes, checks and updates keep. -/
theorem leaves_step (n : Nat) (P : World → Prop)
    (hq : ∀ v v', Quiet n v v' → P v → P v')
    (hcheck : ∀ fuel v m ev, P v → Leaves P (check fuel v m ev))
    (hupdate : ∀ fuel v m nSrc, P v → Leaves P (update fuel v m nSrc))
    (fuel : Nat) (v : World) (s : Step) (h : P v) : Leaves P (s.run fuel v) := by
  cases s with
  | check loader evName => exact hcheck _ _ _ _ h
  | update loader src => exact hupdate _ _ _ _ h
  | transport loadEl s => exact hq _ _ (quiet_transport n v loadEl s) h
  | next req failed nSrc => exact hq _ _ (quiet_callNext n v req failed nSrc) h
  | fire el event =>
    show Leaves P (fire fuel v el event)
    unfold fire
    apply leaves_foldlM P _ _ _ _ h
    intro w1 l hw1
    split
    · unfold runCb
      dsimp only
      apply leaves_foldlM P _ _ _ _ hw1
      intro w2 k hw2
      split
      · exact hcheck _ _ _ _ hw2
      · exact hw2
    · exact hw1
  | destroy loader deep =>
    show Leaves P (destroy fuel v loader deep)
    cases hd : destroy fuel v loader deep with
    | ok v' => exact hq _ _ (Quiet.of_core (core_destroy fuel v v' loader deep hd)) h
    | error e =>
      cases e with
      | fuel => trivial
      | typeError v' =>
        -- the world at the throw differs from `v` by tree operations only
        unfold destroy at hd
        split_ifs at hd with h1 h2
        have hdeep := core_destroyLoaderDeep v fuel v loader rfl
        cases hr : destroyLoaderDeep fuel v loader with
        | ok x => rw [hr] at hd; simp [Except.map] at hd
        | error e2 =>
          rw [hr] at hd hdeep
          simp only [Except.map, Except.error.injEq] at hd
          subst hd
          exact hq _ _ (Quiet.of_core hdeep) h
  | addChild loader child => exact hq _ _ (Quiet.of_core (core_addChild _ _ _)) h
  | rmChild loader child => exact hq _ _ (Quiet.of_core (core_rmChild _ _ _)) h

theorem leaves_runSteps (n : Nat) (P : World → Prop)
    (hq : ∀ v v', Quiet n v v' → P v → P v')
    (hcheck : ∀ fuel v m ev, P v → Leaves P (check fuel v m ev))
    (hupdate : ∀ fuel v m nSrc, P v → Leaves P (update fuel v m nSrc))
    (fuel : Nat) (steps : List Step) :
    ∀ (v v' : World), P v → runSteps fuel v steps = some v' → P v' := by
  induction steps with
  | nil =>
    intro v v' h hrun
    simp only [runSteps, Option.some.injEq] at hrun
    subst hrun; exact h
  | cons s rest ih =>
    intro v v' h hrun
    have hs := leaves_step n P hq hcheck hupdate fuel v s h
    unfold Leaves at hs
    simp only [runSteps] at hrun
    cases hl : leftBy (s.run fuel v) with
    | none => rw [hl] at hrun; simp at hrun
    | some w1 =>
      rw [hl] at hrun hs
      exact ih w1 v' hs hrun

/-- A loader configured `once` that has left `STAT_NOT_LOAD` stays so under every step. -/
theorem once_done_runSteps (n : Nat) (fuel : Nat) (steps : List Step) (v v' : World)
    (honce : (v.loaders n).opts.once = true) (hstat : (v.loaders n).stat ≠ STAT_NOT_LOAD)
    (hrun : runSteps fuel v steps = some v') :
    (v'.loaders n).opts.once = true ∧ (v'.loaders n).stat ≠ STAT_NOT_LOAD := by
  have hcheck : ∀ fuel v m ev,
      ((v.loaders n).opts.once = true ∧ (v.loaders n).stat ≠ STAT_NOT_LOAD) →
      Leaves (fun x => (x.loaders n).opts.once = true ∧ (x.loaders n).stat ≠ STAT_NOT_LOAD)
        (check fuel v m ev) := by
    intro fuel v m ev hv
    apply leaves_check _ _ _ _ fuel v m ev hv
    · intro x c hx; exact hx
    · intro x m hx
      exact ⟨by rw [inView_opts]; exact hx.1, by rw [inView_stat]; exact hx.2⟩
    · intro x m hx hm
      have hne : n ≠ m := by
        intro h; subst h
        apply hx.2
        unfold STAT_LOADING at hm; unfold STAT_NOT_LOAD; omega
      obtain ⟨e1, _, _, _, _, e6, _⟩ := runLoadHandler_effect x m
      exact ⟨by rw [(e6 n).1]; exact hx.1, by rw [e1 n hne]; exact hx.2⟩
  apply leaves_runSteps n
    (fun x => (x.loaders n).opts.once = true ∧ (x.loaders n).stat ≠ STAT_NOT_LOAD)
    _ hcheck _ fuel steps v v' ⟨honce, hstat⟩ hrun
  · intro x x' hqq hx
    exact ⟨by rw [hqq.1]; exact hx.1, hqq.2.2.1 hx.2⟩
  · intro fuel x m nSrc hx
    unfold update
    dsimp only
    split_ifs with h1 h2
    · apply hcheck
      have hne : n ≠ m := by
        intro h; subst h
        rw [hx.1] at h1; simp at h1
      simp only [World.setLoader, Function.update_noteq hne]
      exact hx
    · exact hx
    · exact hx

theorem onComplete_root (x : World) (root : Nat)
    (hparent : (x.loaders root).parent = none) (hroot : (x.loaders root).opts.isRoot = true)
    (hlive : (x.loaders root).destroyed = false) :
    (onComplete x root true).rootLazy = none ∧
    (onComplete x root true).loaders root =
      { (x.loaders root) with stat := STAT_LOADED, destroyed := true } := by
  unfold onComplete destroyShallow
  simp [World.setLoader, hparent, hroot, hlive]

theorem inViewResult_root (w : World) (root : Nat)
    (hparent : (w.loaders root).parent = none) (hel : (w.loaders root).el = El.win) :
    inViewResult w root = true := by
  unfold inViewResult
  simp [hparent, hel]

theorem inView_loader_fields (w : World) (m k : Nat) :
    ((inView w m).2.loaders k).parent = (w.loaders k).parent ∧
    ((inView w m).2.loaders k).destroyed = (w.loaders k).destroyed ∧
    ((inView w m).2.loaders k).el = (w.loaders k).el ∧
    ((inView w m).2.loaders k).id = (w.loaders k).id := by
  unfold inView World.setLoader
  dsimp only
  by_cases hk : k = m
  · subst hk
    simp only [Function.update_same]
    split <;> split <;> exact ⟨rfl, rfl, rfl, rfl⟩
  · simp only [Function.update_noteq hk]
    split <;> split <;> exact ⟨rfl, rfl, rfl, rfl⟩


theorem deliver_canceled (v : World) (r : Nat) (s : Signal)
    (h : (v.reqs r).canceled = true) : deliver v r s = v := by
  unfold deliver
  have hs : (v.reqs r).signal s = (v.reqs r, []) := by
    cases s <;> simp [Req.signal, Req.onload, Req.onerror, h]
  rw [hs]
  simp [World.setReq]

theorem inView_handlerOf (w : World) (m : Nat) : (inView w m).2.handlerOf = w.handlerOf := by
  unfold inView; dsimp only; split <;> split <;> rfl

theorem inViewResult_reset (w : World) (me : Nat) (s : Option String) :
    inViewResult
      (w.setLoader me
        { (w.loaders me) with
          opts := { (w.loaders me).opts with src := s }, stat := STAT_NOT_LOAD }) me
      = inViewResult w me := by
  unfold inViewResult comparedRect parentElOffset World.setLoader
  simp only [Function.update_same]
  cases hp : (w.loaders me).parent with
  | none => rfl
  | some p =>
    by_cases hpm : p = me
    · subst hpm; simp
    · simp [Function.update_noteq hpm]



/-! ## Starting a load -/

/-- C12: take a loader in `STAT_NOT_LOAD` that uses the default load handler and has a
non-empty trimmed `src`. If it is not in view, `check` returns with the state still
`STAT_NOT_LOAD` and no request constructed. If it is in view, then in the world `check`
leaves behind the state is `STAT_LOADING` and exactly one request has been constructed
for the loader; its source is the trimmed `src` folded from the left through the
filters (the trimmed `src` itself without filters). For a loader without children
`check` returns the world the load handler built. -/
theorem check_starts_one_load_iff_in_view (fuel : Nat) (w : World) (me : Nat)
    (evName : Option String)
    (hstat : (w.loaders me).stat = STAT_NOT_LOAD)
    (hdef : (w.loaders me).loadHandler = Handler.default)
    (hsrc : truthyStr (trim (w.loaders me).opts.src) = true) :
    (inViewResult w me = false →
      check (fuel + 1) w me evName =
        Except.ok (inView (w.log (Call.check me evName)) me).2 ∧
      ((inView (w.log (Call.check me evName)) me).2.loaders me).stat = STAT_NOT_LOAD ∧
      (inView (w.log (Call.check me evName)) me).2.reqCount = w.reqCount ∧
      made (inView (w.log (Call.check me evName)) me).2 me = made w me) ∧
    (inViewResult w me = true →
      Leaves
        (fun v =>
          (v.loaders me).stat = STAT_LOADING ∧ made v me = made w me + 1 ∧
          w.reqCount < v.reqCount ∧ (v.envs w.reqCount).loader = me ∧
          (v.reqs w.reqCount).src =
            ((w.loaders me).opts.filters.getD []).foldl
              (fun lastResult cur => cur lastResult (w.loaders me).opts.el)
              (trim (w.loaders me).opts.src))
        (check (fuel + 1) w me evName) ∧
      ((w.loaders me).children.size = 0 →
        check (fuel + 1) w me evName =
          Except.ok (defaultLoadHandler (inView (w.log (Call.check me evName)) me).2 me))) := by
  have hlt : (w.loaders me).stat < STAT_LOADING := by rw [hstat]; decide
  constructor
  · intro hv
    refine ⟨check_not_in_view fuel w me evName hlt hv, ?_, ?_, ?_⟩
    · rw [inView_stat]; exact hstat
    · rw [inView_reqCount]; rfl
    · rw [inView_made]; rfl
  · intro hv
    have hdefW : ((inView (w.log (Call.check me evName)) me).2.loaders me).loadHandler
        = Handler.default := by rw [inView_handler]; exact hdef
    have hoptsW : ((inView (w.log (Call.check me evName)) me).2.loaders me).opts
        = (w.loaders me).opts := by rw [inView_opts]; rfl
    have hsrcW : truthyStr (trim ((inView (w.log (Call.check me evName)) me).2.loaders
        me).opts.src) = true := by rw [hoptsW]; exact hsrc
    have hrl : runLoadHandler (inView (w.log (Call.check me evName)) me).2 me
        = defaultLoadHandler (inView (w.log (Call.check me evName)) me).2 me := by
      unfold runLoadHandler; rw [hdefW]
    constructor
    · apply leaves_check_eligible _ _ _ _ fuel w me evName hlt hv
      · -- the world right after the load handler
        rw [hrl, defaultLoadHandler_of_src _ me hsrcW]
        obtain ⟨p1, p2, p3, _, _, _, _, _⟩ :=
          prepared_fields (inView (w.log (Call.check me evName)) me).2
            ((inView (w.log (Call.check me evName)) me).2.loaders me).req
            ((inView (w.log (Call.check me evName)) me).2.loaders me).opts
        have hc : (modeSwitch (cancelOld (inView (w.log (Call.check me evName)) me).2
            ((inView (w.log (Call.check me evName)) me).2.loaders me).req)
            ((inView (w.log (Call.check me evName)) me).2.loaders me).opts).1.reqCount
            = w.reqCount := by rw [p3, inView_reqCount]; rfl
        refine ⟨?_, ?_, ?_, ?_, ?_⟩
        · rw [startLoad_loader]; simp
        · rw [made_grow _ _ _ me (startLoad_reqCount _ _ _ _ _ _) (startLoad_envs _ _ _ _ _ _)]
          simp only [if_true]
          have : made (modeSwitch (cancelOld (inView (w.log (Call.check me evName)) me).2
              ((inView (w.log (Call.check me evName)) me).2.loaders me).req)
              ((inView (w.log (Call.check me evName)) me).2.loaders me).opts).1 me
              = made w me := by
            unfold made
            rw [p2, p3, inView_reqCount, inView_envs]; rfl
          rw [this]
        · rw [startLoad_reqCount, hc]; omega
        · rw [startLoad_envs, hc]; simp
        · rw [startLoad_reqs, hc, hoptsW]
          simp [Req.create, applyFilters_eq_foldl]
      · intro v c hP; exact hP
      · intro v m hP
        obtain ⟨h1, h2, h3, h4, h5⟩ := hP
        refine ⟨?_, ?_, ?_, ?_, ?_⟩
        · rw [inView_stat]; exact h1
        · rw [inView_made]; exact h2
        · rw [inView_reqCount]; exact h3
        · rw [inView_envs]; exact h4
        · rw [inView_reqs]; exact h5
      · intro v m hP hm
        obtain ⟨h1, h2, h3, h4, h5⟩ := hP
        have hne : me ≠ m := by
          intro h; subst h
          rw [h1] at hm; exact absurd hm (by decide)
        obtain ⟨e1, e2, e3, e4, _, _, _⟩ := runLoadHandler_effect v m
        refine ⟨?_, ?_, ?_, ?_, ?_⟩
        · rw [e1 me hne]; exact h1
        · rw [e2 me hne]; exact h2
        · omega
        · rw [(e4 _ h3).1]; exact h4
        · rcases (e4 _ h3).2 with h | h
          · rw [h]; exact h5
          · rw [h]; exact h5
    · intro hsize
      rw [check_eligible fuel w me evName hlt hv]
      have hch : ((runLoadHandler (inView (w.log (Call.check me evName)) me).2 me).loaders
          me).children = (w.loaders me).children := by
        rw [runLoadHandler_children_of_src _ me hdefW hsrcW, inView_children]; rfl
      rw [hch, hrl]
      simp [hsize]

/-- Witness of C12: loader 5 of the sample page is not in view and stays in
`STAT_NOT_LOAD`; loader 2 of the filter page is in view, and its one request is issued
for `cdn/d.png?w=2`. -/
theorem check_starts_one_load_iff_in_view_witness :
    (check 1 samplePage 5 none =
        Except.ok (inView (samplePage.log (Call.check 5 none)) 5).2 ∧
      ((inView (samplePage.log (Call.check 5 none)) 5).2.loaders 5).stat = STAT_NOT_LOAD ∧
      (inView (samplePage.log (Call.check 5 none)) 5).2.reqCount = samplePage.reqCount ∧
      made (inView (samplePage.log (Call.check 5 none)) 5).2 5 = made samplePage 5) ∧
    (check 1 sampleFilterPage 2 none =
        Except.ok (defaultLoadHandler
          (inView (sampleFilterPage.log (Call.check 2 none)) 2).2 2) ∧
      (leftBy (check 1 sampleFilterPage 2 none)).map
          (fun v => ((v.loaders 2).stat, made v 2, (v.reqs 0).src, (v.reqs 0).oSrc,
            v.srcAttr (LoadEl.el (El.dom 5)))) =
        some (STAT_LOADING, 1, "cdn/d.png?w=2", "d.png", some "cdn/d.png?w=2")) :=
  ⟨(check_starts_one_load_iff_in_view 0 samplePage 5 none (by decide!) (by decide!)
      (by decide!)).1 (by decide!),
    (check_starts_one_load_iff_in_view 0 sampleFilterPage 2 none (by decide!) (by decide!)
      (by decide!)).2 (by decide!) |>.2 (by decide!),
    by decide!⟩

/-- C13: under the default load handler with a non-empty `src`, the handler leaves the
loader in `STAT_LOADING` with, of the three state classes, exactly the loading class on
the class target. The error closure of a request called without `isEnd` leaves every
loader (so the state `STAT_LOADING`) and every class list as they are; called with
`isEnd` it leaves the loader in `STAT_LOADED` and, of the three state classes, exactly
the error class on the class target; the success closure leaves the loader in
`STAT_LOADED` and exactly the loaded class. -/
theorem default_handler_state_and_classes (w : World) (m : Nat)
    (hsrc : truthyStr (trim (w.loaders m).opts.src) = true) :
    ((defaultLoadHandler w m).loaders m).stat = STAT_LOADING ∧
    ((defaultLoadHandler w m).loaders m).req = some w.reqCount ∧
    ((defaultLoadHandler w m).envs w.reqCount).loader = m ∧
    ((defaultLoadHandler w m).envs w.reqCount).classes =
      [(w.loaders m).opts.classLoading, (w.loaders m).opts.classErr,
        (w.loaders m).opts.classLoaded] ∧
    ((defaultLoadHandler w m).envs w.reqCount).classErr = (w.loaders m).opts.classErr ∧
    ((defaultLoadHandler w m).envs w.reqCount).classLoaded = (w.loaders m).opts.classLoaded ∧
    (∀ c ∈ ((defaultLoadHandler w m).envs w.reqCount).classes,
      (c ∈ (defaultLoadHandler w m).classes
          ((defaultLoadHandler w m).envs w.reqCount).elClassTarget ↔
        c = (w.loaders m).opts.classLoading)) ∧
    (∀ (v : World) (req : Nat) (info : Info),
      (info.isEnd = false →
        (applyOut req v (Out.onErr info)).loaders = v.loaders ∧
        (applyOut req v (Out.onErr info)).classes = v.classes) ∧
      (info.isEnd = true →
        ((applyOut req v (Out.onErr info)).loaders (v.envs req).loader).stat = STAT_LOADED ∧
        ∀ c ∈ (v.envs req).classes,
          (c ∈ (applyOut req v (Out.onErr info)).classes (v.envs req).elClassTarget ↔
            c = (v.envs req).classErr)) ∧
      ((applyOut req v (Out.onLoad info)).loaders (v.envs req).loader).stat = STAT_LOADED ∧
      ∀ c ∈ (v.envs req).classes,
        (c ∈ (applyOut req v (Out.onLoad info)).classes (v.envs req).elClassTarget ↔
          c = (v.envs req).classLoaded)) := by
  have hc : (modeSwitch (cancelOld w (w.loaders m).req) (w.loaders m).opts).1.reqCount
      = w.reqCount := (modeSwitch_reqCount _ _).trans (cancelOld_reqCount _ _)
  rw [defaultLoadHandler_of_src w m hsrc, startLoad_loader, startLoad_envs, hc]
  simp only [Function.update_same]
  refine ⟨trivial, trivial, trivial, trivial, trivial, trivial, ?_, ?_⟩
  · intro c hcm
    exact startLoad_class _ _ _ _ _ _ c hcm
  · intro v req info
    exact ⟨fun h => handlerOnErr_soft v _ info h,
      fun h => ⟨handlerOnErr_final_stat v _ info h,
        fun c hcm => handlerOnErr_final_class v _ info h c hcm⟩,
      handlerOnLoad_stat v _ info, fun c hcm => handlerOnLoad_class_only v _ info c hcm⟩

/-- Witness of C13: loader 6 of the sample page loads with `lazy-loading`; a failure
(terminal, the retry budget is 0) leaves `lazy-err`, a success `lazy-loaded`. -/
theorem default_handler_state_and_classes_witness :
    (sampleLoading.loaders 6).stat = STAT_LOADING ∧
    sampleLoading.classes (El.dom 5) = ["lazy-loading"] ∧
    (transport sampleLoading (LoadEl.el (El.dom 5)) Signal.error).classes (El.dom 5)
      = ["lazy-err"] ∧
    (transport sampleLoading (LoadEl.el (El.dom 5)) Signal.load).classes (El.dom 5)
      = ["lazy-loaded"] ∧
    ((defaultLoadHandler samplePage 6).loaders 6).stat = STAT_LOADING :=
  ⟨by decide!, by decide!, by decide!, by decide!,
    (default_handler_state_and_classes samplePage 6 (by decide!)).1⟩

/-! ## `update` and a request in flight -/

/-- C16 (as stated, refuted): loader 2 of the update page, not `once`, has request 0 in
flight when the window is scrolled away from it. `update` with a new `src` resets the
state to `STAT_NOT_LOAD` but does not cancel request 0: a late success on the element
calls `onLoad` for the old source and puts the loader into `STAT_LOADED` with the
loaded class, a late failure calls `onErr` and puts it into `STAT_LOADED` too. -/
theorem update_out_of_view_leaves_request_live :
    (sampleScrolledAway.loaders 2).req = some 0 ∧
    (sampleScrolledAway.loaders 2).stat = STAT_LOADING ∧
    (sampleScrolledAway.loaders 2).opts.once = false ∧
    (sampleScrolledAway.reqs 0).canceled = false ∧
    sampleScrolledAway.handlerOf (LoadEl.el (El.dom 6)) = some 0 ∧
    inViewResult sampleScrolledAway 2 = false ∧
    (sampleUpdatedAway.loaders 2).opts.src = some "f.png" ∧
    (sampleUpdatedAway.loaders 2).stat = STAT_NOT_LOAD ∧
    (sampleUpdatedAway.reqs 0).canceled = false ∧
    ((transport sampleUpdatedAway (LoadEl.el (El.dom 6)) Signal.load).loaders 2).stat
      = STAT_LOADED ∧
    (transport sampleUpdatedAway (LoadEl.el (El.dom 6)) Signal.load).trace
      = sampleUpdatedAway.trace ++ [Call.onLoad ⟨El.dom 6, "e.png", "e.png", false⟩] ∧
    (transport sampleUpdatedAway (LoadEl.el (El.dom 6)) Signal.load).classes (El.dom 6)
      = ["lazy-loaded"] ∧
    ((transport sampleUpdatedAway (LoadEl.el (El.dom 6)) Signal.error).loaders 2).stat
      = STAT_LOADED ∧
    (transport sampleUpdatedAway (LoadEl.el (El.dom 6)) Signal.error).trace
      = sampleUpdatedAway.trace ++ [Call.onErr ⟨El.dom 6, "e.png", "e.png", true⟩] := by
  decide!

/-- C16 (amended): for a loader not configured `once`, with the default load handler
and a request `r` in flight, `update` with a different `src` cancels `r` when the loader
is in view at that moment: in the world the update leaves behind `r` is canceled and its
closures do nothing. When the loader is not in view `r` is not touched: the state is
`STAT_NOT_LOAD`, the new `src` is stored, and a late success of `r` still completes the
loader into `STAT_LOADED`. -/
theorem update_cancels_request_only_in_view (fuel : Nat) (w : World) (me r : Nat)
    (nSrc : Option String)
    (honce : (w.loaders me).opts.once = false)
    (hdef : (w.loaders me).loadHandler = Handler.default)
    (hreq : (w.loaders me).req = some r) (hr : r < w.reqCount)
    (hnew : nSrc ≠ (w.loaders me).opts.src) :
    (inViewResult w me = true →
      Leaves (fun v => (v.reqs r).canceled = true ∧ ∀ s, deliver v r s = v)
        (update (fuel + 1) w me nSrc)) ∧
    (inViewResult w me = false →
      ∃ v, update (fuel + 1) w me nSrc = Except.ok v ∧
        v.reqs = w.reqs ∧ v.handlerOf = w.handlerOf ∧
        (v.loaders me).stat = STAT_NOT_LOAD ∧ (v.loaders me).opts.src = nSrc ∧
        ∀ loadEl, w.handlerOf loadEl = some r → (w.reqs r).canceled = false →
          (w.reqs r).hasOnLoad = true → (w.envs r).loader = me →
          ((transport v loadEl Signal.load).loaders me).stat = STAT_LOADED) := by
  have hu : update (fuel + 1) w me nSrc =
      check (fuel + 1)
        (w.setLoader me
          { (w.loaders me) with
            opts := { (w.loaders me).opts with src := nSrc }, stat := STAT_NOT_LOAD })
        me none := by
    simp [update, honce, hnew]
  have hlt : ((w.setLoader me
      { (w.loaders me) with
        opts := { (w.loaders me).opts with src := nSrc }, stat := STAT_NOT_LOAD }).loaders
      me).stat < STAT_LOADING := by
    simp [World.setLoader, STAT_NOT_LOAD, STAT_LOADING]
  rw [hu]
  constructor
  · intro hv
    have hv' := (inViewResult_reset w me nSrc).trans hv
    apply leaves_mono _ _
      (leaves_check_eligible (fun v => (v.reqs r).canceled = true ∧ r < v.reqCount)
        (fun _ _ h => h) ?_ ?_ fuel _ me none hlt hv' ?_)
    · intro v hvP
      exact ⟨hvP.1, fun s => deliver_canceled v r s hvP.1⟩
    · intro x m hx
      exact ⟨by rw [inView_reqs]; exact hx.1, by rw [inView_reqCount]; exact hx.2⟩
    · intro x m hx _
      obtain ⟨_, _, e3, e4, _, _, _⟩ := runLoadHandler_effect x m
      refine ⟨?_, by omega⟩
      rcases (e4 r hx.2).2 with h | h
      · rw [h]; exact hx.1
      · rw [h]; rfl
    · obtain ⟨_, _, e3, _, _, _, e7⟩ := runLoadHandler_effect
        (inView ((w.setLoader me
          { (w.loaders me) with
            opts := { (w.loaders me).opts with src := nSrc }, stat := STAT_NOT_LOAD }).log
          (Call.check me none)) me).2 me
      have hc : (inView ((w.setLoader me
          { (w.loaders me) with
            opts := { (w.loaders me).opts with src := nSrc }, stat := STAT_NOT_LOAD }).log
          (Call.check me none)) me).2.reqCount = w.reqCount := by
        rw [inView_reqCount]; rfl
      refine ⟨e7 r ?_ ?_ ?_, by omega⟩
      · rw [inView_handler]; simp [World.log, World.setLoader]; exact hdef
      · rw [inView_req]; simp [World.log, World.setLoader]; exact hreq
      · rw [hc]; exact hr
  · intro hv
    have hv' := (inViewResult_reset w me nSrc).trans hv
    refine ⟨_, check_not_in_view fuel _ me none hlt hv', ?_, ?_, ?_, ?_, ?_⟩
    · rw [inView_reqs]; rfl
    · rw [inView_handlerOf]; rfl
    · rw [inView_stat]; simp [World.log, World.setLoader]
    · rw [inView_opts]; simp [World.log, World.setLoader]
    · intro loadEl hh hc hcb hown
      rw [transport_load_live _ loadEl r (by rw [inView_handlerOf]; exact hh)
        (by rw [inView_reqs]; exact hc) (by rw [inView_reqs]; exact hcb)]
      have he : (inView ((w.setLoader me
          { (w.loaders me) with
            opts := { (w.loaders me).opts with src := nSrc }, stat := STAT_NOT_LOAD }).log
          (Call.check me none)) me).2.envs r = w.envs r := by
        rw [inView_envs]; rfl
      rw [he, ← hown]
      exact handlerOnLoad_stat _ _ _

/-- Witness of C16 (amended): loader 2 of the update page, updated in view and updated
after the window was scrolled away. -/
theorem update_cancels_request_only_in_view_witness :
    Leaves (fun v => (v.reqs 0).canceled = true ∧ ∀ s, deliver v 0 s = v)
      (update 1 sampleUpdateLoading 2 (some "f.png")) ∧
    (leftBy (update 1 sampleUpdateLoading 2 (some "f.png"))).map
      (fun v => ((v.reqs 0).canceled, (v.loaders 2).req, (v.loaders 2).stat)) =
        some (true, some 1, STAT_LOADING) ∧
    ∃ v, update 1 sampleScrolledAway 2 (some "f.png") = Except.ok v ∧
      v.reqs = sampleScrolledAway.reqs ∧ v.handlerOf = sampleScrolledAway.handlerOf ∧
      (v.loaders 2).stat = STAT_NOT_LOAD ∧ (v.loaders 2).opts.src = some "f.png" ∧
      ∀ loadEl, sampleScrolledAway.handlerOf loadEl = some 0 →
        (sampleScrolledAway.reqs 0).canceled = false →
        (sampleScrolledAway.reqs 0).hasOnLoad = true →
        (sampleScrolledAway.envs 0).loader = 2 →
        ((transport v loadEl Signal.load).loaders 2).stat = STAT_LOADED :=
  ⟨(update_cancels_request_only_in_view 0 sampleUpdateLoading 2 0 (some "f.png")
      (by decide!) (by decide!) (by decide!) (by decide!) (by decide!)).1 (by decide!),
    by decide!,
    (update_cancels_request_only_in_view 0 sampleScrolledAway 2 0 (some "f.png")
      (by decide!) (by decide!) (by decide!) (by decide!) (by decide!)).2 (by decide!)⟩

/-! ## The root loader -/

/-- C20: take a root loader (no parent, element the window) with the default options
(`once`, default load handler), not destroyed, in `STAT_NOT_LOAD`, with an empty or
absent `src`. Its first `check()` runs the load handler, which puts it into
`STAT_LOADED` and unsets `scope.$lazy` without constructing a request, and then visits
every child in its registry once, in order. In the world this check leaves behind, and
in every world reached from there by further steps, `check` on the root, with or
without an event name, visits no child and changes nothing (apart from the record of the
call). -/
theorem root_first_check_completes_then_noop (fuel : Nat) (w : World) (root : Nat)
    (hparent : (w.loaders root).parent = none) (hel : (w.loaders root).el = El.win)
    (hstat : (w.loaders root).stat = STAT_NOT_LOAD)
    (hdef : (w.loaders root).loadHandler = Handler.default)
    (honce : (w.loaders root).opts.once = true)
    (hroot : (w.loaders root).opts.isRoot = true)
    (hlive : (w.loaders root).destroyed = false)
    (hsrc : truthyStr (trim (w.loaders root).opts.src) = false) :
    ((defaultLoadHandler (inView (w.log (Call.check root none)) root).2 root).loaders
        root).stat = STAT_LOADED ∧
    (defaultLoadHandler (inView (w.log (Call.check root none)) root).2 root).rootLazy = none ∧
    (defaultLoadHandler (inView (w.log (Call.check root none)) root).2 root).reqCount
      = w.reqCount ∧
    check (fuel + 1) w root none =
      (w.loaders root).children.keys.foldlM
        (fun v k =>
          match (v.loaders root).children.get k with
          | some child => check fuel v child none
          | none => Except.error (Err.typeError v))
        (defaultLoadHandler (inView (w.log (Call.check root none)) root).2 root) ∧
    Leaves
      (fun v =>
        (v.loaders root).stat = STAT_LOADED ∧ v.rootLazy = none ∧
        ∀ (fuel2 : Nat) (steps : List Step) (v' : World),
          runSteps fuel2 v steps = some v' →
          ∀ (f : Nat) (ev : Option String),
            check (f + 1) v' root ev = Except.ok (v'.log (Call.check root ev)))
      (check (fuel + 1) w root none) := by
  have hlt : (w.loaders root).stat < STAT_LOADING := by rw [hstat]; decide
  have hv : inViewResult w root = true := inViewResult_root w root hparent hel
  have hoptsW : ((inView (w.log (Call.check root none)) root).2.loaders root).opts
      = (w.loaders root).opts := by rw [inView_opts]; rfl
  have hdefW : ((inView (w.log (Call.check root none)) root).2.loaders root).loadHandler
      = Handler.default := by rw [inView_handler]; exact hdef
  have hrl : runLoadHandler (inView (w.log (Call.check root none)) root).2 root
      = defaultLoadHandler (inView (w.log (Call.check root none)) root).2 root := by
    unfold runLoadHandler; rw [hdefW]
  have hsrcW : truthyStr (trim ((inView (w.log (Call.check root none)) root).2.loaders
      root).opts.src) = false := by rw [hoptsW]; exact hsrc
  obtain ⟨p1, _, p3, _, _, _, _, _⟩ :=
    prepared_fields (inView (w.log (Call.check root none)) root).2
      ((inView (w.log (Call.check root none)) root).2.loaders root).req
      ((inView (w.log (Call.check root none)) root).2.loaders root).opts
  obtain ⟨f1, f2, _, _⟩ := inView_loader_fields (w.log (Call.check root none)) root root
  have hdone := onComplete_root
    (modeSwitch (cancelOld (inView (w.log (Call.check root none)) root).2
      ((inView (w.log (Call.check root none)) root).2.loaders root).req)
      ((inView (w.log (Call.check root none)) root).2.loaders root).opts).1 root
    (by rw [p1, f1]; exact hparent) (by rw [p1, hoptsW]; exact hroot)
    (by rw [p1, f2]; exact hlive)
  have hd : defaultLoadHandler (inView (w.log (Call.check root none)) root).2 root =
      onComplete (modeSwitch (cancelOld (inView (w.log (Call.check root none)) root).2
        ((inView (w.log (Call.check root none)) root).2.loaders root).req)
        ((inView (w.log (Call.check root none)) root).2.loaders root).opts).1 root true := by
    rw [defaultLoadHandler_of_no_src _ root hsrcW, hoptsW, honce]
  have hst : ((defaultLoadHandler (inView (w.log (Call.check root none)) root).2 root).loaders
      root).stat = STAT_LOADED := by rw [hd, hdone.2]
  have hrz : (defaultLoadHandler (inView (w.log (Call.check root none)) root).2
      root).rootLazy = none := by rw [hd, hdone.1]
  have hch : ((defaultLoadHandler (inView (w.log (Call.check root none)) root).2
      root).loaders root).children = (w.loaders root).children := by
    rw [hd, hdone.2, p1]
    show ((inView (w.log (Call.check root none)) root).2.loaders root).children = _
    rw [inView_children]; rfl
  have hon : ((defaultLoadHandler (inView (w.log (Call.check root none)) root).2
      root).loaders root).opts.once = true := by
    rw [hd, hdone.2, p1]
    show ((inView (w.log (Call.check root none)) root).2.loaders root).opts.once = true
    rw [hoptsW]; exact honce
  refine ⟨hst, hrz, ?_, ?_, ?_⟩
  · rw [hd, onComplete_reqCount, p3, inView_reqCount]; rfl
  · rw [check_eligible fuel w root none hlt hv, hrl, hch]
    by_cases hsize : (w.loaders root).children.size = 0
    · have hk : (w.loaders root).children.keys = [] := by
        unfold FMap.size at hsize
        unfold FMap.keys
        rw [List.length_eq_zero] at hsize
        rw [hsize]; rfl
      simp only [hsize, hk]
      rfl
    · simp only [truthy]
      simp only [bne_iff_ne, ne_eq, hsize, not_false_eq_true, if_true]
      rfl
  · apply leaves_mono _ _
      (leaves_check_eligible
        (fun x => (x.loaders root).stat = STAT_LOADED ∧ x.rootLazy = none ∧
          (x.loaders root).opts.once = true)
        (fun _ _ h => h) ?_ ?_ fuel w root none hlt hv (by rw [hrl]; exact ⟨hst, hrz, hon⟩))
    · intro v hvP
      refine ⟨hvP.1, hvP.2.1, ?_⟩
      intro fuel2 steps v' hrun f ev
      have hne : (v.loaders root).stat ≠ STAT_NOT_LOAD := by rw [hvP.1]; decide
      have hdone' := once_done_runSteps root fuel2 steps v v' hvP.2.2 hne hrun
      have hnlt : ¬ ((v'.log (Call.check root ev)).loaders root).stat < STAT_LOADING := by
        show ¬ (v'.loaders root).stat < STAT_LOADING
        have := hdone'.2
        unfold STAT_NOT_LOAD at this
        unfold STAT_LOADING
        omega
      unfold check
      simp [hnlt]
    · intro x m hx
      exact ⟨by rw [inView_stat]; exact hx.1, by rw [inView_rootLazy]; exact hx.2.1,
        by rw [inView_opts]; exact hx.2.2⟩
    · intro x m hx hm
      have hne : root ≠ m := by
        intro h; subst h
        rw [hx.1] at hm; exact absurd hm (by decide)
      obtain ⟨e1, _, _, _, e5, e6, _⟩ := runLoadHandler_effect x m
      refine ⟨by rw [e1 root hne]; exact hx.1, ?_, by rw [(e6 root).1]; exact hx.2.2⟩
      rcases e5 with h | h
      · rw [h]; exact hx.2.1
      · exact h

/-- Witness of C20: the root of the sample page has the children 2, 5, 6 and 7; its
first `check()` visits each of them once. -/
theorem root_first_check_completes_then_noop_witness :
    (samplePage.loaders 1).children.keys = [2, 5, 6, 7] ∧
    samplePage.rootLazy = some 1 ∧
    (leftBy (check 3 samplePage 1 none)).map
        (fun v => ((v.loaders 1).stat, v.rootLazy,
          v.trace.filter (fun c => c ∈ [Call.check 2 none, Call.check 5 none,
            Call.check 6 none, Call.check 7 none]))) =
      some (STAT_LOADED, none,
        [Call.check 2 none, Call.check 5 none, Call.check 6 none, Call.check 7 none]) ∧
    Leaves
      (fun v =>
        (v.loaders 1).stat = STAT_LOADED ∧ v.rootLazy = none ∧
        ∀ (fuel2 : Nat) (steps : List Step) (v' : World),
          runSteps fuel2 v steps = some v' →
          ∀ (f : Nat) (ev : Option String),
            check (f + 1) v' 1 ev = Except.ok (v'.log (Call.check 1 ev)))
      (check 3 samplePage 1 none) :=
  ⟨by decide!, by decide!, by decide!,
    (root_first_check_completes_then_noop 2 samplePage 1 (by decide!) (by decide!)
      (by decide!) (by decide!) (by decide!) (by decide!) (by decide!) (by decide!)).2.2.2.2⟩

/-! ## `rmChild`, `destroy()` and the registries -/

/-! ### `FMap` and plain objects -/

theorem FMap.has_rm {V : Type} (m : FMap V) (k : Nat) : (m.rm k).has k = false := by
  unfold FMap.has FMap.rm
  simp

theorem FMap.has_rm_of_not_has {V : Type} (m : FMap V) (j k : Nat) (h : m.has k = false) :
    (m.rm j).has k = false := by
  unfold FMap.has FMap.rm at *
  simp only [List.any_eq_false, List.mem_filter] at *
  intro e he
  exact h e he.1

theorem FMap.rm_of_not_has {V : Type} (m : FMap V) (k : Nat) (h : m.has k = false) :
    m.rm k = m := by
  unfold FMap.has FMap.rm at *
  cases m with
  | mk entries =>
    simp only [FMap.mk.injEq, List.filter_eq_self]
    simp only [List.any_eq_false] at h
    intro e he
    simpa using h e he

theorem mem_objSet {V : Type} (o : Obj V) (k : String) (v : V) (e : String) (q : V)
    (h : (e, q) ∈ objSet o k v) : (e = k ∧ q = v) ∨ ((e, q) ∈ o ∧ e ≠ k) := by
  unfold objSet at h
  split at h
  · rw [List.mem_map] at h
    obtain ⟨x, hx, hxe⟩ := h
    by_cases hk : x.1 = k
    · simp only [hk, beq_self_eq_true, if_true, Prod.mk.injEq] at hxe
      exact Or.inl ⟨hxe.1.symm, hxe.2.symm⟩
    · have : (x.1 == k) = false := by simpa using hk
      simp only [this, Bool.false_eq_true, if_false] at hxe
      subst hxe
      exact Or.inr ⟨hx, hk⟩
  · rename_i hany
    rw [List.mem_append, List.mem_singleton] at h
    rcases h with h | h
    · right
      refine ⟨h, ?_⟩
      intro hek
      apply hany
      simp only [List.any_eq_true]
      exact ⟨(e, q), h, by simp [hek]⟩
    · simp only [Prod.mk.injEq] at h
      exact Or.inl h

/-- The queues of a loader after the loop of `rmChild` over the events `l`. -/
theorem queues_lack_after (id : Nat) (l : List String) :
    ∀ (qs : Obj (FMap Nat)) (done : List String),
      (∀ e q, (e, q) ∈ qs → e ∈ done → q.has id = false) →
      ∀ e q, (e, q) ∈ l.foldl
          (fun o ev => objSet o ev (((objGet o ev).getD FMap.empty).rm id)) qs →
        (e ∈ done ∨ e ∈ l) → q.has id = false := by
  induction l with
  | nil =>
    intro qs done h e q he hd
    rcases hd with hd | hd
    · exact h e q he hd
    · cases hd
  | cons a rest ih =>
    intro qs done h e q he hd
    rw [List.foldl_cons] at he
    apply ih (objSet qs a (((objGet qs a).getD FMap.empty).rm id)) (a :: done) ?_ e q he
    · rcases hd with hd | hd
      · exact Or.inl (List.mem_cons_of_mem _ hd)
      · rcases List.mem_cons.1 hd with hd | hd
        · exact Or.inl (by rw [hd]; exact List.mem_cons_self _ _)
        · exact Or.inr hd
    · intro e' q' he' hd'
      rcases mem_objSet _ _ _ _ _ he' with ⟨_, hq⟩ | ⟨hmem, hne⟩
      · rw [hq]; exact FMap.has_rm _ _
      · rcases List.mem_cons.1 hd' with hd' | hd'
        · exact absurd hd' hne
        · exact h e' q' hmem hd'

theorem mem_objKeys {V : Type} (o : Obj V) (e : String) (q : V) (h : (e, q) ∈ o) :
    e ∈ objKeys o := by
  unfold objKeys
  exact List.mem_map.2 ⟨(e, q), h, rfl⟩

/-- The keys an entry can have after the loop of `rmChild`. -/
theorem keys_after (id : Nat) (l : List String) :
    ∀ (qs : Obj (FMap Nat)) e q,
      (e, q) ∈ l.foldl
          (fun o ev => objSet o ev (((objGet o ev).getD FMap.empty).rm id)) qs →
      e ∈ objKeys qs ∨ e ∈ l := by
  induction l with
  | nil => intro qs e q he; exact Or.inl (mem_objKeys _ _ _ he)
  | cons a rest ih =>
    intro qs e q he
    rw [List.foldl_cons] at he
    rcases ih _ e q he with h | h
    · unfold objKeys at h
      obtain ⟨x, hx, hxe⟩ := List.mem_map.1 h
      rcases mem_objSet _ _ _ _ _ (show (x.1, x.2) ∈ _ from hx) with ⟨hk, _⟩ | ⟨hmem, _⟩
      · right; rw [← hxe, hk]; exact List.mem_cons_self _ _
      · left; rw [← hxe]; exact mem_objKeys _ _ _ hmem
    · exact Or.inr (List.mem_cons_of_mem _ h)

theorem bindOff_loaders (w : World) (el : El) (event : String) (cb : Option Cb) :
    (bindOff w el event cb).loaders = w.loaders := by
  cases cb <;> rfl

theorem rmChildStep_ne (me id : Nat) (v : World) (e : String) (j : Nat) (hj : j ≠ me) :
    (rmChildStep me id v e).loaders j = v.loaders j := by
  unfold rmChildStep
  dsimp only
  split
  · rw [bindOff_loaders]
    simp only [World.setLoader, Function.update_noteq hj]
  · simp only [World.setLoader, Function.update_noteq hj]

theorem rmChildStep_me (me id : Nat) (v : World) (e : String) :
    ∃ C, (rmChildStep me id v e).loaders me =
      { (v.loaders me) with
        queues := objSet (v.loaders me).queues e
          (((objGet (v.loaders me).queues e).getD FMap.empty).rm id)
        cbs := C } := by
  unfold rmChildStep
  dsimp only
  split
  · refine ⟨objSet (v.loaders me).cbs e none, ?_⟩
    rw [bindOff_loaders]
    simp only [World.setLoader, Function.update_same]
  · refine ⟨(v.loaders me).cbs, ?_⟩
    simp only [World.setLoader, Function.update_same]

theorem rmFold_ne (me id : Nat) (l : List String) (j : Nat) (hj : j ≠ me) :
    ∀ v : World, (l.foldl (rmChildStep me id) v).loaders j = v.loaders j := by
  induction l with
  | nil => intro v; rfl
  | cons a rest ih => intro v; rw [List.foldl_cons, ih, rmChildStep_ne _ _ _ _ _ hj]

theorem rmFold_me (me id : Nat) (l : List String) :
    ∀ v : World, ∃ C, (l.foldl (rmChildStep me id) v).loaders me =
      { (v.loaders me) with
        queues := l.foldl
          (fun o ev => objSet o ev (((objGet o ev).getD FMap.empty).rm id))
          (v.loaders me).queues
        cbs := C } := by
  induction l with
  | nil => intro v; exact ⟨(v.loaders me).cbs, rfl⟩
  | cons a rest ih =>
    intro v
    rw [List.foldl_cons]
    obtain ⟨C, hC⟩ := ih (rmChildStep me id v a)
    obtain ⟨C1, hC1⟩ := rmChildStep_me me id v a
    refine ⟨C, ?_⟩
    rw [hC, hC1]
    rfl

theorem rmChild_ne (w : World) (me c : Nat) (j : Nat) (hj : j ≠ me) :
    (rmChild w me c).loaders j = w.loaders j := by
  unfold rmChild
  dsimp only
  rw [rmFold_ne _ _ _ _ hj]
  split
  · simp only [World.setLoader, Function.update_noteq hj]
  · rfl

theorem rmChild_me (w : World) (me c : Nat) :
    ∃ C, (rmChild w me c).loaders me =
      { (w.loaders me) with
        children := (w.loaders me).children.rm (w.loaders c).id
        queues := (objKeys (w.loaders me).queues).foldl
          (fun o ev => objSet o ev (((objGet o ev).getD FMap.empty).rm (w.loaders c).id))
          (w.loaders me).queues
        cbs := C } := by
  unfold rmChild
  dsimp only
  split
  · obtain ⟨C, hC⟩ := rmFold_me me (w.loaders c).id (objKeys (w.loaders me).queues)
      (w.setLoader me { (w.loaders me) with
        children := (w.loaders me).children.rm (w.loaders c).id })
    refine ⟨C, ?_⟩
    rw [hC]
    simp only [World.setLoader, Function.update_same]
  · rename_i hhas
    obtain ⟨C, hC⟩ := rmFold_me me (w.loaders c).id (objKeys (w.loaders me).queues) w
    refine ⟨C, ?_⟩
    rw [hC, FMap.rm_of_not_has _ _ (by simpa using hhas)]

/-- After `rmChild(c)` the id of `c` is in no queue of the parent and not in its child
registry. -/
theorem rmChild_gone (w : World) (me c : Nat) :
    ((rmChild w me c).loaders me).children.has (w.loaders c).id = false ∧
    ∀ e q, (e, q) ∈ ((rmChild w me c).loaders me).queues → q.has (w.loaders c).id = false := by
  obtain ⟨C, hC⟩ := rmChild_me w me c
  rw [hC]
  refine ⟨FMap.has_rm _ _, ?_⟩
  intro e q he
  have he' : (e, q) ∈ (objKeys (w.loaders me).queues).foldl
      (fun o ev => objSet o ev (((objGet o ev).getD FMap.empty).rm (w.loaders c).id))
      (w.loaders me).queues := he
  refine queues_lack_after _ _ _ [] (fun _ _ _ h => absurd h (List.not_mem_nil _)) e q he' ?_
  right
  rcases keys_after _ _ _ e q he' with h | h
  · exact h
  · exact h

theorem destroyShallow_live (w : World) (n p : Nat)
    (hp : (w.loaders n).parent = some p) (hlive : (w.loaders n).destroyed = false) :
    destroyShallow w n =
      (rmChild w p n).setLoader n { ((rmChild w p n).loaders n) with destroyed := true } := by
  unfold destroyShallow
  simp only [hlive, hp, Bool.not_false, if_true]

theorem rmChild_keeps (w : World) (me c j : Nat) :
    ((rmChild w me c).loaders j).stat = (w.loaders j).stat ∧
    ((rmChild w me c).loaders j).destroyed = (w.loaders j).destroyed ∧
    ((rmChild w me c).loaders j).id = (w.loaders j).id ∧
    ((rmChild w me c).loaders j).parent = (w.loaders j).parent := by
  by_cases hj : j = me
  · subst hj
    obtain ⟨C, hC⟩ := rmChild_me w j c
    rw [hC]
    exact ⟨rfl, rfl, rfl, rfl⟩
  · rw [rmChild_ne w me c j hj]
    exact ⟨rfl, rfl, rfl, rfl⟩

/-- What `destroy()` leaves of a loader that has a parent and was not destroyed. -/
theorem destroyShallow_gone (w : World) (n p : Nat)
    (hp : (w.loaders n).parent = some p) (hlive : (w.loaders n).destroyed = false) :
    ((destroyShallow w n).loaders n).stat = (w.loaders n).stat ∧
    ((destroyShallow w n).loaders n).destroyed = true ∧
    ((destroyShallow w n).loaders p).children.has (w.loaders n).id = false ∧
    ∀ e q, (e, q) ∈ ((destroyShallow w n).loaders p).queues →
      q.has (w.loaders n).id = false := by
  rw [destroyShallow_live w n p hp hlive]
  have hg := rmChild_gone w p n
  have hk := rmChild_keeps w p n n
  by_cases hpn : p = n
  · subst hpn
    simp only [World.setLoader, Function.update_same]
    exact ⟨hk.1, trivial, hg.1, hg.2⟩
  · simp only [World.setLoader, Function.update_same, Function.update_noteq hpn]
    exact ⟨hk.1, trivial, hg.1, hg.2⟩

theorem onComplete_gone (w : World) (n p : Nat)
    (hp : (w.loaders n).parent = some p) (hlive : (w.loaders n).destroyed = false) :
    ((onComplete w n true).loaders n).stat = STAT_LOADED ∧
    ((onComplete w n true).loaders n).destroyed = true ∧
    ((onComplete w n true).loaders p).children.has (w.loaders n).id = false ∧
    ∀ e q, (e, q) ∈ ((onComplete w n true).loaders p).queues →
      q.has (w.loaders n).id = false := by
  unfold onComplete
  simp only [if_true]
  have h := destroyShallow_gone
    (w.setLoader n { (w.loaders n) with stat := STAT_LOADED }) n p
    (by simp only [World.setLoader, Function.update_same]; exact hp)
    (by simp only [World.setLoader, Function.update_same]; exact hlive)
  simp only [World.setLoader, Function.update_same] at h ⊢
  exact h

theorem loaders_of_prepared (w : World) (o : Option Nat) (opts : Opts) :
    (modeSwitch (cancelOld w o) opts).1.loaders = w.loaders := by
  rw [modeSwitch_loaders, cancelOld_loaders]

theorem handlerOnLoad_loaders (w : World) (env : ReqEnv) (info : Info) :
    ∃ w1 : World, w1.loaders = w.loaders ∧
      (handlerOnLoad w env info).loaders = (onComplete w1 env.loader env.once).loaders := by
  unfold handlerOnLoad
  dsimp only
  cases hb : env.bg <;> cases ho : env.onLoad <;>
    simp only [Bool.false_eq_true, if_false, if_true]
  · exact ⟨w, rfl, rfl⟩
  · exact ⟨w, rfl, rfl⟩
  · exact ⟨cssBg w env.el _, rfl, rfl⟩
  · exact ⟨cssBg w env.el _, rfl, rfl⟩

theorem handlerOnErr_loaders (w : World) (env : ReqEnv) (info : Info)
    (hend : info.isEnd = true) :
    ∃ w1 : World, w1.loaders = w.loaders ∧
      (handlerOnErr w env info).loaders = (onComplete w1 env.loader env.once).loaders := by
  unfold handlerOnErr
  dsimp only
  cases hb : env.bg <;> cases ho : env.onErr <;>
    simp only [hend, Bool.false_eq_true, if_false, if_true]
  · exact ⟨w, rfl, rfl⟩
  · exact ⟨w, rfl, rfl⟩
  · exact ⟨cssBg w env.el _, rfl, rfl⟩
  · exact ⟨cssBg w env.el _, rfl, rfl⟩

theorem loadedAndGone_of_onComplete (w w1 v : World) (n p : Nat)
    (hp : (w.loaders n).parent = some p) (hlive : (w.loaders n).destroyed = false)
    (h1 : w1.loaders = w.loaders) (hv : v.loaders = (onComplete w1 n true).loaders) :
    LoadedAndGone v n p (w.loaders n).id := by
  have h := onComplete_gone w1 n p (by rw [h1]; exact hp) (by rw [h1]; exact hlive)
  unfold LoadedAndGone
  rw [hv, ← congrFun h1 n]
  exact h


/-! ## Completion of a loader configured `once` -/

/-- C14 (as stated, refuted): loader 6 of the sample page is configured `once`, has the
root loader 1 as parent and uses the default load handler. It is destroyed while its
request is in flight, which takes it out of the registry of the root, and is then
registered again with the root by `addChild`. When the request succeeds, or fails for
good, its state becomes `STAT_LOADED` and its flag `destroyed` is set, but it still is in
the child registry of the root and in the `scroll` queue of the root: `destroy()` does
nothing on a loader whose flag is set already. -/
theorem once_completion_keeps_readded_loader_registered :
    ((sampleReregistered.loaders 6).opts.once = true ∧
      (sampleReregistered.loaders 6).parent = some 1 ∧
      (sampleReregistered.loaders 6).id = 6 ∧
      (sampleReregistered.loaders 6).loadHandler = Handler.default ∧
      (sampleReregistered.loaders 6).stat = STAT_LOADING ∧
      (sampleReregistered.loaders 6).destroyed = true ∧
      (sampleDestroyed.loaders 1).children.has 6 = false ∧
      (sampleReregistered.loaders 1).children.has 6 = true ∧
      ((transport sampleReregistered (LoadEl.el (El.dom 5)) Signal.load).loaders 6).stat
        = STAT_LOADED ∧
      ((transport sampleReregistered (LoadEl.el (El.dom 5)) Signal.load).loaders 6).destroyed
        = true ∧
      ((transport sampleReregistered (LoadEl.el (El.dom 5)) Signal.load).loaders
        1).children.has 6 = true ∧
      (objGet ((transport sampleReregistered (LoadEl.el (El.dom 5)) Signal.load).loaders
        1).queues "scroll").map (fun q => q.has 6) = some true ∧
      ((transport sampleReregistered (LoadEl.el (El.dom 5)) Signal.error).loaders 6).stat
        = STAT_LOADED ∧
      ((transport sampleReregistered (LoadEl.el (El.dom 5)) Signal.error).loaders
        1).children.has 6 = true) ∧
    ¬ LoadedAndGone (transport sampleReregistered (LoadEl.el (El.dom 5)) Signal.load) 6 1 6 ∧
    ¬ LoadedAndGone (transport sampleReregistered (LoadEl.el (El.dom 5)) Signal.error) 6 1 6 :=
  ⟨by decide!, fun h => absurd h.2.2.1 (by decide!), fun h => absurd h.2.2.1 (by decide!)⟩

/-- C14 (amended): for a loader `n` configured `once` that has the parent `p` and whose
flag `destroyed` is not set yet, each of the three ways in which the default load handler
brings the state to `STAT_LOADED` destroys the loader in the same step: the handler run
on an empty trimmed `src`, the success closure of a request of `n`, and the error closure
of a request of `n` called with `isEnd`. Afterwards the state is `STAT_LOADED`, the flag
`destroyed` is set, and the id of `n` is neither in the child registry of `p` nor in any
queue of `p`. A request that the handler builds for `n` on a non-empty `src` is a request
of `n` with `once` set. -/
theorem once_completion_destroys_live_loader (w : World) (n p : Nat)
    (hp : (w.loaders n).parent = some p) (hlive : (w.loaders n).destroyed = false)
    (honce : (w.loaders n).opts.once = true) :
    (truthyStr (trim (w.loaders n).opts.src) = false →
      LoadedAndGone (defaultLoadHandler w n) n p (w.loaders n).id) ∧
    (truthyStr (trim (w.loaders n).opts.src) = true →
      ((defaultLoadHandler w n).envs w.reqCount).loader = n ∧
      ((defaultLoadHandler w n).envs w.reqCount).once = true) ∧
    (∀ (req : Nat) (info : Info), (w.envs req).loader = n → (w.envs req).once = true →
      LoadedAndGone (applyOut req w (Out.onLoad info)) n p (w.loaders n).id ∧
      (info.isEnd = true →
        LoadedAndGone (applyOut req w (Out.onErr info)) n p (w.loaders n).id)) := by
  refine ⟨?_, ?_, ?_⟩
  · intro hsrc
    rw [defaultLoadHandler_of_no_src w n hsrc, honce]
    exact loadedAndGone_of_onComplete w _ _ n p hp hlive (loaders_of_prepared _ _ _) rfl
  · intro hsrc
    have hc : (modeSwitch (cancelOld w (w.loaders n).req) (w.loaders n).opts).1.reqCount
        = w.reqCount := (modeSwitch_reqCount _ _).trans (cancelOld_reqCount _ _)
    rw [defaultLoadHandler_of_src w n hsrc, startLoad_envs, hc]
    simp only [Function.update_same]
    exact ⟨trivial, honce⟩
  · intro req info hl ho
    constructor
    · obtain ⟨w1, h1, hv⟩ := handlerOnLoad_loaders w (w.envs req) info
      rw [hl, ho] at hv
      exact loadedAndGone_of_onComplete w w1 _ n p hp hlive h1 hv
    · intro hend
      obtain ⟨w1, h1, hv⟩ := handlerOnErr_loaders w (w.envs req) info hend
      rw [hl, ho] at hv
      exact loadedAndGone_of_onComplete w w1 _ n p hp hlive h1 hv

/-- Witness of C14 (amended): the container 2 of the sample page, without a source, is
destroyed by the handler itself; loader 6, with request 0 in flight, by the success
closure and by the error closure of request 0. -/
theorem once_completion_destroys_live_loader_witness :
    LoadedAndGone (defaultLoadHandler samplePage 2) 2 1 (samplePage.loaders 2).id ∧
    (samplePage.loaders 2).id = 2 ∧
    LoadedAndGone (applyOut 0 sampleLoading (Out.onLoad (sampleLoading.reqs 0).baseInfo))
      6 1 (sampleLoading.loaders 6).id ∧
    LoadedAndGone
      (applyOut 0 sampleLoading (Out.onErr ⟨El.dom 5, "d.png", "d.png", true⟩))
      6 1 (sampleLoading.loaders 6).id ∧
    (sampleLoading.loaders 6).id = 6 ∧
    (sampleLoading.loaders 1).children.has 6 = true ∧
    ((transport sampleLoading (LoadEl.el (El.dom 5)) Signal.load).loaders 1).children.has 6
      = false :=
  ⟨(once_completion_destroys_live_loader samplePage 2 1 (by decide!) (by decide!)
      (by decide!)).1 (by decide!),
    by decide!,
    ((once_completion_destroys_live_loader sampleLoading 6 1 (by decide!) (by decide!)
      (by decide!)).2.2 0 _ (by decide!) (by decide!)).1,
    ((once_completion_destroys_live_loader sampleLoading 6 1 (by decide!) (by decide!)
      (by decide!)).2.2 0 _ (by decide!) (by decide!)).2 rfl,
    by decide!, by decide!, by decide!⟩

/-! ## `destroy({deep: true})` -/

theorem Forest.roots_sub (f : Forest) : ∀ x ∈ f.roots, x ∈ f.ids := by
  induction f with
  | nil => intro x hx; cases hx
  | cons id kids rest _ ihr =>
    intro x hx
    rcases List.mem_cons.1 hx with h | h
    · rw [h]; exact List.mem_cons_self _ _
    · exact List.mem_cons_of_mem _ (List.mem_append_right _ (ihr x h))

theorem registered_congr (w w' : World) (f : Forest) :
    ∀ p, (∀ x ∈ f.ids, w'.loaders x = w.loaders x) → Registered w p f → Registered w' p f := by
  induction f with
  | nil => intro p _ _; trivial
  | cons id kids rest ihk ihr =>
    intro p h hr
    obtain ⟨h1, h2, h3, h4, h5, h6⟩ := hr
    have hid : w'.loaders id = w.loaders id := h id (List.mem_cons_self _ _)
    refine ⟨by rw [hid]; exact h1, by rw [hid]; exact h2, by rw [hid]; exact h3,
      by rw [hid]; exact h4, ?_, ?_⟩
    · exact ihk id (fun x hx => h x (List.mem_cons_of_mem _ (List.mem_append_left _ hx))) h5
    · exact ihr p (fun x hx => h x (List.mem_cons_of_mem _ (List.mem_append_right _ hx))) h6

theorem foldlM_guard {α : Type} (f : World → α → Except Err World) (l : List α) (w : World) :
    (if l.length > 0 then l.foldlM f w else Except.ok w) = l.foldlM f w := by
  cases l with
  | nil => rfl
  | cons a rest => simp

theorem destroyShallow_child (w : World) (n p : Nat) (hpn : p ≠ n)
    (hp : (w.loaders n).parent = some p) (hlive : (w.loaders n).destroyed = false) :
    (∀ j, j ≠ p → j ≠ n → (destroyShallow w n).loaders j = w.loaders j) ∧
    (destroyShallow w n).loaders n = { (w.loaders n) with destroyed := true } ∧
    ((destroyShallow w n).loaders p).children = (w.loaders p).children.rm (w.loaders n).id ∧
    ((destroyShallow w n).loaders p).id = (w.loaders p).id ∧
    ((destroyShallow w n).loaders p).parent = (w.loaders p).parent ∧
    ((destroyShallow w n).loaders p).destroyed = (w.loaders p).destroyed := by
  rw [destroyShallow_live w n p hp hlive]
  have hnp : n ≠ p := fun h => hpn h.symm
  obtain ⟨C, hC⟩ := rmChild_me w p n
  refine ⟨?_, ?_, ?_, ?_, ?_, ?_⟩
  · intro j hjp hjn
    simp only [World.setLoader, Function.update_noteq hjn]
    exact rmChild_ne w p n j hjp
  · simp only [World.setLoader, Function.update_same]
    rw [rmChild_ne w p n n hnp]
  · simp only [World.setLoader, Function.update_noteq hpn]
    rw [hC]
  · simp only [World.setLoader, Function.update_noteq hpn]
    rw [hC]
  · simp only [World.setLoader, Function.update_noteq hpn]
    rw [hC]
  · simp only [World.setLoader, Function.update_noteq hpn]
    rw [hC]

theorem rm_head (id : Nat) (l : List Nat) (hid : id ∉ l) :
    (FMap.mk ((id, id) :: l.map (fun k => (k, k)))).rm id = FMap.mk (l.map (fun k => (k, k))) := by
  unfold FMap.rm
  simp only [FMap.mk.injEq]
  rw [List.filter_cons_of_neg (by simp)]
  rw [List.filter_eq_self]
  intro e he
  obtain ⟨k, hk, hke⟩ := List.mem_map.1 he
  subst hke
  simp only [Bool.not_eq_eq_eq_not, Bool.not_true, beq_eq_false_iff_ne, ne_eq]
  intro h
  exact hid (h ▸ hk)

theorem children_eq_of_entries (m : FMap Nat) (l : List (Nat × Nat)) (h : m.entries = l) :
    m = FMap.mk l := by
  cases m
  simp only [FMap.mk.injEq]
  exact h

/-- The loop of `destroyLoaderDeep` over the children of `p`, on a forest of loaders
registered below `p`: it ends, and calls `destroy()` on the loaders in post-order. -/
theorem deep_forest (f : Forest) :
    ∀ (fuel : Nat) (w : World) (p : Nat),
      f.depth ≤ fuel → Registered w p f → (p :: f.ids).Nodup →
      (w.loaders p).children.entries = f.roots.map (fun k => (k, k)) →
      f.roots.foldlM
          (fun w1 k =>
            match (w1.loaders p).children.get k with
            | some child => destroyLoaderDeep fuel w1 child
            | none => Except.error (Err.typeError w1))
          w = Except.ok (f.postOrder.foldl destroyShallow w) ∧
      (∀ j, j ≠ p → j ∉ f.ids →
        (f.postOrder.foldl destroyShallow w).loaders j = w.loaders j) ∧
      (∀ x ∈ f.ids, ((f.postOrder.foldl destroyShallow w).loaders x).destroyed = true ∧
        ((f.postOrder.foldl destroyShallow w).loaders x).children.entries = []) ∧
      ((f.postOrder.foldl destroyShallow w).loaders p).children.entries = [] ∧
      ((f.postOrder.foldl destroyShallow w).loaders p).id = (w.loaders p).id ∧
      ((f.postOrder.foldl destroyShallow w).loaders p).parent = (w.loaders p).parent ∧
      ((f.postOrder.foldl destroyShallow w).loaders p).destroyed = (w.loaders p).destroyed := by
  induction f with
  | nil =>
    intro fuel w p _ _ _ hreg
    exact ⟨rfl, fun _ _ _ => rfl, fun x hx => absurd hx (List.not_mem_nil x), hreg, rfl, rfl, rfl⟩
  | cons id kids rest ihk ihr =>
    intro fuel w p hfuel hr hnd hreg
    obtain ⟨h1, h2, h3, h4, h5, h6⟩ := hr
    -- the facts of distinctness
    have hnd' : p ≠ id ∧ p ∉ kids.ids ∧ p ∉ rest.ids ∧ id ∉ kids.ids ∧ id ∉ rest.ids ∧
        kids.ids.Nodup ∧ rest.ids.Nodup ∧ (∀ x ∈ kids.ids, x ∉ rest.ids) := by
      simp only [Forest.ids, List.nodup_cons, List.mem_cons, List.mem_append, not_or,
        List.nodup_append, List.Disjoint] at hnd
      obtain ⟨⟨a1, a2, a3⟩, ⟨a4, a5⟩, a6, a7, a8⟩ := hnd
      exact ⟨a1, a2, a3, a4, a5, a6, a7, fun x hx hx' => a8 hx hx'⟩
    obtain ⟨hpid, hpk, hpr, hidk, hidr, hndk, hndr, hdisj⟩ := hnd'
    have hidp : id ≠ p := fun h => hpid h.symm
    -- the fuel
    have hdepth : kids.depth + 1 ≤ fuel := le_trans (le_max_left _ _) hfuel
    have hdepthr : rest.depth ≤ fuel := le_trans (le_max_right _ _) hfuel
    obtain ⟨g, hg⟩ : ∃ g, fuel = g + 1 := ⟨fuel - 1, by omega⟩
    have hgk : kids.depth ≤ g := by omega
    -- the children of `id`
    obtain ⟨k1, k2, k3, k4, k5, k6, k7⟩ := ihk g w id hgk h5
      (List.nodup_cons.2 ⟨hidk, hndk⟩) h4
    have hkeys : (w.loaders id).children.keys = kids.roots := by
      unfold FMap.keys
      rw [h4, List.map_map]
      exact List.map_id _
    have hsize : (w.loaders id).children.size = (w.loaders id).children.keys.length := by
      unfold FMap.size FMap.keys
      rw [List.length_map]
    have hdeep : destroyLoaderDeep fuel w id =
        Except.ok (destroyShallow (kids.postOrder.foldl destroyShallow w) id) := by
      rw [hg]
      unfold destroyLoaderDeep
      dsimp only
      rw [hsize, foldlM_guard, hkeys]
      exact congrArg (Except.map (fun w1 => destroyShallow w1 id)) k1
    -- `destroy()` on `id`
    have hW1p : (kids.postOrder.foldl destroyShallow w).loaders p = w.loaders p :=
      k2 p hpid hpk
    have hd := destroyShallow_child (kids.postOrder.foldl destroyShallow w) id p hpid
      (by rw [k6]; exact h2) (by rw [k7]; exact h3)
    obtain ⟨d1, d2, d3, d4, d5, d6⟩ := hd
    rw [k5, h1, hW1p] at d3
    rw [hW1p] at d4 d5 d6
    have hreg2 : ((destroyShallow (kids.postOrder.foldl destroyShallow w) id).loaders
        p).children.entries = rest.roots.map (fun k => (k, k)) := by
      rw [d3, children_eq_of_entries _ _ hreg]
      show (FMap.rm (FMap.mk ((id, id) :: rest.roots.map (fun k => (k, k)))) id).entries = _
      rw [rm_head id rest.roots (fun h => hidr (Forest.roots_sub rest id h))]
    have hrest : Registered (destroyShallow (kids.postOrder.foldl destroyShallow w) id) p rest := by
      refine registered_congr w _ rest p ?_ h6
      intro x hx
      have hxp : x ≠ p := fun h => hpr (h ▸ hx)
      have hxid : x ≠ id := fun h => hidr (h ▸ hx)
      have hxk : x ∉ kids.ids := fun h => hdisj x h hx
      rw [d1 x hxp hxid, k2 x hxid hxk]
    obtain ⟨r1, r2, r3, r4, r5, r6, r7⟩ := ihr fuel
      (destroyShallow (kids.postOrder.foldl destroyShallow w) id) p hdepthr hrest
      (List.nodup_cons.2 ⟨hpr, hndr⟩) hreg2
    have hpost : (Forest.cons id kids rest).postOrder.foldl destroyShallow w =
        rest.postOrder.foldl destroyShallow
          (destroyShallow (kids.postOrder.foldl destroyShallow w) id) := by
      show (kids.postOrder ++ [id] ++ rest.postOrder).foldl destroyShallow w = _
      rw [List.foldl_append, List.foldl_append]
      rfl
    have hget : (w.loaders p).children.get id = some id := by
      unfold FMap.get
      rw [hreg]
      simp [Forest.roots]
    rw [hpost]
    refine ⟨?_, ?_, ?_, r4, r5.trans d4, r6.trans d5, r7.trans d6⟩
    · show (id :: rest.roots).foldlM _ w = _
      rw [List.foldlM_cons]
      simp only [hget]
      rw [hdeep]
      exact r1
    · intro j hjp hj
      have hj' : j ≠ id ∧ j ∉ kids.ids ∧ j ∉ rest.ids := by
        simp only [Forest.ids, List.mem_cons, List.mem_append, not_or] at hj
        exact ⟨hj.1, hj.2.1, hj.2.2⟩
      rw [r2 j hjp hj'.2.2, d1 j hjp hj'.1, k2 j hj'.1 hj'.2.1]
    · intro x hx
      simp only [Forest.ids, List.mem_cons, List.mem_append] at hx
      rcases hx with hx | hx | hx
      · subst hx
        rw [r2 x hidp hidr, d2]
        exact ⟨rfl, k4⟩
      · have hxp : x ≠ p := fun h => hpk (h ▸ hx)
        have hxid : x ≠ id := fun h => hidk (h ▸ hx)
        rw [r2 x hxp (hdisj x hx), d1 x hxp hxid]
        exact k3 x hx
      · exact r3 x hx

theorem destroyShallow_orphan (w : World) (n : Nat)
    (hp : (w.loaders n).parent = none) (hlive : (w.loaders n).destroyed = false) :
    (∀ j, j ≠ n → (destroyShallow w n).loaders j = w.loaders j) ∧
    ((destroyShallow w n).loaders n).children = (w.loaders n).children := by
  unfold destroyShallow
  simp only [hlive, hp, Bool.not_false, if_true]
  constructor
  · intro j hj
    simp only [World.setLoader, Function.update_noteq hj]
    split <;> rfl
  · simp only [World.setLoader, Function.update_same]
    split <;> rfl

theorem destroyShallow_destroyed (w : World) (x y : Nat) :
    ((destroyShallow w x).loaders y).destroyed =
      ((w.loaders y).destroyed || decide (y = x)) := by
  by_cases hyx : y = x
  · subst hyx
    simp only [decide_True, Bool.or_true]
    unfold destroyShallow
    dsimp only
    cases hd : (w.loaders y).destroyed
    · simp only [Bool.not_false, if_true, World.setLoader, Function.update_same]
    · simp only [Bool.not_true, Bool.false_eq_true, if_false, hd]
  · simp only [hyx, decide_False, Bool.or_false]
    unfold destroyShallow
    dsimp only
    split
    · simp only [World.setLoader, Function.update_noteq hyx]
      split
      · exact (rmChild_keeps _ _ _ _).2.1
      · split <;> rfl
    · rfl

theorem fold_destroyed (l : List Nat) (y : Nat) :
    ∀ w : World, ((l.foldl destroyShallow w).loaders y).destroyed =
      ((w.loaders y).destroyed || decide (y ∈ l)) := by
  induction l with
  | nil => intro w; simp
  | cons a rest ih =>
    intro w
    rw [List.foldl_cons, ih, destroyShallow_destroyed]
    by_cases h : y = a
    · simp [h]
    · simp [h]

theorem registered_live (w : World) (f : Forest) :
    ∀ p, Registered w p f → ∀ x ∈ f.ids, (w.loaders x).destroyed = false := by
  induction f with
  | nil => intro p _ x hx; exact absurd hx (List.not_mem_nil x)
  | cons id kids rest ihk ihr =>
    intro p hr x hx
    obtain ⟨_, _, h3, _, h5, h6⟩ := hr
    simp only [Forest.ids, List.mem_cons, List.mem_append] at hx
    rcases hx with hx | hx | hx
    · rw [hx]; exact h3
    · exact ihk id h5 x hx
    · exact ihr p h6 x hx

theorem setLoader_destroyed_self (w : World) (n : Nat) (h : (w.loaders n).destroyed = true) :
    w.setLoader n { (w.loaders n) with destroyed := true } = w := by
  have hn : ({ (w.loaders n) with destroyed := true } : Node) = w.loaders n := by
    cases hx : w.loaders n
    rw [hx] at h
    simp only at h
    subst h
    rfl
  rw [hn]
  unfold World.setLoader
  rw [Function.update_eq_self]


/-- C15 (as stated, refuted): after `check()` on the root of the sample page the
container 2, configured `once` and without a source, has destroyed itself, while its
children 3 and 4 are still registered in its child registry, each with loader 2 as its
parent. `destroy({deep: true})` on loader 2 returns at once: loaders 3 and 4 are not
marked destroyed and the child registry of loader 2 still holds both. -/
theorem deep_destroy_of_destroyed_loader_does_nothing :
    (samplePageChecked.loaders 2).children.keys = [3, 4] ∧
    (samplePageChecked.loaders 2).children.get 3 = some 3 ∧
    (samplePageChecked.loaders 2).children.get 4 = some 4 ∧
    (samplePageChecked.loaders 3).parent = some 2 ∧
    (samplePageChecked.loaders 4).parent = some 2 ∧
    (samplePageChecked.loaders 3).children.size = 0 ∧
    (samplePageChecked.loaders 4).children.size = 0 ∧
    (samplePageChecked.loaders 3).destroyed = false ∧
    (samplePageChecked.loaders 4).destroyed = false ∧
    (samplePageChecked.loaders 2).destroyed = true ∧
    (destroy 2 samplePageChecked 2 true).toBool = true ∧
    (leftBy (destroy 2 samplePageChecked 2 true)).map
        (fun v => ((v.loaders 2).destroyed, (v.loaders 3).destroyed, (v.loaders 4).destroyed,
          (v.loaders 2).children.keys)) =
      some (true, false, false, [3, 4]) := by
  decide!

/-- C15 (amended): let `N` be a loader that is not destroyed, `kids` the forest of the
loaders below it, none of them destroyed, each registered under its id in the child
registry of its own parent, all distinct, the parent of `N` (if any) outside the tree.
Then `destroy({deep: true})` on `N` returns (with fuel above the depth of the tree), and
the world it leaves is the one that `destroy()` leaves when called on the loaders of the
tree one after the other in post-order, every child before its parent and `N` last;
after any such sequence of calls a loader of the tree is marked destroyed exactly when
it was in the sequence. In the end `N` and every loader below it is marked destroyed and
has an empty child registry, and the id of `N` is not in the registry of its parent. -/
theorem deep_destroy_marks_tree_bottom_up (fuel : Nat) (w : World) (N : Nat) (kids : Forest)
    (hlive : (w.loaders N).destroyed = false)
    (hreg : (w.loaders N).children.entries = kids.roots.map (fun k => (k, k)))
    (hkids : Registered w N kids)
    (hnodup : (N :: kids.ids).Nodup)
    (hparent : ∀ p, (w.loaders N).parent = some p → p ∉ N :: kids.ids)
    (hfuel : kids.depth < fuel) :
    destroy fuel w N true = Except.ok ((kids.postOrder ++ [N]).foldl destroyShallow w) ∧
    (∀ (pre : List Nat), ∀ y ∈ N :: kids.ids,
      ((pre.foldl destroyShallow w).loaders y).destroyed = decide (y ∈ pre)) ∧
    (∀ x ∈ N :: kids.ids,
      (((kids.postOrder ++ [N]).foldl destroyShallow w).loaders x).destroyed = true ∧
      (((kids.postOrder ++ [N]).foldl destroyShallow w).loaders x).children.size = 0) ∧
    (∀ p, (w.loaders N).parent = some p →
      (((kids.postOrder ++ [N]).foldl destroyShallow w).loaders p).children.has
        (w.loaders N).id = false) := by
  obtain ⟨g, hg⟩ : ∃ g, fuel = g + 1 := ⟨fuel - 1, by omega⟩
  have hgk : kids.depth ≤ g := by omega
  obtain ⟨k1, k2, k3, k4, k5, k6, k7⟩ := deep_forest kids g w N hgk hkids hnodup hreg
  have hNk : N ∉ kids.ids := (List.nodup_cons.1 hnodup).1
  have hkeys : (w.loaders N).children.keys = kids.roots := by
    unfold FMap.keys
    rw [hreg, List.map_map]
    exact List.map_id _
  have hsize : (w.loaders N).children.size = (w.loaders N).children.keys.length := by
    unfold FMap.size FMap.keys
    rw [List.length_map]
  have hdeep : destroyLoaderDeep fuel w N =
      Except.ok (destroyShallow (kids.postOrder.foldl destroyShallow w) N) := by
    rw [hg]
    unfold destroyLoaderDeep
    dsimp only
    rw [hsize, foldlM_guard, hkeys]
    exact congrArg (Except.map (fun w1 => destroyShallow w1 N)) k1
  have hfold : (kids.postOrder ++ [N]).foldl destroyShallow w =
      destroyShallow (kids.postOrder.foldl destroyShallow w) N := by
    rw [List.foldl_append]
    rfl
  have hdN : ((destroyShallow (kids.postOrder.foldl destroyShallow w) N).loaders N).destroyed
      = true := by
    rw [destroyShallow_destroyed]
    simp
  have hlive1 : ((kids.postOrder.foldl destroyShallow w).loaders N).destroyed = false := by
    rw [k7]; exact hlive
  rw [hfold]
  refine ⟨?_, ?_, ?_, ?_⟩
  · unfold destroy
    simp only [hlive, Bool.not_false, if_true, Bool.not_true, Bool.false_eq_true, if_false]
    rw [hdeep]
    exact congrArg Except.ok (setLoader_destroyed_self _ _ hdN)
  · intro pre y hy
    rw [fold_destroyed]
    have : (w.loaders y).destroyed = false := by
      rcases List.mem_cons.1 hy with h | h
      · rw [h]; exact hlive
      · exact registered_live w kids N hkids y h
    rw [this, Bool.false_or]
  · -- the loaders of the tree after `destroy()` on `N`
    have hframe : ∀ x, x ∈ kids.ids →
        (destroyShallow (kids.postOrder.foldl destroyShallow w) N).loaders x =
          (kids.postOrder.foldl destroyShallow w).loaders x := by
      intro x hx
      have hxN : x ≠ N := fun h => hNk (h ▸ hx)
      cases hp : (w.loaders N).parent with
      | none =>
        exact (destroyShallow_orphan _ N (by rw [k6]; exact hp) hlive1).1 x hxN
      | some p =>
        have hpn := hparent p hp
        have hpN : p ≠ N := fun h => hpn (h ▸ List.mem_cons_self _ _)
        have hxp : x ≠ p := fun h => hpn (h ▸ List.mem_cons_of_mem _ hx)
        exact (destroyShallow_child _ N p hpN (by rw [k6]; exact hp) hlive1).1 x hxp hxN
    have hself : ((destroyShallow (kids.postOrder.foldl destroyShallow w) N).loaders
        N).children.entries = [] := by
      cases hp : (w.loaders N).parent with
      | none =>
        rw [(destroyShallow_orphan _ N (by rw [k6]; exact hp) hlive1).2]
        exact k4
      | some p =>
        have hpn := hparent p hp
        have hpN : p ≠ N := fun h => hpn (h ▸ List.mem_cons_self _ _)
        rw [(destroyShallow_child _ N p hpN (by rw [k6]; exact hp) hlive1).2.1]
        exact k4
    intro x hx
    rcases List.mem_cons.1 hx with h | h
    · subst h
      refine ⟨hdN, ?_⟩
      unfold FMap.size
      rw [hself]
      rfl
    · rw [hframe x h]
      refine ⟨(k3 x h).1, ?_⟩
      unfold FMap.size
      rw [(k3 x h).2]
      rfl
  · intro p hp
    have h := (destroyShallow_gone (kids.postOrder.foldl destroyShallow w) N p
      (by rw [k6]; exact hp) hlive1).2.2.1
    rw [k5] at h
    exact h


/-- Witness of C15 (amended): `destroy({deep: true})` on the root of the sample page
destroys the loaders in the order 3, 4, 2, 5, 6, 7, 1; on the container 2 it destroys
3, 4 and 2, and takes loader 2 out of the registry of the root. -/
theorem deep_destroy_marks_tree_bottom_up_witness :
    sampleForest.postOrder ++ [1] = [3, 4, 2, 5, 6, 7, 1] ∧
    destroy 3 samplePage 1 true
      = Except.ok ((sampleForest.postOrder ++ [1]).foldl destroyShallow samplePage) ∧
    (∀ x ∈ 1 :: sampleForest.ids,
      (((sampleForest.postOrder ++ [1]).foldl destroyShallow samplePage).loaders x).destroyed
        = true ∧
      (((sampleForest.postOrder ++ [1]).foldl destroyShallow
        samplePage).loaders x).children.size = 0) ∧
    (samplePage.loaders 1).children.has 2 = true ∧
    ((((Forest.cons 3 Forest.nil (Forest.cons 4 Forest.nil Forest.nil)).postOrder
      ++ [2]).foldl destroyShallow samplePage).loaders 1).children.has
        (samplePage.loaders 2).id = false :=
  ⟨by decide,
    (deep_destroy_marks_tree_bottom_up 3 samplePage 1 sampleForest (by decide!) (by decide!)
      (by decide!) (by decide) (by decide!) (by decide)).1,
    (deep_destroy_marks_tree_bottom_up 3 samplePage 1 sampleForest (by decide!) (by decide!)
      (by decide!) (by decide) (by decide!) (by decide)).2.2.1,
    by decide!,
    (deep_destroy_marks_tree_bottom_up 2 samplePage 2
      (Forest.cons 3 Forest.nil (Forest.cons 4 Forest.nil Forest.nil)) (by decide!)
      (by decide!) (by decide!) (by decide) (by decide!) (by decide)).2.2.2 1 (by decide!)⟩

end Lazyload
